import Mathlib

/-!
# The Dancing Pony: request pipeline

A shallow embedding of the restaurant-menu backend: the request gates
(`middleware/auth_middleware.go`, `middleware/permission_middleware.go`,
`middleware/logging_middleware.go`,
`middleware/ip_based_rate_limiter_middleware.go`,
`middleware/user_based_rate_limiter_middleware.go`), the order in which
`router/router.go` mounts them, the signing key and the context helpers of
`helper/helper.go`, the token issue, registration and login of
`service/user_service_impl.go` and `controller/user_controller.go`, the
dish service with its cache (`service/dishe_service_impl.go`), the restaurant
service (`service/restaurant_service_impl.go`) and the pagination of the
controllers (`controller/dishe_controller.go`,
`controller/restaurant_controller.go`), together with the parts of
`model/models.go` and of the request and response types they use; and the
properties of these.

Conventions of the embedding:

* a `gin.Context` is a record of the request data a middleware reads (path
  parameters, headers, client address), the key/value store `Keys`, the
  responses written so far and the abort flag;
* `c.Next()` in tail position is the identity: the handler chain (`runChain`)
  goes on with the next handler exactly when the context is not aborted;
* collaborators reached through an interface (the repositories) are
  parameters that give the answers of the collaborator at the time of the
  request; the clock and the process environment are parameters;
* a Go `int` is an integer wrapped to 64 bits (`wrapInt`) where the code
  computes with it, and a division by zero is a result of its own (`intDiv`);
* libraries are embedded from their behaviour where a property depends on it
  (`uuid.Parse`, the claim validation of jwt-go, the key commands of Redis,
  `strconv.Atoi`),
  and what is cryptography or encoding in them (HMAC, base64, JSON, bcrypt)
  is a parameter;
* log calls have no effect on the state and are left out.
-/

namespace DancingPony

-- Equality of results `(value, error)` is decidable.
deriving instance DecidableEq for Except

/-! ## model/models.go -/

/-- The type `uuid.UUID`: an array of 16 bytes. -/
structure UUID where
  bytes : List (Fin 256)
  size : bytes.length = 16
deriving DecidableEq

/-- One lower-case hexadecimal digit. -/
def hexDigit (n : Nat) : Char :=
  if n < 10 then Char.ofNat (48 + n) else Char.ofNat (87 + n)

/-- Lower-case hexadecimal encoding of a byte sequence (`hex.Encode`). -/
def hexEncode : List (Fin 256) → List Char
  | [] => []
  | b :: bs => hexDigit (b.val / 16) :: hexDigit (b.val % 16) :: hexEncode bs

/-- The method `UUID.String`: the canonical form
`xxxxxxxx-xxxx-xxxx-xxxx-xxxxxxxxxxxx`. -/
def UUID.String (u : UUID) : String :=
  ⟨hexEncode (u.bytes.take 4) ++ '-' ::
    hexEncode ((u.bytes.drop 4).take 2) ++ '-' ::
    hexEncode ((u.bytes.drop 6).take 2) ++ '-' ::
    hexEncode ((u.bytes.drop 8).take 2) ++ '-' ::
    hexEncode (u.bytes.drop 10)⟩

/-- The struct `model.Permission`. -/
structure Permission where
  ID : Nat
  Name : String
deriving DecidableEq

/-- The struct `model.User`, with the fields the request gates read. -/
structure User where
  ID : UUID
  Name : String
  Email : String
  Password : String
  Permissions : List Permission
  RestaurantID : UUID
deriving DecidableEq

/-! ## gin.Context -/

/-- A value stored in the context under a key (an `interface{}`). -/
inductive Value where
  | string (s : String)
  | user (u : User)
  | permissions (ps : List Permission)
  | other
deriving DecidableEq

/-- A response written with `c.JSON`: the status code and the `gin.H` body. -/
structure Response where
  status : Nat
  body : List (String × String)
deriving DecidableEq

/-- The request context handed along the handler chain. -/
structure Context where
  /-- Path parameters: `c.Param key`, the empty string when absent. -/
  Params : String → String
  /-- Request headers: `c.Request.Header.Get key`, the empty string when absent. -/
  Header : String → String
  /-- The client address, `c.ClientIP()`. -/
  ClientIP : String
  /-- The key/value store read by `c.Get` and written by `c.Set`. -/
  Keys : String → Option Value
  /-- The responses written so far, oldest first. -/
  written : List Response
  /-- Whether `c.Abort()` has been called. -/
  aborted : Bool
  /-- The query string of the URL: the first value of a key, none when the
  key is absent. -/
  QueryParams : String → Option String := fun _ => none

/-- The call `c.Param(key)`. -/
def Context.Param (c : Context) (key : String) : String := c.Params key

/-- The call `c.Get(key)`. -/
def Context.Get (c : Context) (key : String) : Option Value := c.Keys key

/-- The call `c.Set(key, value)`. -/
def Context.Set (c : Context) (key : String) (v : Value) : Context :=
  { c with Keys := fun k => if k = key then some v else c.Keys k }

/-- The call `c.JSON(status, body)`. -/
def Context.JSON (c : Context) (status : Nat) (body : List (String × String)) : Context :=
  { c with written := c.written ++ [⟨status, body⟩] }

/-- The call `c.Abort()`. -/
def Context.Abort (c : Context) : Context :=
  { c with aborted := true }

/-- The call `c.Query(key)`: the empty string when the key is absent. -/
def Context.Query (c : Context) (key : String) : String :=
  match c.QueryParams key with
  | some value => value
  | none => ""

/-- The call `c.DefaultQuery(key, defaultValue)`: the value of the key when
the URL has it, even an empty one, else the default. -/
def Context.DefaultQuery (c : Context) (key defaultValue : String) : String :=
  match c.QueryParams key with
  | some value => value
  | none => defaultValue

/-- A handler of a chain, over the process-wide state `σ` it may change. -/
abbrev HandlerFunc (σ : Type) := σ × Context → σ × Context

/-- A handler that neither reads nor changes the process-wide state. -/
def HandlerFunc.pure {σ : Type} (h : Context → Context) : HandlerFunc σ :=
  fun s => (s.1, h s.2)

/-- The handler chain of gin: the handlers run in order until one aborts. -/
def runChain {σ : Type} : List (HandlerFunc σ) → σ × Context → σ × Context
  | [], s => s
  | h :: rest, s => if (h s).2.aborted then h s else runChain rest (h s)

/-- HTTP status codes used by the gates. -/
def StatusBadRequest : Nat := 400
def StatusUnauthorized : Nat := 401
def StatusForbidden : Nat := 403
def StatusTooManyRequests : Nat := 429
def StatusInternalServerError : Nat := 500

/-! ## middleware/auth_middleware.go -/

/-- The function `strings.TrimPrefix`. -/
def TrimPrefix (s pre : String) : String :=
  if pre.data.isPrefixOf s.data then ⟨s.data.drop pre.data.length⟩ else s

/-- A claim value of `jwt.MapClaims` (an `interface{}`). -/
inductive ClaimValue where
  | string (s : String)
  | number (n : Int)
  | uuid (u : UUID)
  | other
deriving DecidableEq

/-- The parsed `jwt.Token`: the validity flag and the claims. -/
structure Token where
  Valid : Bool
  Claims : String → Option ClaimValue

/-- The interface `repository.UserRepository`: the answers of the repository
at the time of a request. `Create` answers with its error, if any; the users
handed to it are recorded by the caller. -/
structure UserRepository where
  FindByID : String → Except String User
  FindByEmail : String → UUID → Except String User := fun _ _ => .error "User not found"
  FindPermission : String → Except String Permission := fun _ => .error "record not found"
  Create : User → Except String Unit := fun _ => .ok ()

/-- The token parser `jwt.ParseWithClaims` applied to a token string and the
key the key function returns. -/
abbrev TokenParser := String → String → Except String Token

/-- The answer of `AuthMiddleware` to a request it rejects. -/
def unauthorized (c : Context) (message : String) : Context :=
  (c.JSON StatusUnauthorized [("message", message)]).Abort

/-- The loop of `AuthMiddleware` that looks for the permission "admin". -/
def isAdmin (permissions : List Permission) : Bool :=
  permissions.any (fun perm => perm.Name == "admin")

/-- The three `c.Set` calls by which `AuthMiddleware` publishes the identity. -/
def setIdentity (c : Context) (user : User) (userID : String) : Context :=
  ((c.Set "user" (.user user)).Set "user_id" (.string userID)).Set
    "permissions" (.permissions user.Permissions)

/-- The handler returned by `AuthMiddleware(userRepo)`. -/
def AuthMiddleware (jwtSecret : String) (ParseWithClaims : TokenParser)
    (userRepo : UserRepository) (c : Context) : Context :=
  let restaurantIDStr := c.Param "restaurantId"
  let tokenString := TrimPrefix (c.Header "Authorization") "Bearer "
  if tokenString = "" then
    unauthorized c "Authorization token is required"
  else
    match ParseWithClaims tokenString jwtSecret with
    | .error _ => unauthorized c "Invalid token"
    | .ok token =>
      if !token.Valid then
        unauthorized c "Token is not valid"
      else
        match token.Claims "user_id" with
        | some (.string userID) =>
          match userRepo.FindByID userID with
          | .error _ => unauthorized c "User not found"
          | .ok user =>
            if user.RestaurantID.String ≠ restaurantIDStr then
              if !isAdmin user.Permissions then
                unauthorized c "Unauthorized access"
              else
                setIdentity c user userID
            else
              setIdentity c user userID
        | _ => unauthorized c "Invalid token claims"

/-! ## middleware/permission_middleware.go -/

/-- The answer of `PermissionMiddleware` to a request it rejects. -/
def forbidden (c : Context) (status : Nat) (error : String) : Context :=
  (c.JSON status [("error", error)]).Abort

/-- The handler returned by `PermissionMiddleware(requiredPermissions...)`. -/
def PermissionMiddleware (requiredPermissions : List String) (c : Context) : Context :=
  match c.Get "permissions" with
  | none => forbidden c StatusForbidden "Forbidden: no permissions found"
  | some (.permissions permArray) =>
    let requiredPermissionsMap : String → Bool := fun name => requiredPermissions.contains name
    let hasPermission := permArray.any (fun perm => requiredPermissionsMap perm.Name)
    if !hasPermission then
      forbidden c StatusForbidden "Forbidden: insufficient permissions"
    else
      c
  | some _ =>
    forbidden c StatusInternalServerError "Internal server error: unexpected permissions format"

/-! ## The clock -/

/-- A reading of `time.Now()`: nanoseconds on the monotonic clock. -/
abbrev Time := Int

/-- The type `time.Duration`: a signed 64-bit count of nanoseconds. -/
abbrev Duration := Int

/-- The largest `time.Duration`. -/
def maxDuration : Duration := 9223372036854775807

/-- The smallest `time.Duration`. -/
def minDuration : Duration := -9223372036854775808

/-- The method `Time.Sub`: the difference `t - u`, saturated to the range of
`time.Duration`. -/
def Time.Sub (t u : Time) : Duration :=
  if t - u > maxDuration then maxDuration
  else if t - u < minDuration then minDuration
  else t - u

/-- One second, as a `time.Duration`. -/
def Second : Duration := 1000000000

/-! ## middleware/ip_based_rate_limiter_middleware.go -/

/-- The struct `IPRateLimiter` (the mutex serialises the checks and has no
state of its own). -/
structure IPRateLimiter where
  ipRequestTimes : String → Option (List Time)
  requestWindow : Duration
  maxAllowedRequests : Int

/-- The constructor `NewIPRateLimiter`. -/
def NewIPRateLimiter (requestWindow : Duration) (maxAllowedRequests : Int) : IPRateLimiter :=
  { ipRequestTimes := fun _ => none
    requestWindow := requestWindow
    maxAllowedRequests := maxAllowedRequests }

/-- The answer of both rate limiters to a request over the limit. -/
def tooManyRequests (c : Context) : Context :=
  (c.JSON StatusTooManyRequests [("error", "Too many requests. Please try again later.")]).Abort

/-- The handler returned by `IPRateLimiter.Limit`, run when the clock reads
`currentTime`. -/
def IPRateLimiter.Limit (currentTime : Time) : HandlerFunc IPRateLimiter :=
  fun s =>
    let rl := s.1
    let c := s.2
    let clientIP := c.ClientIP
    let requestTimes : List Time :=
      match rl.ipRequestTimes clientIP with
      | none => []
      | some requestTimes =>
        requestTimes.filter (fun timestamp => Time.Sub currentTime timestamp < rl.requestWindow)
    if (requestTimes.length : Int) ≥ rl.maxAllowedRequests then
      (rl, tooManyRequests c)
    else
      ({ rl with
          ipRequestTimes := fun k =>
            if k = clientIP then some (requestTimes ++ [currentTime]) else rl.ipRequestTimes k },
        c)

/-! ## middleware/user_based_rate_limiter_middleware.go -/

/-- The struct `RateLimiter`. -/
structure RateLimiter where
  userRequestTimes : String → Option (List Time)
  requestWindow : Duration
  maxAllowedRequests : Int

/-- The constructor `NewRateLimiter`. -/
def NewRateLimiter (requestWindow : Duration) (maxAllowedRequests : Int) : RateLimiter :=
  { userRequestTimes := fun _ => none
    requestWindow := requestWindow
    maxAllowedRequests := maxAllowedRequests }

/-- The handler returned by `RateLimiter.Limit`, run when the clock reads
`currentTime`. The branch for a missing `user_id` writes its response and
returns; its `c.Abort()` is commented out in the source. -/
def RateLimiter.Limit (currentTime : Time) : HandlerFunc RateLimiter :=
  fun s =>
    let rl := s.1
    let c := s.2
    match c.Get "user_id" with
    | none => (rl, c.JSON StatusUnauthorized [("error", "User not authenticated")])
    | some (.string userIDStr) =>
      let requestTimes : List Time :=
        match rl.userRequestTimes userIDStr with
        | none => []
        | some requestTimes =>
          requestTimes.filter (fun timestamp => Time.Sub currentTime timestamp < rl.requestWindow)
      if (requestTimes.length : Int) ≥ rl.maxAllowedRequests then
        (rl, tooManyRequests c)
      else
        ({ rl with
            userRequestTimes := fun k =>
              if k = userIDStr then some (requestTimes ++ [currentTime])
              else rl.userRequestTimes k },
          c)
    | some _ =>
      (rl, (c.JSON StatusInternalServerError [("error", "Invalid user ID")]).Abort)

/-- Serving a sequence of requests one after the other with a stateful handler:
the request `i` arrives with its own context at its own clock reading; the
contexts are returned as the handler leaves them. -/
def serve {σ : Type} (limit : Time → HandlerFunc σ) :
    σ → List (Time × Context) → σ × List Context
  | rl, [] => (rl, [])
  | rl, (t, c) :: rest =>
    let r := limit t (rl, c)
    let rs := serve limit r.1 rest
    (rs.1, r.2 :: rs.2)

/-! ## A concrete deployment, used to exercise the theorems -/

/-- A tenant identifier. -/
def tenant1 : UUID := ⟨[1, 35, 69, 103, 137, 171, 205, 239, 1, 35, 69, 103, 137, 171, 205, 239], rfl⟩

/-- A customer of `tenant1`. -/
def alice : User :=
  { ID := ⟨[10, 10, 10, 10, 10, 10, 10, 10, 10, 10, 10, 10, 10, 10, 10, 10], rfl⟩
    Name := "alice"
    Email := "alice@pony.example"
    Password := "hash-a"
    Permissions := [⟨1, "customer"⟩]
    RestaurantID := tenant1 }

/-- An administrator registered with `tenant1`. -/
def root : User :=
  { ID := ⟨[11, 11, 11, 11, 11, 11, 11, 11, 11, 11, 11, 11, 11, 11, 11, 11], rfl⟩
    Name := "root"
    Email := "root@pony.example"
    Password := "hash-r"
    Permissions := [⟨2, "restaurant"⟩, ⟨3, "admin"⟩]
    RestaurantID := tenant1 }

/-- A user repository holding `alice` and `root`. -/
def repo0 : UserRepository :=
  { FindByID := fun id =>
      if id = "alice-id" then .ok alice
      else if id = "root-id" then .ok root
      else .error "record not found" }

/-- A token parser that accepts three tokens under the key "secret": one for
`alice`, one for `root`, and one whose `user_id` claim is a number. -/
def parse0 : TokenParser := fun tokenString key =>
  if key = "secret" ∧ tokenString = "tok-alice" then
    .ok ⟨true, fun k => if k = "user_id" then some (.string "alice-id") else none⟩
  else if key = "secret" ∧ tokenString = "tok-root" then
    .ok ⟨true, fun k => if k = "user_id" then some (.string "root-id") else none⟩
  else if key = "secret" ∧ tokenString = "tok-num" then
    .ok ⟨true, fun k => if k = "user_id" then some (.number 7) else none⟩
  else if key = "secret" ∧ tokenString = "tok-ghost" then
    .ok ⟨true, fun k => if k = "user_id" then some (.string "ghost-id") else none⟩
  else if key = "secret" ∧ tokenString = "tok-stale" then
    .ok ⟨false, fun _ => none⟩
  else .error "signature is invalid"

/-- A fresh request for the tenant `restaurantId`, from the address `ip`, with
the given `Authorization` header. -/
def request0 (restaurantId authorization ip : String) : Context :=
  { Params := fun k => if k = "restaurantId" then restaurantId else ""
    Header := fun k => if k = "Authorization" then authorization else ""
    ClientIP := ip
    Keys := fun _ => none
    written := []
    aborted := false }

/-- A request of `alice` for a tenant that is not hers. -/
def aliceAbroad : Context :=
  request0 "99999999-9999-9999-9999-999999999999" "Bearer tok-alice" "10.0.0.1"

/-- A request of `root` for a tenant that is not theirs. -/
def rootAbroad : Context :=
  request0 "99999999-9999-9999-9999-999999999999" "Bearer tok-root" "10.0.0.2"

/-! ## Vocabulary for the rate-limiter properties -/

/-- The sequence a check at the clock reading `T` works with: empty when the
key has no record, else the stored timestamps whose age `T.Sub timestamp` is
below the window. -/
def prune (W : Duration) (T : Time) : Option (List Time) → List Time
  | none => []
  | some requestTimes => requestTimes.filter (fun timestamp => Time.Sub T timestamp < W)

/-- The timestamps of `stored` strictly newer than `T - W`, in their order. -/
def newerThan (W : Duration) (T : Time) (stored : List Time) : List Time :=
  stored.filter (fun timestamp => T - W < timestamp)

/-- The map `times` with the sequence of `key` replaced by `requestTimes`. -/
def record (times : String → Option (List Time)) (key : String) (requestTimes : List Time) :
    String → Option (List Time) :=
  fun k => if k = key then some requestTimes else times k

/-- The response 429 of the rate limiters, on the aborted context. -/
def rejected429 (c : Context) : Context :=
  { c with
      written := c.written ++ [⟨429, [("error", "Too many requests. Please try again later.")]⟩]
      aborted := true }

/-- What the two limiters have in common. A handler `limit` over the state
`σ` is a sliding-window log when, for every request to which `key` gives a
key: if the pruned sequence of that key has reached `max`, the state is kept
and the answer is 429 on the aborted context; otherwise the context is left
as it is and the pruned sequence followed by the clock reading is stored for
the key, nothing else changing. -/
def IsSlidingLog {σ : Type} (limit : Time → HandlerFunc σ)
    (times : σ → String → Option (List Time)) (window : σ → Duration) (max : σ → Int)
    (key : Context → Option String) : Prop :=
  ∀ (T : Time) (s : σ) (c : Context) (k : String), key c = some k →
    (max s ≤ ((prune (window s) T (times s k)).length : Int) →
      limit T (s, c) = (s, rejected429 c)) ∧
    (((prune (window s) T (times s k)).length : Int) < max s →
      (limit T (s, c)).2 = c ∧
      times (limit T (s, c)).1 = record (times s) k (prune (window s) T (times s k) ++ [T]) ∧
      window (limit T (s, c)).1 = window s ∧
      max (limit T (s, c)).1 = max s)

/-- The key of a request for the limiter by client address. -/
def ipKey (c : Context) : Option String := some c.ClientIP

/-- The key of a request for the limiter by user: the string under "user_id". -/
def userKey (c : Context) : Option String :=
  match c.Get "user_id" with
  | some (.string userIDStr) => some userIDStr
  | _ => none

/-- The limiters of `router.NewRouter`: a window of ten seconds, five requests. -/
def iPrateLimiter : IPRateLimiter := NewIPRateLimiter (10 * Second) 5

/-- The user-based limiter of `router.NewRouter`. -/
def rateLimiter : RateLimiter := NewRateLimiter (10 * Second) 5

/-- An anonymous request from the address `ip`. -/
def fromIP (ip : String) : Context := request0 tenant1.String "" ip

/-- A request in whose context `AuthMiddleware` has published `alice`. -/
def fromAlice : Context :=
  AuthMiddleware "secret" parse0 repo0 (request0 tenant1.String "Bearer tok-alice" "10.0.0.1")

/-- Six rapid requests with the same context: one every 100 ms from the clock
reading `t0`. -/
def burst (t0 : Time) (c : Context) : List (Time × Context) :=
  (List.range 6).map (fun i => (t0 + (i : Int) * 100000000, c))

/-- The limiter of the router after four requests from one address, at the
clock readings 0 s, 1 s, 3 s and 4 s. -/
def afterFour : IPRateLimiter :=
  { iPrateLimiter with
      ipRequestTimes := fun k =>
        if k = "10.0.0.1" then some [0, Second, 3 * Second, 4 * Second] else none }

/-! ## The library google/uuid: `uuid.Parse` -/

/-- The zero value `uuid.Nil`. -/
def UUID.Nil : UUID := ⟨List.replicate 16 0, rfl⟩

/-- The UTF-8 encoding of a character: the bytes a Go string holds for it. -/
def utf8Bytes (c : Char) : List Nat :=
  let v := c.toNat
  if v ≤ 0x7f then [v]
  else if v ≤ 0x7ff then [0xc0 + v / 64, 0x80 + v % 64]
  else if v ≤ 0xffff then [0xe0 + v / 4096, 0x80 + v / 64 % 64, 0x80 + v % 64]
  else [0xf0 + v / 262144, 0x80 + v / 4096 % 64, 0x80 + v / 64 % 64, 0x80 + v % 64]

/-- The bytes of a Go string: `len(s)` is their number, `s[i]` the byte `i`. -/
def goBytes : List Char → List Nat
  | [] => []
  | c :: cs => utf8Bytes c ++ goBytes cs

/-- The table `xvalues`: the value of a hexadecimal digit, 255 for any other
byte. -/
def xvalue (b : Nat) : Nat :=
  if 48 ≤ b ∧ b ≤ 57 then b - 48
  else if 65 ≤ b ∧ b ≤ 70 then b - 55
  else if 97 ≤ b ∧ b ≤ 102 then b - 87
  else 255

/-- The function `xtob`: the byte written by two hexadecimal digits, if both
are. -/
def xtob (x1 x2 : Nat) : Option (Fin 256) :=
  if xvalue x1 ≠ 255 ∧ xvalue x2 ≠ 255 then
    some ⟨(xvalue x1 * 16 + xvalue x2) % 256, Nat.mod_lt _ (by decide)⟩
  else none

/-- The decoding loop of `uuid.Parse`: the bytes written at the given
positions of `s`, none at the first pair that is not hexadecimal. -/
def decodeAt (s : List Nat) : List Nat → Option (List (Fin 256))
  | [] => some []
  | x :: xs =>
    match xtob (s.getD x 0) (s.getD (x + 1) 0), decodeAt s xs with
    | some b, some bs => some (b :: bs)
    | _, _ => none

/-- The array of 16 bytes read by a decoding loop. -/
def toUUID : Option (List (Fin 256)) → Except String UUID
  | some bs => if h : bs.length = 16 then .ok ⟨bs, h⟩ else .error "invalid UUID format"
  | none => .error "invalid UUID format"

/-- The tail of `uuid.Parse`, for the form
`xxxxxxxx-xxxx-xxxx-xxxx-xxxxxxxxxxxx` at the start of `s`. -/
def parseDashed (s : List Nat) : Except String UUID :=
  if s.getD 8 0 ≠ 45 ∨ s.getD 13 0 ≠ 45 ∨ s.getD 18 0 ≠ 45 ∨ s.getD 23 0 ≠ 45 then
    .error "invalid UUID format"
  else
    toUUID (decodeAt s [0, 2, 4, 6, 9, 11, 14, 16, 19, 21, 24, 26, 28, 30, 32, 34])

/-- An ASCII letter in lower case, any other byte as it is. -/
def asciiLower (b : Nat) : Nat := if 65 ≤ b ∧ b ≤ 90 then b + 32 else b

/-- The function `uuid.Parse`: the canonical form (36 bytes), the same after
`urn:uuid:` (45 bytes), the same between two bytes that are not looked at
(38 bytes), or 32 hexadecimal digits. -/
def Parse (str : String) : Except String UUID :=
  let s := goBytes str.data
  if s.length = 36 then parseDashed s
  else if s.length = 36 + 9 then
    if (s.take 9).map asciiLower ≠ goBytes "urn:uuid:".data then .error "invalid urn prefix"
    else parseDashed (s.drop 9)
  else if s.length = 36 + 2 then parseDashed (s.drop 1)
  else if s.length = 32 then
    toUUID (decodeAt s [0, 2, 4, 6, 8, 10, 12, 14, 16, 18, 20, 22, 24, 26, 28, 30])
  else .error "invalid UUID length"

/-! ## middleware/logging_middleware.go, helper/helper.go -/

/-- The handler returned by `MultiTenantRouting()`. -/
def MultiTenantRouting (c : Context) : Context :=
  let restaurantIDStr := c.Param "restaurantId"
  match Parse restaurantIDStr with
  | .error _ => (c.JSON StatusBadRequest [("error", "Invalid restaurant ID")]).Abort
  | .ok restaurantUUID => c.Set "restaurant" (.string restaurantUUID.String)

/-- The function `helper.GetRestaurant`. -/
def GetRestaurant (ctx : Context) : Except String UUID :=
  match ctx.Get "restaurant" with
  | none => .error "restaurant ID not found in context"
  | some (.string restaurantIDStr) =>
    match Parse restaurantIDStr with
    | .error _ => .error "failed to parse restaurant ID"
    | .ok restaurantUUID => .ok restaurantUUID
  | some _ => .error "invalid restaurant ID format"

/-- The function `helper.GetRestaurantAsString`. -/
def GetRestaurantAsString (ctx : Context) : Except String String :=
  match ctx.Get "restaurant" with
  | none => .error "restaurant ID not found in context"
  | some (.string restaurantIDStr) => .ok restaurantIDStr
  | some _ => .error "invalid restaurant ID format"

/-- The byte of one lower-case hexadecimal digit. -/
def hexCode (n : Nat) : Nat := if n < 10 then 48 + n else 87 + n

/-! ## router/router.go -/

/-- The two limiters created by `NewRouter`: the process-wide state of the
route groups. -/
structure Limiters where
  rateLimiter : RateLimiter
  iPrateLimiter : IPRateLimiter

/-- The handler of the user-based limiter, on the state of the router. -/
def onRateLimiter (h : HandlerFunc RateLimiter) : HandlerFunc Limiters :=
  fun s => ({ s.1 with rateLimiter := (h (s.1.rateLimiter, s.2)).1 }, (h (s.1.rateLimiter, s.2)).2)

/-- The handler of the limiter by client address, on the state of the router. -/
def onIPRateLimiter (h : HandlerFunc IPRateLimiter) : HandlerFunc Limiters :=
  fun s =>
    ({ s.1 with iPrateLimiter := (h (s.1.iPrateLimiter, s.2)).1 }, (h (s.1.iPrateLimiter, s.2)).2)

/-- The gates of the group `/restaurants/:restaurantId/auth`, in the order of
`authRouter.Use`. -/
def authRouter (now : Time) : List (HandlerFunc Limiters) :=
  [HandlerFunc.pure MultiTenantRouting, onIPRateLimiter (IPRateLimiter.Limit now)]

/-- The gates of the group `/restaurants/:restaurantId/dishes`, in the order
of `dishesRouter.Use`. -/
def dishesRouter (jwtSecret : String) (parse : TokenParser) (userRepo : UserRepository)
    (now : Time) : List (HandlerFunc Limiters) :=
  [HandlerFunc.pure (AuthMiddleware jwtSecret parse userRepo),
    HandlerFunc.pure (PermissionMiddleware ["customer", "admin", "restaurant"]),
    HandlerFunc.pure MultiTenantRouting,
    onRateLimiter (RateLimiter.Limit now)]

/-- The gates of the group `/restaurants/:restaurantId/dishes/admin`, in the
order of `adminDishesRouter.Use`. -/
def adminDishesRouter (jwtSecret : String) (parse : TokenParser) (userRepo : UserRepository)
    (now : Time) : List (HandlerFunc Limiters) :=
  [HandlerFunc.pure (AuthMiddleware jwtSecret parse userRepo),
    HandlerFunc.pure (PermissionMiddleware ["restaurant", "admin"]),
    HandlerFunc.pure MultiTenantRouting,
    onRateLimiter (RateLimiter.Limit now)]

/-- The status code `http.StatusOK`. -/
def StatusOK : Nat := 200

/-- A route handler that answers 200; it stands for the domain logic behind
the gates. -/
def okHandler (c : Context) : Context := c.JSON StatusOK [("status", "success")]

/-- The limiters of the router, as `NewRouter` creates them. -/
def limiters0 : Limiters := { rateLimiter := rateLimiter, iPrateLimiter := iPrateLimiter }

/-- What `AuthMiddleware` has established about the request `c` when it
reaches its tenant-scope check: the `Authorization` header holds a token, the
parser accepts it under the key, the token is valid, its claim "user_id" is
the string `userID`, and the repository finds `user` under that string. -/
def Verified (jwtSecret : String) (parse : TokenParser) (userRepo : UserRepository)
    (c : Context) (token : Token) (userID : String) (user : User) : Prop :=
  TrimPrefix (c.Header "Authorization") "Bearer " ≠ "" ∧
    parse (TrimPrefix (c.Header "Authorization") "Bearer ") jwtSecret = .ok token ∧
    token.Valid = true ∧
    token.Claims "user_id" = some (.string userID) ∧
    userRepo.FindByID userID = .ok user

/-! ## helper/helper.go: the signing key -/

/-- The process environment as `os.Getenv` reads it once `godotenv.Load` has
run: the empty string for a variable that is not set. -/
abbrev Environ := String → String

/-- The function `helper.GetJWTSecret`: an empty `JWT_SECRET` is logged as an
error and returned. -/
def GetJWTSecret (env : Environ) : String :=
  let secret := env "JWT_SECRET"
  if secret = "" then
    ""
  else
    secret

/-- The package variable `jwtSecret` of the middleware. -/
def jwtSecret (env : Environ) : String := GetJWTSecret env

/-! ## The library jwt-go -/

/-- The type `jwt.MapClaims`. -/
abbrev MapClaims := String → Option ClaimValue

/-- A claim value as JSON carries it: an identifier becomes its canonical
string (`UUID.MarshalText`); numbers are kept exact. -/
def jsonClaim : ClaimValue → ClaimValue
  | .uuid u => .string u.String
  | v => v

/-- The claims as `json.Marshal` followed by `json.Unmarshal` leaves them. -/
def jsonClaims (claims : MapClaims) : MapClaims := fun k => (claims k).map jsonClaim

/-- The segments of a token in compact form: the signing string (header and
claims, encoded), what the header and the claims decode to, and the
signature. -/
structure Segments where
  signingString : String
  alg : String
  claims : MapClaims
  signature : String

/-- What is taken as given of the library: the encoding of header and claims
into the signing string, the HMAC of a signing string under a key for the
methods HS256, HS384 and HS512, and the decoding of a token string into its
segments (none when the string is malformed). -/
structure Jwt where
  SigningString : String → MapClaims → String
  HMAC : String → String → String → String
  Decode : String → Option Segments

/-- The method `Token.SignedString` for an HMAC method. -/
def SignedString (jwt : Jwt) (alg : String) (claims : MapClaims) (key : String) :
    Except String String :=
  let sstr := jwt.SigningString alg (jsonClaims claims)
  .ok (sstr ++ "." ++ jwt.HMAC alg sstr key)

/-- The function `verifyExp`. -/
def verifyExp (exp now : Int) (required : Bool) : Bool :=
  if exp = 0 then !required else now ≤ exp

/-- The function `verifyIat`. -/
def verifyIat (iat now : Int) (required : Bool) : Bool :=
  if iat = 0 then !required else now ≥ iat

/-- The function `verifyNbf`. -/
def verifyNbf (nbf now : Int) (required : Bool) : Bool :=
  if nbf = 0 then !required else now ≥ nbf

/-- The method `MapClaims.VerifyExpiresAt`. -/
def VerifyExpiresAt (m : MapClaims) (cmp : Int) (req : Bool) : Bool :=
  match m "exp" with
  | some (.number exp) => verifyExp exp cmp req
  | _ => !req

/-- The method `MapClaims.VerifyIssuedAt`. -/
def VerifyIssuedAt (m : MapClaims) (cmp : Int) (req : Bool) : Bool :=
  match m "iat" with
  | some (.number iat) => verifyIat iat cmp req
  | _ => !req

/-- The method `MapClaims.VerifyNotBefore`. -/
def VerifyNotBefore (m : MapClaims) (cmp : Int) (req : Bool) : Bool :=
  match m "nbf" with
  | some (.number nbf) => verifyNbf nbf cmp req
  | _ => !req

/-- The method `MapClaims.Valid` at the Unix second `now`: the message of the
last check that fails, none when the claims are valid. -/
def MapClaims.Valid (m : MapClaims) (now : Int) : Option String :=
  let e1 : Option String := if VerifyExpiresAt m now false = false then some "Token is expired" else none
  let e2 : Option String :=
    if VerifyIssuedAt m now false = false then some "Token used before issued" else e1
  if VerifyNotBefore m now false = false then some "token is not valid yet" else e2

/-- The method `Time.Add`. -/
def Time.Add (t : Time) (d : Duration) : Time := t + d

/-- The method `Time.Unix`: the whole seconds of a wall-clock reading in
nanoseconds since the epoch. -/
def Time.Unix (t : Time) : Int := t / 1000000000

/-- One hour, as a `time.Duration`. -/
def Hour : Duration := 3600 * Second

/-- The HMAC signing methods of the library. -/
def hmacMethods : List String := ["HS256", "HS384", "HS512"]

/-- The function `jwt.ParseWithClaims` with a key function that returns `key`
as bytes, when the clock (`jwt.TimeFunc`) reads `now`: the token is decoded,
its claims validated and its signature verified; the error is nil exactly when
both hold. Methods other than HMAC refuse a key given as bytes. -/
def ParseWithClaims (jwt : Jwt) (now : Time) : TokenParser := fun tokenString key =>
  match jwt.Decode tokenString with
  | none => .error "token contains an invalid number of segments"
  | some parts =>
    if !hmacMethods.contains parts.alg then
      .error "key is of invalid type"
    else if jwt.HMAC parts.alg parts.signingString key ≠ parts.signature then
      .error "signature is invalid"
    else
      match MapClaims.Valid parts.claims (Time.Unix now) with
      | some e => .error e
      | none => .ok ⟨true, parts.claims⟩

/-! ## service/user_service_impl.go: generateToken -/

/-- The claims built by `generateToken` when the clock reads `now`. -/
def generateClaims (now : Time) (userID : UUID) : MapClaims :=
  let expirationTime := Time.Add now (24 * Hour)
  fun k =>
    if k = "user_id" then some (.uuid userID)
    else if k = "exp" then some (.number (Time.Unix expirationTime))
    else none

/-- The function `generateToken`. -/
def generateToken (jwt : Jwt) (env : Environ) (now : Time) (userID : UUID) :
    Except String String :=
  SignedString jwt "HS256" (generateClaims now userID) (GetJWTSecret env)

/-- The library reads a signed token back: decoding the token signed for
`claims` under `key` gives its signing string, its method, the claims as
JSON carries them, and its signature. -/
def Jwt.ReadsBack (jwt : Jwt) (alg : String) (claims : MapClaims) (key : String) : Prop :=
  jwt.Decode
      (jwt.SigningString alg (jsonClaims claims) ++ "." ++
        jwt.HMAC alg (jwt.SigningString alg (jsonClaims claims)) key) =
    some
      { signingString := jwt.SigningString alg (jsonClaims claims)
        alg := alg
        claims := jsonClaims claims
        signature := jwt.HMAC alg (jwt.SigningString alg (jsonClaims claims)) key }

/-- The signing string of the coding used in the examples: the method, the
subject and the expiry, readable. -/
def signingString0 (alg : String) (claims : MapClaims) : String :=
  alg ++ ":" ++
    (match claims "user_id" with
      | some (.string u) => u
      | _ => "") ++ ":" ++
    (match claims "exp" with
      | some (.number e) => toString e
      | _ => "")

/-- The signature of the coding used in the examples: it names the method and
the key. -/
def hmac0 (alg sstr key : String) : String := alg ++ "(" ++ key ++ ")" ++ sstr

/-- The segments of the token issued to `userID` at the clock reading `t0`
under `key`, in the coding used in the examples. -/
def segments0 (key : String) (t0 : Time) (userID : UUID) : Segments :=
  { signingString := signingString0 "HS256" (jsonClaims (generateClaims t0 userID))
    alg := "HS256"
    claims := jsonClaims (generateClaims t0 userID)
    signature :=
      hmac0 "HS256" (signingString0 "HS256" (jsonClaims (generateClaims t0 userID))) key }

/-- A coding that stands for the library in the examples; its decoder knows
the tokens issued to `alice` at the clock reading 0, under the key "secret"
and under the empty key. -/
def jwt0 : Jwt :=
  { SigningString := signingString0
    HMAC := hmac0
    Decode := fun s =>
      [segments0 "secret" 0 alice.ID, segments0 "" 0 alice.ID].find?
        (fun p => p.signingString ++ "." ++ p.signature = s) }

/-- A user repository that knows `alice` and `root` by their identifiers. -/
def repo1 : UserRepository :=
  { FindByID := fun id =>
      if id = alice.ID.String then .ok alice
      else if id = root.ID.String then .ok root
      else .error "record not found" }

/-- An environment in which `JWT_SECRET` is "secret". -/
def env0 : Environ := fun k => if k = "JWT_SECRET" then "secret" else ""

/-- An environment in which `JWT_SECRET` is not set. -/
def envNoSecret : Environ := fun _ => ""

/-! ## data/request/user_requests.go, service/user_service_impl.go -/

/-- The struct `request.RegisterRequest`. -/
structure RegisterRequest where
  Name : String
  Email : String
  Password : String
  Permissions : List String
deriving DecidableEq

/-- The struct `request.LoginRequest`. -/
structure LoginRequest where
  Email : String
  Password : String
deriving DecidableEq

/-- The library bcrypt: hashing a password, and whether a password matches a
hash (`CompareHashAndPassword` returns no error). -/
structure Bcrypt where
  GenerateFromPassword : String → Except String String
  CompareHashAndPassword : String → String → Bool

/-- What a call of `AuthServiceImpl.Register` leaves: the error it returns
(none for nil) and the users it handed to `UserRepo.Create`. -/
structure Registration where
  err : Option String
  created : List User
deriving DecidableEq

/-- The loop of `Register` that fetches the permissions by name; it returns
at the first name the repository does not find. -/
def fetchPermissions (userRepo : UserRepository) : List String → Except String (List Permission)
  | [] => .ok []
  | permName :: rest =>
    match userRepo.FindPermission permName with
    | .error err => .error err
    | .ok perm =>
      match fetchPermissions userRepo rest with
      | .error err => .error err
      | .ok permissions => .ok (perm :: permissions)

/-- The method `AuthServiceImpl.Register`. -/
def AuthServiceImpl.Register (userRepo : UserRepository) (bcrypt : Bcrypt)
    (req : RegisterRequest) (restaurantId : UUID) : Registration :=
  let existingUser : Option User :=
    match userRepo.FindByEmail req.Email restaurantId with
    | .error _ => none
    | .ok user => some user
  match existingUser with
  | some _ => ⟨some "user with that email already exists", []⟩
  | none =>
    match bcrypt.GenerateFromPassword req.Password with
    | .error err => ⟨some err, []⟩
    | .ok hashedPassword =>
      match fetchPermissions userRepo req.Permissions with
      | .error err => ⟨some err, []⟩
      | .ok permissions =>
        let user : User :=
          { ID := UUID.Nil
            Name := req.Name
            Email := req.Email
            Password := hashedPassword
            Permissions := permissions
            RestaurantID := restaurantId }
        match userRepo.Create user with
        | .error err => ⟨some err, [user]⟩
        | .ok _ => ⟨none, [user]⟩

/-- The method `AuthServiceImpl.Login`, when the clock reads `now`. -/
def AuthServiceImpl.Login (userRepo : UserRepository) (bcrypt : Bcrypt) (jwt : Jwt)
    (env : Environ) (now : Time) (req : LoginRequest) (restaurantId : UUID) :
    Except String String :=
  match userRepo.FindByEmail req.Email restaurantId with
  | .error err => .error err
  | .ok user =>
    if !bcrypt.CompareHashAndPassword user.Password req.Password then
      .error "invalid email or password"
    else
      match generateToken jwt env now user.ID with
      | .error err => .error err
      | .ok token => .ok token

/-! ## helper/helper.go: ValidateRequest, controller/user_controller.go -/

/-- The JSON body of a request as the binding and the validation of
`helper.ValidateRequest` find it: unreadable, not bound to the request
struct, bound but invalid, or a valid request. -/
inductive Payload (α : Type) where
  | unreadable
  | unbound
  | invalid
  | valid (req : α)

/-- The function `helper.ValidateRequest`, with the validator of the
controllers (never nil): the context with the answer written on failure, and
the request on success. -/
def ValidateRequest {α : Type} (c : Context) : Payload α → Context × Option α
  | .unreadable => (c.JSON StatusInternalServerError [("error", "Internal server error")], none)
  | .unbound => (c.JSON StatusBadRequest [("error", "Invalid request payload")], none)
  | .invalid => (c.JSON StatusBadRequest [("error", "Validation failed")], none)
  | .valid req => (c, some req)

/-- Modelled from the spec: the type `response.AuthResponse` is not among the
sources; the spec gives the body of a successful login as `{token}`. -/
def AuthResponse (token : String) : List (String × String) := [("token", token)]

/-- The handler `AuthController.Register`: the context it leaves and the
users handed to `UserRepo.Create`. -/
def AuthController.Register (userRepo : UserRepository) (bcrypt : Bcrypt)
    (payload : Payload RegisterRequest) (ctx : Context) : Context × List User :=
  match ValidateRequest ctx payload with
  | (ctx, none) => (ctx.JSON StatusBadRequest [("error", "Invalid registration data")], [])
  | (ctx, some req) =>
    match GetRestaurant ctx with
    | .error _ => (ctx.JSON StatusUnauthorized [("error", "Failed to get resturant")], [])
    | .ok resturantId =>
      match AuthServiceImpl.Register userRepo bcrypt req resturantId with
      | ⟨some err, created⟩ => (ctx.JSON StatusInternalServerError [("error", err)], created)
      | ⟨none, created⟩ => (ctx.JSON StatusOK [("message", "Registration successful")], created)

/-- The handler `AuthController.Login`, when the clock reads `now`. -/
def AuthController.Login (userRepo : UserRepository) (bcrypt : Bcrypt) (jwt : Jwt)
    (env : Environ) (now : Time) (payload : Payload LoginRequest) (ctx : Context) : Context :=
  match ValidateRequest ctx payload with
  | (ctx, none) => ctx.JSON StatusBadRequest [("error", "Invalid login data")]
  | (ctx, some req) =>
    match GetRestaurant ctx with
    | .error _ => ctx.JSON StatusUnauthorized [("error", "Failed to get resturant")]
    | .ok resturantId =>
      match AuthServiceImpl.Login userRepo bcrypt jwt env now req resturantId with
      | .error _ => ctx.JSON StatusUnauthorized [("error", "Login failed")]
      | .ok token => ctx.JSON StatusOK (AuthResponse token)

/-- A credential store that holds `alice` under her email in `tenant1`, and
the three permissions. -/
def repo2 : UserRepository :=
  { FindByID := repo1.FindByID
    FindByEmail := fun email restaurantId =>
      if email = "alice@pony.example" ∧ restaurantId = tenant1 then .ok alice
      else .error "User not found"
    FindPermission := fun name =>
      if name = "customer" then .ok ⟨1, "customer"⟩
      else if name = "restaurant" then .ok ⟨2, "restaurant"⟩
      else if name = "admin" then .ok ⟨3, "admin"⟩
      else .error "record not found" }

/-- A hashing that stands for bcrypt in the examples: the hash of a password
is the password after "hash-"; only "a" matches the stored hash of `alice`. -/
def bcrypt0 : Bcrypt :=
  { GenerateFromPassword := fun password => .ok ("hash-" ++ password)
    CompareHashAndPassword := fun hashedPassword password =>
      hashedPassword == "hash-" ++ password }

/-- A request of the auth route group for `tenant1`, after the tenant
resolver. -/
def authRequest : Context := MultiTenantRouting (request0 tenant1.String "" "10.0.0.1")

/-! ## caching/redis_client.go -/

/-- The key space of `cache.RedisClient`. Entries are kept until deleted or
overwritten: the expiry of an entry is not part of the model. -/
structure Redis where
  entries : String → Option String

/-- The command `GET key`: the value, or the error `redis.Nil`. -/
def Redis.Get (r : Redis) (key : String) : Except String String :=
  match r.entries key with
  | none => .error "redis: nil"
  | some value => .ok value

/-- The command `SET key value`. -/
def Redis.Set (r : Redis) (key value : String) : Redis :=
  { entries := fun k => if k = key then some value else r.entries k }

/-- The command `DEL key`: it removes the entry stored under exactly `key`. -/
def Redis.Del (r : Redis) (key : String) : Redis :=
  { entries := fun k => if k = key then none else r.entries k }

/-! ## model/models.go, data/request/dish_requests.go, data/response/dish_responses.go -/

/-- A `float64`, by its bits: prices are only copied. -/
structure Float64 where
  bits : Nat
deriving DecidableEq

/-- The struct `model.Dish`, without its associations. -/
structure Dish where
  ID : UUID
  Name : String
  Description : String
  Price : Float64
  Image : String
  CreatedById : UUID
  LastUpdatedByID : Option UUID
  RestaurantID : UUID
deriving DecidableEq

set_option linter.dupNamespace false in
/-- The struct `model.Rating`, without its associations. -/
structure Rating where
  ID : UUID
  DishID : UUID
  UserID : UUID
  Rating : Int
deriving DecidableEq

/-- The struct `request.DishBase`. -/
structure DishBase where
  Name : String
  Description : String
  Price : Float64
  ImageUrl : String
deriving DecidableEq

/-- The struct `request.CreateDishRequest`. -/
structure CreateDishRequest extends DishBase where
  UserID : UUID
deriving DecidableEq

/-- The struct `request.UpdateDishRequest`. -/
structure UpdateDishRequest extends DishBase where
  ID : UUID
deriving DecidableEq

/-- The struct `request.RateDishRequest`. -/
structure RateDishRequest where
  Rating : Int
deriving DecidableEq

/-- The struct `response.DishResponse`. -/
structure DishResponse where
  ID : UUID
  Name : String
  Description : String
  Price : Float64
  ImageUrl : String
deriving DecidableEq

/-- The struct `response.DishListResponse`. -/
structure DishListResponse where
  Dishes : List DishResponse
  CurrentPage : Int
  TotalPages : Int
  TotalItems : Int
deriving DecidableEq

/-- The struct `response.RatingResponse`. -/
structure RatingResponse where
  ID : UUID
  Rating : Int
  DishId : UUID
deriving DecidableEq

/-! ## repository/dishes_repository_interface.go -/

/-- The interface `repository.DishesRepository`: the answers of the
repository at the time of a request. -/
structure DishesRepository where
  Create : Dish → UUID → Except String Dish
  Update : Dish → UUID → String → Except String Dish
  Delete : UUID → String → Option String
  FindById : UUID → String → Except String Dish
  FindAll : Int → Int → String → Except String (List Dish × Int)
  RateDish : Rating → Except String Rating
  Search : String → Int → Int → String → Except String (List Dish × Int)

/-- The library encoding/json on the values the dish service caches. -/
structure Json where
  MarshalDishes : List DishResponse → Except String String
  UnmarshalDishes : String → Except String (List DishResponse)
  MarshalDish : DishResponse → Except String String
  UnmarshalDish : String → Except String DishResponse

/-! ## service/dishe_service_impl.go -/

/-- A Go `int` (64 bits) holding the integer `n`, wrapped on overflow. -/
def wrapInt (n : Int) : Int :=
  (n + 9223372036854775808) % 18446744073709551616 - 9223372036854775808

/-- The function `calculateTotalPages`. -/
def calculateTotalPages (totalItems limit : Int) : Int :=
  if limit = 0 then
    0
  else
    wrapInt (Int.tdiv (wrapInt (wrapInt (totalItems + limit) - 1)) limit)

/-- The function `toDishResponse`. -/
def toDishResponse (dish : Dish) : DishResponse :=
  { ID := dish.ID
    Name := dish.Name
    Description := dish.Description
    Price := dish.Price
    ImageUrl := dish.Image }

/-- The cache key of a page of the dishes of a tenant:
`all_dishes_page_%d_limit_%d_restaurant_%s`. -/
def listKey (page limit : Int) (restaurantId : String) : String :=
  "all_dishes_page_" ++ toString page ++ "_limit_" ++ toString limit ++ "_restaurant_" ++
    restaurantId

/-- The cache key the writes delete for the pages of a tenant:
`all_dishes_page_*_limit_*_restaurant_%s`. -/
def listWildcardKey (restaurantId : String) : String :=
  "all_dishes_page_*_limit_*_restaurant_" ++ restaurantId

/-- The cache key of one dish of a tenant: `dish_%s_restaurant_%s`. -/
def dishKey (dishId : UUID) (restaurantId : String) : String :=
  "dish_" ++ dishId.String ++ "_restaurant_" ++ restaurantId

/-- The method `DishesServiceImpl.Create`: its result and the cache it
leaves. -/
def DishesServiceImpl.Create (repo : DishesRepository) (dishRequest : CreateDishRequest)
    (userId : UUID) (restaurantId : UUID) (redis : Redis) : Except String DishResponse × Redis :=
  let dishModel : Dish :=
    { ID := UUID.Nil
      Name := dishRequest.Name
      Description := dishRequest.Description
      Price := dishRequest.Price
      Image := dishRequest.ImageUrl
      CreatedById := UUID.Nil
      LastUpdatedByID := none
      RestaurantID := restaurantId }
  match repo.Create dishModel userId with
  | .error err => (.error err, redis)
  | .ok createdDish =>
    let dishResponse := toDishResponse createdDish
    let cacheKey := listWildcardKey restaurantId.String
    (.ok dishResponse, redis.Del cacheKey)

/-- The method `DishesServiceImpl.Delete`: its error and the cache it leaves. -/
def DishesServiceImpl.Delete (repo : DishesRepository) (dishId : UUID) (restaurantId : String)
    (redis : Redis) : Option String × Redis :=
  match repo.Delete dishId restaurantId with
  | some err => (some err, redis)
  | none =>
    let cacheKey := dishKey dishId restaurantId
    (none, (redis.Del cacheKey).Del (listWildcardKey restaurantId))

/-- The method `DishesServiceImpl.FindDishById`. -/
def DishesServiceImpl.FindDishById (repo : DishesRepository) (dishId : UUID)
    (restaurantId : String) : Except String Dish :=
  match repo.FindById dishId restaurantId with
  | .error err => .error ("error finding dish: " ++ err)
  | .ok dish => .ok dish

/-- The method `DishesServiceImpl.FindAll`: its result and the cache it
leaves. A page read from the cache carries the dishes only. -/
def DishesServiceImpl.FindAll (repo : DishesRepository) (json : Json) (page limit : Int)
    (restaurantId : String) (redis : Redis) : Except String DishListResponse × Redis :=
  let cacheKey := listKey page limit restaurantId
  match redis.Get cacheKey with
  | .ok cachedData =>
    match json.UnmarshalDishes cachedData with
    | .error err => (.error err, redis)
    | .ok dishResponses =>
      (.ok { Dishes := dishResponses, CurrentPage := 0, TotalPages := 0, TotalItems := 0 }, redis)
  | .error _ =>
    match repo.FindAll page limit restaurantId with
    | .error err => (.error err, redis)
    | .ok (dishes, total) =>
      let dishResponses := dishes.map toDishResponse
      match json.MarshalDishes dishResponses with
      | .error err => (.error err, redis)
      | .ok dishesJSON =>
        let totalPages := calculateTotalPages total limit
        (.ok
          { Dishes := dishResponses
            CurrentPage := page
            TotalPages := totalPages
            TotalItems := total },
          redis.Set cacheKey dishesJSON)

/-- The method `DishesServiceImpl.FindById`: its result and the cache it
leaves. -/
def DishesServiceImpl.FindById (repo : DishesRepository) (json : Json) (dishId : UUID)
    (restaurantId : String) (redis : Redis) : Except String DishResponse × Redis :=
  let cacheKey := dishKey dishId restaurantId
  let cached : Option DishResponse :=
    match redis.Get cacheKey with
    | .ok cachedData =>
      match json.UnmarshalDish cachedData with
      | .ok dishResponse => some dishResponse
      | .error _ => none
    | .error _ => none
  match cached with
  | some dishResponse => (.ok dishResponse, redis)
  | none =>
    match DishesServiceImpl.FindDishById repo dishId restaurantId with
    | .error err => (.error err, redis)
    | .ok dish =>
      let dishResponse := toDishResponse dish
      let dishJSON : String :=
        match json.MarshalDish dishResponse with
        | .ok s => s
        | .error _ => ""
      (.ok dishResponse, redis.Set cacheKey dishJSON)

/-- The method `DishesServiceImpl.Update`: its result and the cache it
leaves. -/
def DishesServiceImpl.Update (repo : DishesRepository) (dishUpdateRequest : UpdateDishRequest)
    (userId : UUID) (restaurantId : String) (redis : Redis) :
    Except String DishResponse × Redis :=
  match DishesServiceImpl.FindDishById repo dishUpdateRequest.ID restaurantId with
  | .error err => (.error err, redis)
  | .ok dish =>
    match repo.Update dish userId restaurantId with
    | .error err => (.error ("error updating dish: " ++ err), redis)
    | .ok updatedDish =>
      let cacheKey := dishKey dishUpdateRequest.ID restaurantId
      (.ok (toDishResponse updatedDish),
        (redis.Del cacheKey).Del (listWildcardKey restaurantId))

/-- The method `DishesServiceImpl.RateDish`: its result and the cache it
leaves. -/
def DishesServiceImpl.RateDish (repo : DishesRepository) (ratingRequest : RateDishRequest)
    (userId : UUID) (dishId : UUID) (restaurantId : String) (redis : Redis) :
    Except String RatingResponse × Redis :=
  let dishRating : Rating :=
    { ID := UUID.Nil
      UserID := userId
      Rating := ratingRequest.Rating
      DishID := dishId }
  match repo.RateDish dishRating with
  | .error err => (.error err, redis)
  | .ok rating =>
    (.ok { ID := rating.ID, Rating := rating.Rating, DishId := rating.ID },
      (redis.Del (dishKey dishId restaurantId)).Del (listWildcardKey restaurantId))

/-! ## A kitchen, used to exercise the dish service -/

/-- A dish of `tenant1`. -/
def stew : Dish :=
  { ID := ⟨[5, 5, 5, 5, 5, 5, 5, 5, 5, 5, 5, 5, 5, 5, 5, 5], rfl⟩
    Name := "stew"
    Description := "rabbit stew"
    Price := ⟨4621819117588971520⟩
    Image := "https://img.example/stew.png"
    CreatedById := root.ID
    LastUpdatedByID := none
    RestaurantID := tenant1 }

/-- A repository of dishes that holds `stew`, creates what it is handed under
the identifier of `stew`, and deletes, updates and rates without error. -/
def dishes0 : DishesRepository :=
  { Create := fun dish userId => .ok { dish with ID := stew.ID, CreatedById := userId }
    Update := fun dish userId _ => .ok { dish with LastUpdatedByID := some userId }
    Delete := fun _ _ => none
    FindById := fun dishId restaurantId =>
      if dishId = stew.ID ∧ restaurantId = tenant1.String then .ok stew
      else .error "dish not found"
    FindAll := fun _ _ restaurantId =>
      if restaurantId = tenant1.String then .ok ([stew], 1) else .ok ([], 0)
    RateDish := fun rating => .ok { rating with ID := ⟨List.replicate 16 7, rfl⟩ }
    Search := fun _ _ _ _ => .ok ([], 0) }

/-- A coding that stands for encoding/json in the examples: a list of dishes
is written as the names of the dishes between brackets, and only the empty
list is read back. -/
def json0 : Json :=
  { MarshalDishes := fun ds => .ok ("[" ++ ", ".intercalate (ds.map DishResponse.Name) ++ "]")
    UnmarshalDishes := fun s => if s = "[]" then .ok [] else .error "unexpected end of JSON input"
    MarshalDish := fun d => .ok d.Name
    UnmarshalDish := fun _ => .error "unexpected end of JSON input" }

/-- A cache that holds, for `tenant1`, the first page of ten dishes as it was
read while the tenant had no dish, and an entry for `stew`. -/
def redis0 : Redis :=
  { entries := fun k =>
      if k = "all_dishes_page_1_limit_10_restaurant_01234567-89ab-cdef-0123-456789abcdef" then
        some "[]"
      else if k = "dish_05050505-0505-0505-0505-050505050505_restaurant_" ++
          "01234567-89ab-cdef-0123-456789abcdef" then
        some "stew"
      else none }

/-! ## More of the deployment: requests and stores for the later theorems -/

/-- A request of `alice` for her own tenant, the identifier written in
upper-case hexadecimal digits. -/
def aliceUpper : Context :=
  request0 "01234567-89AB-CDEF-0123-456789ABCDEF" "Bearer tok-alice" "10.0.0.1"

/-- The credential store `repo2` while its database is unreachable: the
lookup by email fails with the error of the driver, which is not the error
"User not found" of a missing record. -/
def repoDown : UserRepository :=
  { repo2 with FindByEmail := fun _ _ => .error "dial tcp 10.0.0.9:5432: connect: connection refused" }

/-! ## service/dishe_service_impl.go: Search -/

/-- The library encoding/json on the response the search caches whole. -/
structure JsonList where
  Marshal : DishListResponse → Except String String
  Unmarshal : String → Except String DishListResponse

/-- The cache key of a page of the search results of a tenant:
`search_%s_page_%d_limit_%d,restaurant_%s`. -/
def searchKey (searchTerm : String) (page limit : Int) (restaurantId : String) : String :=
  "search_" ++ searchTerm ++ "_page_" ++ toString page ++ "_limit_" ++ toString limit ++
    ",restaurant_" ++ restaurantId

/-- The method `DishesServiceImpl.Search`: its result and the cache it
leaves. -/
def DishesServiceImpl.Search (repo : DishesRepository) (json : JsonList) (searchTerm : String)
    (page limit : Int) (restaurantId : String) (redis : Redis) :
    Except String DishListResponse × Redis :=
  let cacheKey := searchKey searchTerm page limit restaurantId
  match redis.Get cacheKey with
  | .ok cachedData =>
    match json.Unmarshal cachedData with
    | .error err => (.error err, redis)
    | .ok cachedResponse => (.ok cachedResponse, redis)
  | .error _ =>
    match repo.Search searchTerm page limit restaurantId with
    | .error err => (.error err, redis)
    | .ok (dishes, total) =>
      let dishResponses := dishes.map toDishResponse
      let searchResponse : DishListResponse :=
        { Dishes := dishResponses
          CurrentPage := page
          TotalPages := calculateTotalPages total limit
          TotalItems := total }
      match json.Marshal searchResponse with
      | .error err => (.error err, redis)
      | .ok dishesJSON => (.ok searchResponse, redis.Set cacheKey dishesJSON)

/-! ## model/models.go, data/request/restaurant_requests.go,
data/response/restaurant_response.go -/

/-- The struct `model.Restaurant`. -/
structure Restaurant where
  ID : UUID
  Name : String
  Description : String
  Location : String
  ImageUrl : String
deriving DecidableEq

/-- The struct `request.RestaurantBase`. -/
structure RestaurantBase where
  Name : String
  Description : String
  Location : String
  ImageUrl : String
deriving DecidableEq

/-- The struct `request.UpdateRestaurantRequest`. -/
structure UpdateRestaurantRequest extends RestaurantBase where
  ID : UUID
deriving DecidableEq

/-- The struct `response.RestaurantResponse`. -/
structure RestaurantResponse where
  ID : UUID
  Name : String
  Description : String
  Location : String
  ImageUrl : String
deriving DecidableEq

/-- The struct `response.RestaurantListResponse`. -/
structure RestaurantListResponse where
  Restaurants : List RestaurantResponse
  CurrentPage : Int
  TotalPages : Int
  TotalItems : Int
deriving DecidableEq

/-! ## repository/restaurant_repository.go, repository/resturant_repository_impl.go -/

/-- The interface `repository.RestaurantsRepository`: the answers of the
repository at the time of a request. -/
structure RestaurantsRepository where
  Create : Restaurant → Except String Restaurant
  Update : Restaurant → Except String Restaurant
  Delete : UUID → Option String
  FindAll : Int → Int → Except String (List Restaurant × Int)
  FindById : UUID → Except String Restaurant
  Search : String → Int → Int → Except String (List Restaurant × Int)

/-- The offset `(page - 1) * limit` that `RestaurantsRepositoryImpl.FindAll`
hands to the query, in the arithmetic of the Go `int`. -/
def offset (page limit : Int) : Int :=
  wrapInt (wrapInt (page - 1) * limit)

/-! ## service/restaurant_service_impl.go -/

/-- The library encoding/json on the list the restaurant service caches. -/
structure JsonRestaurants where
  Marshal : List RestaurantResponse → Except String String
  Unmarshal : String → Except String (List RestaurantResponse)

/-- The quotient `a / b` of two Go `int`s; none stands for the run-time panic
"integer divide by zero". -/
def intDiv (a b : Int) : Option Int :=
  if b = 0 then none else some (wrapInt (Int.tdiv a b))

/-- The function `toRestaurantResponse`. -/
def toRestaurantResponse (restaurant : Restaurant) : RestaurantResponse :=
  { ID := restaurant.ID
    Name := restaurant.Name
    Description := restaurant.Description
    Location := restaurant.Location
    ImageUrl := restaurant.ImageUrl }

/-- The cache key of a page of the restaurants:
`all_restaurants_page_%d_limit_%d`. -/
def restaurantListKey (page limit : Int) : String :=
  "all_restaurants_page_" ++ toString page ++ "_limit_" ++ toString limit

/-- The method `RestaurantsServiceImpl.FindAll`: its result, none when the
call panics, and the cache it leaves. A page read from the cache carries the
restaurants only; the number of pages is computed after the page has been
cached, by a division that is not guarded. -/
def RestaurantsServiceImpl.FindAll (repo : RestaurantsRepository) (json : JsonRestaurants)
    (page limit : Int) (redis : Redis) :
    Option (Except String RestaurantListResponse) × Redis :=
  let cacheKey := restaurantListKey page limit
  match redis.Get cacheKey with
  | .ok cachedData =>
    match json.Unmarshal cachedData with
    | .error err => (some (.error err), redis)
    | .ok restaurantResponses =>
      (some (.ok
        { Restaurants := restaurantResponses, CurrentPage := 0, TotalPages := 0, TotalItems := 0 }),
        redis)
  | .error _ =>
    match repo.FindAll page limit with
    | .error err => (some (.error err), redis)
    | .ok (restaurants, total) =>
      let restaurantResponses := restaurants.map toRestaurantResponse
      match json.Marshal restaurantResponses with
      | .error err => (some (.error err), redis)
      | .ok restaurantsJSON =>
        match intDiv (wrapInt (wrapInt (total + limit) - 1)) limit with
        | none => (none, redis.Set cacheKey restaurantsJSON)
        | some totalPages =>
          (some (.ok
            { Restaurants := restaurantResponses
              CurrentPage := page
              TotalPages := totalPages
              TotalItems := total }),
            redis.Set cacheKey restaurantsJSON)

/-- The method `RestaurantsServiceImpl.FindRestaurantById`. -/
def RestaurantsServiceImpl.FindRestaurantById (repo : RestaurantsRepository)
    (restaurantId : UUID) : Except String Restaurant :=
  match repo.FindById restaurantId with
  | .error err => .error ("error finding restaurant: " ++ err)
  | .ok restaurant => .ok restaurant

/-- The method `RestaurantsServiceImpl.Update`. -/
def RestaurantsServiceImpl.Update (repo : RestaurantsRepository)
    (restaurantUpdateRequest : UpdateRestaurantRequest) : Except String RestaurantResponse :=
  match RestaurantsServiceImpl.FindRestaurantById repo restaurantUpdateRequest.ID with
  | .error err => .error err
  | .ok restaurant =>
    match repo.Update restaurant with
    | .error err => .error ("error updating restaurant: " ++ err)
    | .ok updatedRestaurant => .ok (toRestaurantResponse updatedRestaurant)
/-! ## The library strconv -/

/-- The value of a sequence of decimal digits. -/
def digitsValue (digits : List Char) : Int :=
  digits.foldl (fun n ch => n * 10 + ((ch.toNat - 48 : Nat) : Int)) 0

/-- The characters of a numeral after its sign, if it has one. -/
def unsigned : List Char → List Char
  | '+' :: rest => rest
  | '-' :: rest => rest
  | all => all

/-- The function `strconv.Atoi` for the 64-bit `int`: an optional sign and
then decimal digits, at least one. Any other string is the error
`ErrSyntax`; digits whose number does not fit the `int` are the error
`ErrRange`. (A character outside ASCII has no byte that is a digit.) -/
def Atoi (s : String) : Except String Int :=
  let digits := unsigned s.data
  if digits = [] ∨ digits.all Char.isDigit = false then
    .error "invalid syntax"
  else
    let n := if s.data.head? = some '-' then -digitsValue digits else digitsValue digits
    if n < -9223372036854775808 ∨ 9223372036854775807 < n then
      .error "value out of range"
    else
      .ok n

/-! ## helper/helper.go: the request data; controller/dishe_controller.go,
controller/restaurant_controller.go: the pagination -/

/-- The function `helper.GetUser`. -/
def GetUser (ctx : Context) : Except String UUID :=
  match ctx.Get "user_id" with
  | none => .error "user ID not found in context"
  | some (.string userIDStr) =>
    match Parse userIDStr with
    | .error _ => .error "failed to parse user ID"
    | .ok userUUID => .ok userUUID
  | some _ => .error "invalid user ID format"

/-- The function `helper.ExtractRequestData`, without the request identifier
(it is used for the log only): the context with the answer written on
failure, and the user and the tenant on success. -/
def ExtractRequestData (ctx : Context) : Context × Option (UUID × String) :=
  match GetUser ctx with
  | .error _ => (ctx.JSON StatusBadRequest [("error", "Failed to get user ID")], none)
  | .ok userId =>
    match GetRestaurantAsString ctx with
    | .error _ => (ctx.JSON StatusBadRequest [("error", "Failed to get restaurant")], none)
    | .ok restaurantId => (ctx, some (userId, restaurantId))

/-- The function `ExtractPagination`. -/
def ExtractPagination (ctx : Context) : Int × Int :=
  let pageStr := ctx.DefaultQuery "page" "1"
  let limitStr := ctx.DefaultQuery "limit" "10"
  let page : Int :=
    match Atoi pageStr with
    | .error _ => 1
    | .ok page => if page ≤ 0 then 1 else page
  let limit : Int :=
    match Atoi limitStr with
    | .error _ => 10
    | .ok limit => if limit ≤ 0 then 10 else limit
  (page, limit)

/-- The handler `DishesController.FindAll` up to its call of the service
(`controller.DishesService` is an interface value): the context as the
handler has it then, and the result of the call, none when the handler
returns before it. -/
def DishesController.FindAll {α : Type} (FindAll : Int → Int → String → UUID → α)
    (ctx : Context) : Context × Option α :=
  match ExtractRequestData ctx with
  | (ctx, none) => (ctx, none)
  | (ctx, some (userId, restaurantId)) =>
    let pageStr := ctx.DefaultQuery "page" "1"
    let limitStr := ctx.DefaultQuery "limit" "10"
    let page : Int :=
      match Atoi pageStr with
      | .error _ => 1
      | .ok page => if page ≤ 0 then 1 else page
    let limit : Int :=
      match Atoi limitStr with
      | .error _ => 10
      | .ok limit => if limit ≤ 0 then 10 else limit
    (ctx, some (FindAll page limit restaurantId userId))

/-- The handler `DishesController.Search` up to its call of the service. -/
def DishesController.Search {α : Type} (Search : String → Int → Int → String → UUID → α)
    (ctx : Context) : Context × Option α :=
  match ExtractRequestData ctx with
  | (ctx, none) => (ctx, none)
  | (ctx, some (userId, restaurantId)) =>
    let searchTerm := ctx.Query "searchTerm"
    if searchTerm = "" then
      (ctx.JSON StatusBadRequest [("message", "Search term is required")], none)
    else
      let pageStr := ctx.DefaultQuery "page" "1"
      let limitStr := ctx.DefaultQuery "limit" "10"
      let page : Int :=
        match Atoi pageStr with
        | .error _ => 1
        | .ok page => if page ≤ 0 then 1 else page
      let limit : Int :=
        match Atoi limitStr with
        | .error _ => 10
        | .ok limit => if limit ≤ 0 then 10 else limit
      (ctx, some (Search searchTerm page limit restaurantId userId))

/-- The handler `RestaurantsController.FindAll` up to its call of the
service: the result of the call. -/
def RestaurantsController.FindAll {α : Type} (FindAll : Int → Int → α) (ctx : Context) : α :=
  let pageStr := ctx.DefaultQuery "page" "1"
  let limitStr := ctx.DefaultQuery "limit" "10"
  let page : Int :=
    match Atoi pageStr with
    | .error _ => 1
    | .ok page => if page ≤ 0 then 1 else page
  let limit : Int :=
    match Atoi limitStr with
    | .error _ => 10
    | .ok limit => if limit ≤ 0 then 10 else limit
  FindAll page limit
/-! ## More of the kitchen, and an inn -/

/-- The coding `json0`, reading the list that holds `stew` back as well. -/
def json1 : Json :=
  { json0 with
    UnmarshalDishes := fun s =>
      if s = "[]" then .ok []
      else if s = "[stew]" then .ok [toDishResponse stew]
      else .error "unexpected end of JSON input" }

/-- The empty cache. -/
def redisEmpty : Redis :=
  { entries := fun _ => none }

/-- A request to update `stew`: another name, description, price and image. -/
def soupRequest : UpdateDishRequest :=
  { ID := stew.ID
    Name := "soup"
    Description := "pea soup"
    Price := ⟨4616189618054758400⟩
    ImageUrl := "https://img.example/soup.png" }

/-- The restaurant of `tenant1`. -/
def pony : Restaurant :=
  { ID := tenant1
    Name := "The Dancing Pony"
    Description := "an inn"
    Location := "Bree"
    ImageUrl := "https://img.example/pony.png" }

/-- A repository of restaurants that holds `pony` and stores what it is
handed as it is. -/
def restaurants0 : RestaurantsRepository :=
  { Create := fun restaurant => .ok restaurant
    Update := fun restaurant => .ok restaurant
    Delete := fun _ => none
    FindAll := fun _ _ => .ok ([pony], 1)
    FindById := fun restaurantId =>
      if restaurantId = pony.ID then .ok pony else .error "record not found"
    Search := fun _ _ _ => .ok ([], 0) }

/-- A coding that stands for encoding/json on lists of restaurants: the names
between brackets; the empty list and the list that holds `pony` are read
back. -/
def jsonRestaurants0 : JsonRestaurants :=
  { Marshal := fun rs => .ok ("[" ++ ", ".intercalate (rs.map RestaurantResponse.Name) ++ "]")
    Unmarshal := fun s =>
      if s = "[]" then .ok []
      else if s = "[The Dancing Pony]" then .ok [toRestaurantResponse pony]
      else .error "unexpected end of JSON input" }

/-- A request to update `pony`: another name, description, location and
image. -/
def innRequest : UpdateRestaurantRequest :=
  { ID := pony.ID
    Name := "The Prancing Pony"
    Description := "a tavern"
    Location := "Archet"
    ImageUrl := "https://img.example/prancing.png" }

/-- A request for `tenant1` whose URL has the given values, if any, for the
keys "page" and "limit". -/
def paged (page limit : Option String) : Context :=
  { request0 tenant1.String "" "10.0.0.1" with
    QueryParams := fun k => if k = "page" then page else if k = "limit" then limit else none }

/-- The run of the gates `auth`, `perm`, `MultiTenantRouting` and
`RateLimiter.Limit`, applied in that order to the request `c` while the
limiters are in the state `s`: each gate sees the context that the gate
before it has left; the first gate that aborts answers, the gates after it do
not run and the limiters stay as they were; when the four gates let the
request pass, the handlers `rest` run. -/
def dishGatesInOrder (auth perm : Context → Context) (now : Time)
    (rest : List (HandlerFunc Limiters)) (s : Limiters) (c : Context) : Limiters × Context :=
  if (auth c).aborted then (s, auth c)
  else if (perm (auth c)).aborted then (s, perm (auth c))
  else if (MultiTenantRouting (perm (auth c))).aborted then
    (s, MultiTenantRouting (perm (auth c)))
  else
    let checked := RateLimiter.Limit now (s.rateLimiter, MultiTenantRouting (perm (auth c)))
    if checked.2.aborted then ({ s with rateLimiter := checked.1 }, checked.2)
    else runChain rest ({ s with rateLimiter := checked.1 }, checked.2)

/-- The run of the gates `MultiTenantRouting` and `IPRateLimiter.Limit`,
applied in that order, before the handlers `rest`. -/
def authGatesInOrder (now : Time) (rest : List (HandlerFunc Limiters)) (s : Limiters)
    (c : Context) : Limiters × Context :=
  if (MultiTenantRouting c).aborted then (s, MultiTenantRouting c)
  else
    let checked := IPRateLimiter.Limit now (s.iPrateLimiter, MultiTenantRouting c)
    if checked.2.aborted then ({ s with iPrateLimiter := checked.1 }, checked.2)
    else runChain rest ({ s with iPrateLimiter := checked.1 }, checked.2)

/-! ## Helper lemmas: the handler chain and the gates -/

theorem runChain_cons_aborted {σ : Type} (h : HandlerFunc σ) (rest : List (HandlerFunc σ))
    (s : σ × Context) (ha : (h s).2.aborted = true) : runChain (h :: rest) s = h s := by
  simp [runChain, ha]

theorem runChain_cons_live {σ : Type} (h : HandlerFunc σ) (rest : List (HandlerFunc σ))
    (s : σ × Context) (ha : (h s).2.aborted = false) :
    runChain (h :: rest) s = runChain rest (h s) := by
  simp [runChain, ha]

theorem isAdmin_eq_false_iff (ps : List Permission) :
    isAdmin ps = false ↔ ∀ p ∈ ps, p.Name ≠ "admin" := by
  simp [isAdmin, List.any_eq_false]

theorem isAdmin_eq_true_iff (ps : List Permission) :
    isAdmin ps = true ↔ ∃ p ∈ ps, p.Name = "admin" := by
  simp [isAdmin, List.any_eq_true]

/-- The outcome of `AuthMiddleware` once the token is verified and the
identity is found: only the tenant-scope check is left. -/
theorem AuthMiddleware_found (jwtSecret : String) (parse : TokenParser)
    (userRepo : UserRepository) (c : Context) (token : Token) (userID : String) (user : User)
    (hheader : TrimPrefix (c.Header "Authorization") "Bearer " ≠ "")
    (hparse : parse (TrimPrefix (c.Header "Authorization") "Bearer ") jwtSecret = .ok token)
    (hvalid : token.Valid = true)
    (hclaim : token.Claims "user_id" = some (.string userID))
    (hfind : userRepo.FindByID userID = .ok user) :
    AuthMiddleware jwtSecret parse userRepo c =
      if user.RestaurantID.String ≠ c.Param "restaurantId" ∧ isAdmin user.Permissions = false then
        unauthorized c "Unauthorized access"
      else setIdentity c user userID := by
  unfold AuthMiddleware
  simp only [hheader, if_false, hparse, hvalid, hclaim, hfind]
  by_cases ht : user.RestaurantID.String = c.Param "restaurantId"
  · simp [ht]
  · cases hadm : isAdmin user.Permissions <;> simp [ht, hadm]

/-! ## The authorization pipeline -/

/-- C1. An identity whose tenant differs from the requested tenant (the
`restaurantId` path segment) and which does not hold "admin" is rejected by
`AuthMiddleware`, and the chain is aborted there: whatever permissions the
identity holds, whatever permissions the route requires and whatever handlers
follow, the outcome is the one response 401 "Unauthorized access" on the
aborted context, with nothing published in it. -/
theorem cross_tenant_rejected_uniformly {σ : Type} (jwtSecret : String) (parse : TokenParser)
    (userRepo : UserRepository) (c : Context) (token : Token) (userID : String) (user : User)
    (required : List String) (rest : List (HandlerFunc σ)) (s : σ)
    (hheader : TrimPrefix (c.Header "Authorization") "Bearer " ≠ "")
    (hparse : parse (TrimPrefix (c.Header "Authorization") "Bearer ") jwtSecret = .ok token)
    (hvalid : token.Valid = true)
    (hclaim : token.Claims "user_id" = some (.string userID))
    (hfind : userRepo.FindByID userID = .ok user)
    (htenant : user.RestaurantID.String ≠ c.Param "restaurantId")
    (hadmin : ∀ p ∈ user.Permissions, p.Name ≠ "admin") :
    runChain
        (HandlerFunc.pure (AuthMiddleware jwtSecret parse userRepo) ::
          HandlerFunc.pure (PermissionMiddleware required) :: rest) (s, c) =
      (s, { c with
              written := c.written ++ [⟨401, [("message", "Unauthorized access")]⟩]
              aborted := true }) := by
  have hres := AuthMiddleware_found jwtSecret parse userRepo c token userID user
    hheader hparse hvalid hclaim hfind
  rw [if_pos ⟨htenant, (isAdmin_eq_false_iff _).2 hadmin⟩] at hres
  rw [runChain_cons_aborted]
  · simp [HandlerFunc.pure, hres, unauthorized, Context.JSON, Context.Abort, StatusUnauthorized]
  · simp [HandlerFunc.pure, hres, unauthorized, Context.JSON, Context.Abort]

/-- C1, at a request of `alice` (a customer of `tenant1`) for another tenant,
on a route requiring "restaurant" or "admin". -/
theorem cross_tenant_rejected_uniformly_witness :
    runChain
        (HandlerFunc.pure (AuthMiddleware "secret" parse0 repo0) ::
          HandlerFunc.pure (PermissionMiddleware ["restaurant", "admin"]) :: []) ((), aliceAbroad) =
      ((), { aliceAbroad with
              written := aliceAbroad.written ++ [⟨401, [("message", "Unauthorized access")]⟩]
              aborted := true }) :=
  cross_tenant_rejected_uniformly "secret" parse0 repo0 aliceAbroad
    ⟨true, fun k => if k = "user_id" then some (.string "alice-id") else none⟩ "alice-id" alice
    ["restaurant", "admin"] [] () (by decide) rfl rfl rfl rfl (by decide) (by decide)

/-- C2. An identity that holds "admin" passes the tenant-scope check for every
requested tenant: with a verified token and a found identity,
`AuthMiddleware` writes no response, does not abort, hands the request to the
next handler, and has published the identity, the subject id and the
permission list in the context (every other key is as before). -/
theorem admin_passes_tenant_scope {σ : Type} (jwtSecret : String) (parse : TokenParser)
    (userRepo : UserRepository) (c : Context) (token : Token) (userID : String) (user : User)
    (rest : List (HandlerFunc σ)) (s : σ)
    (hlive : c.aborted = false)
    (hheader : TrimPrefix (c.Header "Authorization") "Bearer " ≠ "")
    (hparse : parse (TrimPrefix (c.Header "Authorization") "Bearer ") jwtSecret = .ok token)
    (hvalid : token.Valid = true)
    (hclaim : token.Claims "user_id" = some (.string userID))
    (hfind : userRepo.FindByID userID = .ok user)
    (hadmin : ∃ p ∈ user.Permissions, p.Name = "admin") :
    runChain (HandlerFunc.pure (AuthMiddleware jwtSecret parse userRepo) :: rest) (s, c) =
        runChain rest (s, AuthMiddleware jwtSecret parse userRepo c) ∧
      (AuthMiddleware jwtSecret parse userRepo c).aborted = false ∧
      (AuthMiddleware jwtSecret parse userRepo c).written = c.written ∧
      (AuthMiddleware jwtSecret parse userRepo c).Get "user" = some (.user user) ∧
      (AuthMiddleware jwtSecret parse userRepo c).Get "user_id" = some (.string userID) ∧
      (AuthMiddleware jwtSecret parse userRepo c).Get "permissions" =
        some (.permissions user.Permissions) ∧
      (∀ k, k ≠ "user" → k ≠ "user_id" → k ≠ "permissions" →
        (AuthMiddleware jwtSecret parse userRepo c).Get k = c.Get k) := by
  have hres := AuthMiddleware_found jwtSecret parse userRepo c token userID user
    hheader hparse hvalid hclaim hfind
  have hadm : isAdmin user.Permissions = true := (isAdmin_eq_true_iff _).2 hadmin
  rw [if_neg (by simp [hadm])] at hres
  have hab : (AuthMiddleware jwtSecret parse userRepo c).aborted = false := by
    simp [hres, setIdentity, Context.Set, hlive]
  refine ⟨?_, hab, ?_, ?_, ?_, ?_, ?_⟩
  · rw [runChain_cons_live]
    · rfl
    · simpa [HandlerFunc.pure] using hab
  · simp [hres, setIdentity, Context.Set]
  · simp [hres, setIdentity, Context.Set, Context.Get]
  · simp [hres, setIdentity, Context.Set, Context.Get]
  · simp [hres, setIdentity, Context.Set, Context.Get]
  · intro k h1 h2 h3
    simp [hres, setIdentity, Context.Set, Context.Get, h1, h2, h3]

/-- C2, at a request of `root` (who holds "admin") for a tenant other than
the one `root` is registered with. -/
theorem admin_passes_tenant_scope_witness :
    root.RestaurantID.String ≠ rootAbroad.Param "restaurantId" ∧
      (AuthMiddleware "secret" parse0 repo0 rootAbroad).aborted = false ∧
      (AuthMiddleware "secret" parse0 repo0 rootAbroad).Get "user" = some (.user root) :=
  have h := admin_passes_tenant_scope "secret" parse0 repo0 rootAbroad
    ⟨true, fun k => if k = "user_id" then some (.string "root-id") else none⟩ "root-id" root
    ([] : List (HandlerFunc Unit)) () rfl (by decide) rfl rfl rfl rfl
    ⟨⟨3, "admin"⟩, by decide, rfl⟩
  ⟨by decide, h.2.1, h.2.2.2.1⟩

/-- The outcome of `PermissionMiddleware` on a context that holds a permission
list. -/
theorem PermissionMiddleware_held (required : List String) (c : Context)
    (permissions : List Permission)
    (hheld : c.Get "permissions" = some (.permissions permissions)) :
    PermissionMiddleware required c =
      if permissions.any (fun perm => required.contains perm.Name) then c
      else forbidden c StatusForbidden "Forbidden: insufficient permissions" := by
  unfold PermissionMiddleware
  simp only [hheld]
  cases permissions.any (fun perm => required.contains perm.Name) <;> simp

/-- C3 fails on the code: `alice`, a customer of `tenant1` with a verified
token, asks for another tenant; the tenant-scope check fails and the response
is 401, not 403, while her failed permission check on her own tenant is
answered 403. -/
theorem tenant_scope_failure_not_forbidden :
    alice.RestaurantID.String ≠ aliceAbroad.Param "restaurantId" ∧
      isAdmin alice.Permissions = false ∧
      (AuthMiddleware "secret" parse0 repo0 aliceAbroad).written =
        [⟨401, [("message", "Unauthorized access")]⟩] ∧
      (¬ ∃ body, (AuthMiddleware "secret" parse0 repo0 aliceAbroad).written = [⟨403, body⟩]) ∧
      (PermissionMiddleware ["restaurant", "admin"]
          (AuthMiddleware "secret" parse0 repo0
            (request0 tenant1.String "Bearer tok-alice" "10.0.0.1"))).written =
        [⟨403, [("error", "Forbidden: insufficient permissions")]⟩] := by
  refine ⟨by decide, by decide, by decide, ?_, by decide⟩
  rintro ⟨body, h⟩
  have h2 : (AuthMiddleware "secret" parse0 repo0 aliceAbroad).written =
      [⟨401, [("message", "Unauthorized access")]⟩] := by decide
  rw [h2] at h
  simp at h

/-- C3, amended. When the tenant-scope check fails (the identity's tenant
differs from the requested one and the identity does not hold "admin"),
`AuthMiddleware` answers 401 with the message "Unauthorized access" and
aborts; a failed permission check is answered 403 by `PermissionMiddleware`,
so the two outcomes differ. -/
theorem tenant_scope_failure_unauthorized (jwtSecret : String) (parse : TokenParser)
    (userRepo : UserRepository) (c : Context) (token : Token) (userID : String) (user : User)
    (hheader : TrimPrefix (c.Header "Authorization") "Bearer " ≠ "")
    (hparse : parse (TrimPrefix (c.Header "Authorization") "Bearer ") jwtSecret = .ok token)
    (hvalid : token.Valid = true)
    (hclaim : token.Claims "user_id" = some (.string userID))
    (hfind : userRepo.FindByID userID = .ok user)
    (htenant : user.RestaurantID.String ≠ c.Param "restaurantId")
    (hadmin : ∀ p ∈ user.Permissions, p.Name ≠ "admin") :
    (AuthMiddleware jwtSecret parse userRepo c).written =
        c.written ++ [⟨401, [("message", "Unauthorized access")]⟩] ∧
      (AuthMiddleware jwtSecret parse userRepo c).aborted = true ∧
      ∀ (required : List String) (c2 : Context) (permissions : List Permission),
        c2.Get "permissions" = some (.permissions permissions) →
        (∀ p ∈ permissions, p.Name ∉ required) →
        (PermissionMiddleware required c2).written =
            c2.written ++ [⟨403, [("error", "Forbidden: insufficient permissions")]⟩] ∧
          (PermissionMiddleware required c2).aborted = true := by
  have hres := AuthMiddleware_found jwtSecret parse userRepo c token userID user
    hheader hparse hvalid hclaim hfind
  rw [if_pos ⟨htenant, (isAdmin_eq_false_iff _).2 hadmin⟩] at hres
  refine ⟨by simp [hres, unauthorized, Context.JSON, Context.Abort, StatusUnauthorized],
    by simp [hres, unauthorized, Context.JSON, Context.Abort], ?_⟩
  intro required c2 permissions hheld hnone
  have hany : permissions.any (fun perm => required.contains perm.Name) = false := by
    simpa [List.any_eq_false] using hnone
  rw [PermissionMiddleware_held required c2 permissions hheld, hany]
  simp [forbidden, Context.JSON, Context.Abort, StatusForbidden]

/-- C3 amended, at the request of `alice` for another tenant. -/
theorem tenant_scope_failure_unauthorized_witness :
    (AuthMiddleware "secret" parse0 repo0 aliceAbroad).written =
        aliceAbroad.written ++ [⟨401, [("message", "Unauthorized access")]⟩] ∧
      (AuthMiddleware "secret" parse0 repo0 aliceAbroad).aborted = true :=
  have h := tenant_scope_failure_unauthorized "secret" parse0 repo0 aliceAbroad
    ⟨true, fun k => if k = "user_id" then some (.string "alice-id") else none⟩ "alice-id" alice
    (by decide) rfl rfl rfl rfl (by decide) (by decide)
  ⟨h.1, h.2.1⟩

/-- C4. On a context that holds the identity's permission list,
`PermissionMiddleware` hands the request on, untouched, when at least one of
the identity's permissions has its name among the required ones; otherwise
(also when the list is empty) it answers 403 and aborts; so a request that
arrives live leaves live exactly when such a permission exists. -/
theorem permission_check_iff (required : List String) (c : Context)
    (permissions : List Permission)
    (hheld : c.Get "permissions" = some (.permissions permissions)) :
    ((∃ p ∈ permissions, p.Name ∈ required) → PermissionMiddleware required c = c) ∧
      ((¬ ∃ p ∈ permissions, p.Name ∈ required) →
        PermissionMiddleware required c =
          { c with
              written := c.written ++ [⟨403, [("error", "Forbidden: insufficient permissions")]⟩]
              aborted := true }) ∧
      (c.aborted = false →
        ((PermissionMiddleware required c).aborted = false ↔
          ∃ p ∈ permissions, p.Name ∈ required)) := by
  have hres := PermissionMiddleware_held required c permissions hheld
  by_cases h : ∃ p ∈ permissions, p.Name ∈ required
  · have hany : permissions.any (fun perm => required.contains perm.Name) = true := by
      simpa [List.any_eq_true] using h
    rw [hany, if_pos rfl] at hres
    exact ⟨fun _ => hres, fun hn => absurd h hn, fun hl => by simp [hres, hl, h]⟩
  · have hany : permissions.any (fun perm => required.contains perm.Name) = false := by
      simpa [List.any_eq_false] using h
    rw [hany] at hres
    refine ⟨fun hp => absurd hp h, fun _ => ?_, fun _ => ?_⟩
    · simp [hres, forbidden, Context.JSON, Context.Abort, StatusForbidden]
    · simp [hres, forbidden, Context.JSON, Context.Abort, h]

/-- C4, at the context `AuthMiddleware` leaves for `alice` on her own tenant:
a route requiring "customer" lets her through, a route requiring "restaurant"
or "admin" answers 403. -/
theorem permission_check_iff_witness :
    PermissionMiddleware ["customer", "admin", "restaurant"]
        (AuthMiddleware "secret" parse0 repo0
          (request0 tenant1.String "Bearer tok-alice" "10.0.0.1")) =
      AuthMiddleware "secret" parse0 repo0
        (request0 tenant1.String "Bearer tok-alice" "10.0.0.1") ∧
    (PermissionMiddleware ["restaurant", "admin"]
        (AuthMiddleware "secret" parse0 repo0
          (request0 tenant1.String "Bearer tok-alice" "10.0.0.1"))).written =
      [⟨403, [("error", "Forbidden: insufficient permissions")]⟩] :=
  ⟨(permission_check_iff ["customer", "admin", "restaurant"]
      (AuthMiddleware "secret" parse0 repo0
        (request0 tenant1.String "Bearer tok-alice" "10.0.0.1"))
      alice.Permissions rfl).1 ⟨⟨1, "customer"⟩, by decide, by decide⟩,
    by decide⟩

/-- C5. `AuthMiddleware` answers 401 and aborts, leaving the key/value store
and every other part of the context as it was, whatever tenant is requested
and (in the first four cases) whatever the repository holds, when: the
`Authorization` header is empty or is just "Bearer "; the token parser
returns an error; the parsed token is not valid; the `user_id` claim is
absent or not a string; the lookup of the identity fails. In none of these
cases is the answer that of the tenant-scope check. -/
theorem unauthenticated_cases (jwtSecret : String) (parse : TokenParser)
    (userRepo : UserRepository) (c : Context) :
    ((c.Header "Authorization" = "" ∨ c.Header "Authorization" = "Bearer ") →
        AuthMiddleware jwtSecret parse userRepo c =
          { c with
              written := c.written ++ [⟨401, [("message", "Authorization token is required")]⟩]
              aborted := true }) ∧
      (∀ e, TrimPrefix (c.Header "Authorization") "Bearer " ≠ "" →
        parse (TrimPrefix (c.Header "Authorization") "Bearer ") jwtSecret = .error e →
        AuthMiddleware jwtSecret parse userRepo c =
          { c with
              written := c.written ++ [⟨401, [("message", "Invalid token")]⟩]
              aborted := true }) ∧
      (∀ token, TrimPrefix (c.Header "Authorization") "Bearer " ≠ "" →
        parse (TrimPrefix (c.Header "Authorization") "Bearer ") jwtSecret = .ok token →
        token.Valid = false →
        AuthMiddleware jwtSecret parse userRepo c =
          { c with
              written := c.written ++ [⟨401, [("message", "Token is not valid")]⟩]
              aborted := true }) ∧
      (∀ token, TrimPrefix (c.Header "Authorization") "Bearer " ≠ "" →
        parse (TrimPrefix (c.Header "Authorization") "Bearer ") jwtSecret = .ok token →
        token.Valid = true →
        (∀ userID, token.Claims "user_id" ≠ some (.string userID)) →
        AuthMiddleware jwtSecret parse userRepo c =
          { c with
              written := c.written ++ [⟨401, [("message", "Invalid token claims")]⟩]
              aborted := true }) ∧
      (∀ token userID e, TrimPrefix (c.Header "Authorization") "Bearer " ≠ "" →
        parse (TrimPrefix (c.Header "Authorization") "Bearer ") jwtSecret = .ok token →
        token.Valid = true →
        token.Claims "user_id" = some (.string userID) →
        userRepo.FindByID userID = .error e →
        AuthMiddleware jwtSecret parse userRepo c =
          { c with
              written := c.written ++ [⟨401, [("message", "User not found")]⟩]
              aborted := true }) := by
  refine ⟨?_, ?_, ?_, ?_, ?_⟩
  · intro h
    have ht : TrimPrefix (c.Header "Authorization") "Bearer " = "" := by
      rcases h with h | h <;> rw [h] <;> decide
    simp [AuthMiddleware, ht, unauthorized, Context.JSON, Context.Abort, StatusUnauthorized]
  · intro e hheader hparse
    simp [AuthMiddleware, hheader, hparse, unauthorized, Context.JSON, Context.Abort,
      StatusUnauthorized]
  · intro token hheader hparse hvalid
    simp [AuthMiddleware, hheader, hparse, hvalid, unauthorized, Context.JSON, Context.Abort,
      StatusUnauthorized]
  · intro token hheader hparse hvalid hclaim
    unfold AuthMiddleware
    simp only [hheader, if_false, hparse, hvalid]
    cases hc : token.Claims "user_id" with
    | none => simp [unauthorized, Context.JSON, Context.Abort, StatusUnauthorized]
    | some v =>
      cases v with
      | string userID => exact absurd hc (hclaim userID)
      | number n => simp [unauthorized, Context.JSON, Context.Abort, StatusUnauthorized]
      | uuid u => simp [unauthorized, Context.JSON, Context.Abort, StatusUnauthorized]
      | other => simp [unauthorized, Context.JSON, Context.Abort, StatusUnauthorized]
  · intro token userID e hheader hparse hvalid hclaim hfind
    simp [AuthMiddleware, hheader, hparse, hvalid, hclaim, hfind, unauthorized, Context.JSON,
      Context.Abort, StatusUnauthorized]

/-- C5, at requests for `tenant1`: without a header, with a token the parser
refuses, with a token that is not valid, with a numeric `user_id`, and with a
subject the repository does not know. -/
theorem unauthenticated_cases_witness :
    (AuthMiddleware "secret" parse0 repo0 (request0 tenant1.String "" "10.0.0.1")).written =
        [⟨401, [("message", "Authorization token is required")]⟩] ∧
      (AuthMiddleware "secret" parse0 repo0
          (request0 tenant1.String "Bearer forged" "10.0.0.1")).written =
        [⟨401, [("message", "Invalid token")]⟩] ∧
      (AuthMiddleware "secret" parse0 repo0
          (request0 tenant1.String "Bearer tok-stale" "10.0.0.1")).written =
        [⟨401, [("message", "Token is not valid")]⟩] ∧
      (AuthMiddleware "secret" parse0 repo0
          (request0 tenant1.String "Bearer tok-num" "10.0.0.1")).aborted = true ∧
      (AuthMiddleware "secret" parse0 repo0
          (request0 tenant1.String "Bearer tok-ghost" "10.0.0.1")).Get "user_id" = none :=
  ⟨congrArg Context.written
      ((unauthenticated_cases "secret" parse0 repo0
        (request0 tenant1.String "" "10.0.0.1")).1 (Or.inl rfl)),
    congrArg Context.written
      ((unauthenticated_cases "secret" parse0 repo0
        (request0 tenant1.String "Bearer forged" "10.0.0.1")).2.1
          "signature is invalid" (by decide) rfl),
    congrArg Context.written
      ((unauthenticated_cases "secret" parse0 repo0
        (request0 tenant1.String "Bearer tok-stale" "10.0.0.1")).2.2.1
          ⟨false, fun _ => none⟩ (by decide) rfl rfl),
    congrArg Context.aborted
      ((unauthenticated_cases "secret" parse0 repo0
        (request0 tenant1.String "Bearer tok-num" "10.0.0.1")).2.2.2.1
          ⟨true, fun k => if k = "user_id" then some (.number 7) else none⟩ (by decide) rfl rfl
          (by intro userID; simp)),
    congrArg (fun c => Context.Get c "user_id")
      ((unauthenticated_cases "secret" parse0 repo0
        (request0 tenant1.String "Bearer tok-ghost" "10.0.0.1")).2.2.2.2
          ⟨true, fun k => if k = "user_id" then some (.string "ghost-id") else none⟩ "ghost-id"
          "record not found" (by decide) rfl rfl rfl rfl)⟩

/-! ## Helper lemmas: the clock and the sliding window -/

theorem Time.Sub_lt_iff (W : Duration) (T t : Time) (hmin : minDuration < W)
    (hmax : W ≤ maxDuration) : Time.Sub T t < W ↔ T - W < t := by
  unfold Time.Sub
  simp only [minDuration, maxDuration] at *
  split_ifs with h1 h2 <;> constructor <;> intro h <;> linarith

theorem Time.Sub_ge_of_ge (W : Duration) (T t : Time) (hmax : W ≤ maxDuration)
    (h : W ≤ T - t) : W ≤ Time.Sub T t := by
  unfold Time.Sub
  simp only [minDuration, maxDuration] at *
  split_ifs with h1 h2 <;> linarith

theorem prune_eq_newerThan (W : Duration) (T : Time) (stored : Option (List Time))
    (hmin : minDuration < W) (hmax : W ≤ maxDuration) :
    prune W T stored = newerThan W T (stored.getD []) := by
  cases stored with
  | none => rfl
  | some ts =>
    simp only [prune, newerThan, Option.getD_some]
    apply List.filter_congr
    intro t _
    simp [Time.Sub_lt_iff W T t hmin hmax]

theorem prune_eq_self (W : Duration) (T : Time) (stored : Option (List Time))
    (h : ∀ t ∈ stored.getD [], Time.Sub T t < W) : prune W T stored = stored.getD [] := by
  cases stored with
  | none => rfl
  | some ts =>
    simp only [prune, Option.getD_some]
    rw [List.filter_eq_self]
    intro t ht
    simpa using h t (by simpa using ht)

theorem prune_length_le (W : Duration) (T : Time) (stored : Option (List Time)) :
    (prune W T stored).length ≤ (stored.getD []).length := by
  cases stored with
  | none => simp [prune]
  | some ts => simpa [prune] using List.length_filter_le _ ts

/-- The handler `IPRateLimiter.Limit` in terms of `prune` and `record`. -/
theorem ipLimit_eq (T : Time) (rl : IPRateLimiter) (c : Context) :
    IPRateLimiter.Limit T (rl, c) =
      if rl.maxAllowedRequests ≤
          ((prune rl.requestWindow T (rl.ipRequestTimes c.ClientIP)).length : Int) then
        (rl, rejected429 c)
      else
        ({ rl with
            ipRequestTimes := record rl.ipRequestTimes c.ClientIP
              (prune rl.requestWindow T (rl.ipRequestTimes c.ClientIP) ++ [T]) }, c) := by
  unfold IPRateLimiter.Limit
  cases h : rl.ipRequestTimes c.ClientIP <;>
    simp [h, prune, rejected429, tooManyRequests, Context.JSON, Context.Abort,
      StatusTooManyRequests] <;> rfl

/-- The handler `RateLimiter.Limit`, on a context with a string under
"user_id", in terms of `prune` and `record`. -/
theorem userLimit_eq (T : Time) (rl : RateLimiter) (c : Context) (k : String)
    (hk : c.Get "user_id" = some (.string k)) :
    RateLimiter.Limit T (rl, c) =
      if rl.maxAllowedRequests ≤
          ((prune rl.requestWindow T (rl.userRequestTimes k)).length : Int) then
        (rl, rejected429 c)
      else
        ({ rl with
            userRequestTimes := record rl.userRequestTimes k
              (prune rl.requestWindow T (rl.userRequestTimes k) ++ [T]) }, c) := by
  unfold RateLimiter.Limit
  cases h : rl.userRequestTimes k <;>
    simp [hk, h, prune, rejected429, tooManyRequests, Context.JSON, Context.Abort,
      StatusTooManyRequests] <;> rfl

theorem ipLimit_isSlidingLog :
    IsSlidingLog IPRateLimiter.Limit IPRateLimiter.ipRequestTimes IPRateLimiter.requestWindow
      IPRateLimiter.maxAllowedRequests ipKey := by
  intro T rl c k hk
  simp only [ipKey, Option.some.injEq] at hk
  subst hk
  rw [ipLimit_eq]
  constructor
  · intro h
    rw [if_pos h]
  · intro h
    rw [if_neg (by omega)]
    exact ⟨rfl, rfl, rfl, rfl⟩

theorem userKey_eq_some (c : Context) (k : String) (hk : userKey c = some k) :
    c.Get "user_id" = some (.string k) := by
  unfold userKey at hk
  split at hk
  · rename_i u hu
    simp only [Option.some.injEq] at hk
    rw [hu, hk]
  · exact absurd hk (by simp)

theorem userLimit_isSlidingLog :
    IsSlidingLog RateLimiter.Limit RateLimiter.userRequestTimes RateLimiter.requestWindow
      RateLimiter.maxAllowedRequests userKey := by
  intro T rl c k hk
  rw [userLimit_eq T rl c k (userKey_eq_some c k hk)]
  constructor
  · intro h
    rw [if_pos h]
  · intro h
    rw [if_neg (by omega)]
    exact ⟨rfl, rfl, rfl, rfl⟩

/-! ## Helper lemmas: serving a sequence of requests -/

theorem serve_append {σ : Type} (limit : Time → HandlerFunc σ) (a b : List (Time × Context)) :
    ∀ s : σ, serve limit s (a ++ b) =
      ((serve limit (serve limit s a).1 b).1,
        (serve limit s a).2 ++ (serve limit (serve limit s a).1 b).2) := by
  induction a with
  | nil => intro s; simp [serve]
  | cons r a ih =>
    intro s
    obtain ⟨t, c⟩ := r
    simp [serve, ih]

theorem serve_invariant {σ : Type} (limit : Time → HandlerFunc σ) (P : σ → Prop)
    (hstep : ∀ T s c, P s → P (limit T (s, c)).1) :
    ∀ (reqs : List (Time × Context)) (s : σ), P s → P (serve limit s reqs).1 := by
  intro reqs
  induction reqs with
  | nil => intro s hs; simpa [serve] using hs
  | cons r reqs ih =>
    intro s hs
    obtain ⟨t, c⟩ := r
    simpa [serve] using ih _ (hstep t s c hs)

/-- Clock readings that do not decrease and whose last is less than `W` after
the first differ pairwise by less than `W`. -/
theorem span_of_sorted (W : Int) (ts : List Int) (hsorted : ts.Pairwise (· ≤ ·))
    (hspan : ∀ first last, ts.head? = some first → ts.getLast? = some last →
      last - first < W) :
    ∀ t ∈ ts, ∀ u ∈ ts, u - t < W := by
  rcases List.eq_nil_or_concat ts with h | ⟨L, b, h⟩
  · subst h
    intro t ht
    simp at ht
  · rw [List.concat_eq_append] at h
    subst h
    have hL : ∀ u ∈ L ++ [b], u ≤ b := by
      intro u hu
      rcases List.mem_append.1 hu with hu | hu
      · exact (List.pairwise_append.1 hsorted).2.2 u hu b (by simp)
      · simp at hu
        omega
    cases L with
    | nil =>
      intro t ht u hu
      simp at ht hu
      have := hspan b b (by simp) (by simp)
      omega
    | cons a L =>
      have hb := hspan a b (by simp) (List.getLast?_concat _)
      have ha : ∀ t ∈ a :: L ++ [b], a ≤ t := by
        intro t ht
        rcases List.mem_cons.1 ht with ht | ht
        · omega
        · exact (List.pairwise_cons.1 hsorted).1 t ht
      intro t ht u hu
      have h1 := ha t ht
      have h2 := hL u hu
      omega

/-- A sliding-window log admits every request of a sequence on one key, as
long as the stored timestamps and the clock readings stay within the window
of each other and the limit is not reached, and stores the readings. -/
theorem sliding_admits {σ : Type} (limit : Time → HandlerFunc σ)
    (times : σ → String → Option (List Time)) (window : σ → Duration) (max : σ → Int)
    (key : Context → Option String) (law : IsSlidingLog limit times window max key)
    (k : String) :
    ∀ (reqs : List (Time × Context)) (s : σ),
      (∀ r ∈ reqs, key r.2 = some k) →
      ((((times s k).getD []).length + reqs.length : Nat) : Int) ≤ max s →
      (∀ t ∈ (times s k).getD [] ++ reqs.map Prod.fst, ∀ u ∈ reqs.map Prod.fst,
        Time.Sub u t < window s) →
      (serve limit s reqs).2 = reqs.map Prod.snd ∧
        (times (serve limit s reqs).1 k).getD [] = (times s k).getD [] ++ reqs.map Prod.fst ∧
        window (serve limit s reqs).1 = window s ∧
        max (serve limit s reqs).1 = max s := by
  intro reqs
  induction reqs with
  | nil => intro s _ _ _; simp [serve]
  | cons r reqs ih =>
    intro s hkey hfit hwin
    obtain ⟨T, c⟩ := r
    have hpr : prune (window s) T (times s k) = (times s k).getD [] :=
      prune_eq_self _ _ _ (fun t ht => hwin t (List.mem_append_left _ ht) T (by simp))
    have hlt : ((prune (window s) T (times s k)).length : Int) < max s := by
      rw [hpr]
      simp only [List.length_cons] at hfit
      omega
    obtain ⟨hc, ht, hw, hm⟩ := (law T s c k (hkey (T, c) (by simp))).2 hlt
    have hstored : (times (limit T (s, c)).1 k).getD [] = (times s k).getD [] ++ [T] := by
      rw [ht, hpr]
      simp [record]
    obtain ⟨h1, h2, h3, h4⟩ := ih (limit T (s, c)).1
      (fun r hr => hkey r (List.mem_cons_of_mem _ hr))
      (by
        rw [hstored, hm]
        simp only [List.length_append, List.length_cons, List.length_nil] at hfit ⊢
        omega)
      (by
        rw [hstored, hw]
        intro t ht u hu
        exact hwin t (by
          simp only [List.map_cons, List.mem_append, List.mem_cons, List.mem_singleton,
            List.not_mem_nil, or_false] at ht ⊢
          tauto) u (by simp only [List.map_cons]; exact List.mem_cons_of_mem _ hu))
    refine ⟨?_, ?_, ?_, ?_⟩
    · simp [serve, hc, h1]
    · simp [serve, h2, hstored]
    · simp [serve, h3, hw]
    · simp [serve, h4, hm]

/-- A sliding-window log with limit `N`, on a key without record: of `N + 1`
requests whose clock readings do not decrease and span less than the window,
the first `N` are admitted and the last is answered 429. -/
theorem sliding_burst {σ : Type} (limit : Time → HandlerFunc σ)
    (times : σ → String → Option (List Time)) (window : σ → Duration) (max : σ → Int)
    (key : Context → Option String) (law : IsSlidingLog limit times window max key)
    (k : String) (s : σ) (N : Nat) (reqs : List (Time × Context))
    (hkey : ∀ r ∈ reqs, key r.2 = some k) (hnone : times s k = none) (hmax : max s = N)
    (hW : 0 < window s) (hWmax : window s ≤ maxDuration) (hlen : reqs.length = N + 1)
    (hsorted : (reqs.map Prod.fst).Pairwise (· ≤ ·))
    (hspan : ∀ first last, (reqs.map Prod.fst).head? = some first →
      (reqs.map Prod.fst).getLast? = some last → last - first < window s) :
    (serve limit s reqs).2 =
        (reqs.take N).map Prod.snd ++ (reqs.drop N).map (fun r => rejected429 r.2) ∧
      (times (serve limit s reqs).1 k).getD [] = (reqs.take N).map Prod.fst := by
  have hall := span_of_sorted (window s) (reqs.map Prod.fst) hsorted hspan
  have hmin : minDuration < window s := by
    simp only [minDuration]
    linarith
  have hsub : ∀ t ∈ reqs.map Prod.fst, ∀ u ∈ reqs.map Prod.fst, Time.Sub u t < window s := by
    intro t ht u hu
    rw [Time.Sub_lt_iff _ u t hmin hWmax]
    have := hall t ht u hu
    linarith
  have hinit : ∀ r ∈ reqs.take N, r ∈ reqs := fun r hr => List.mem_of_mem_take hr
  have hlast : ∀ r ∈ reqs.drop N, r ∈ reqs := fun r hr => List.mem_of_mem_drop hr
  have hlenI : (reqs.take N).length = N := by
    rw [List.length_take]
    omega
  obtain ⟨h1, h2, h3, h4⟩ := sliding_admits limit times window max key law k (reqs.take N) s
    (fun r hr => hkey r (hinit r hr))
    (by
      rw [hnone, hmax, hlenI]
      simp)
    (by
      rw [hnone]
      intro t ht u hu
      simp only [Option.getD_none, List.nil_append] at ht
      exact hsub t (List.mem_map.2 (by
          obtain ⟨r, hr, hrt⟩ := List.mem_map.1 ht
          exact ⟨r, hinit r hr, hrt⟩)) u (List.mem_map.2 (by
          obtain ⟨r, hr, hru⟩ := List.mem_map.1 hu
          exact ⟨r, hinit r hr, hru⟩)))
  rw [hnone] at h2
  simp only [Option.getD_none, List.nil_append] at h2
  have hdrop : ∃ T c, reqs.drop N = [(T, c)] := by
    have hl : (reqs.drop N).length = 1 := by
      rw [List.length_drop]
      omega
    match hd : reqs.drop N, hl with
    | [(T, c)], _ => exact ⟨T, c, rfl⟩
  obtain ⟨T, c, hd⟩ := hdrop
  have hTc : (T, c) ∈ reqs := hlast _ (by rw [hd]; simp)
  have hpr : prune (window (serve limit s (reqs.take N)).1) T
      (times (serve limit s (reqs.take N)).1 k) = (reqs.take N).map Prod.fst := by
    rw [prune_eq_self, h2]
    rw [h2, h3]
    intro t ht
    exact hsub t (List.mem_map.2 (by
        obtain ⟨r, hr, hrt⟩ := List.mem_map.1 ht
        exact ⟨r, hinit r hr, hrt⟩)) T (List.mem_map.2 ⟨(T, c), hTc, rfl⟩)
  have hrej := (law T (serve limit s (reqs.take N)).1 c k (hkey _ hTc)).1 (by
    rw [hpr, h4, hmax, List.length_map, hlenI])
  have hsplit : serve limit s reqs = serve limit s (reqs.take N ++ reqs.drop N) := by
    rw [List.take_append_drop]
  rw [hsplit, serve_append, hd]
  simp only [serve, hrej, h1, List.map_cons, List.map_nil]
  exact ⟨trivial, h2⟩

/-! ## The rate limiters -/

/-- C6. For a key without record, a limit `N` and a window `W > 0`: of `N + 1`
checks whose clock readings do not decrease and span less than `W` (the last
is less than `W` after the first), both limiters admit the first `N` (their
contexts are handed on as they came) and answer the last with 429 on the
aborted context. `W` is a `time.Duration`, hence at most `maxDuration`. -/
theorem burst_admitted_then_rejected (k : String) (N : Nat) (W : Duration)
    (reqs : List (Time × Context)) (hW : 0 < W) (hWmax : W ≤ maxDuration)
    (hlen : reqs.length = N + 1)
    (hsorted : (reqs.map Prod.fst).Pairwise (· ≤ ·))
    (hspan : ∀ first last, (reqs.map Prod.fst).head? = some first →
      (reqs.map Prod.fst).getLast? = some last → last - first < W) :
    (∀ rl : IPRateLimiter, rl.requestWindow = W → rl.maxAllowedRequests = N →
        rl.ipRequestTimes k = none → (∀ r ∈ reqs, r.2.ClientIP = k) →
        (serve IPRateLimiter.Limit rl reqs).2 =
          (reqs.take N).map Prod.snd ++
            (reqs.drop N).map (fun r =>
              { r.2 with
                  written := r.2.written ++
                    [⟨429, [("error", "Too many requests. Please try again later.")]⟩]
                  aborted := true })) ∧
      (∀ rl : RateLimiter, rl.requestWindow = W → rl.maxAllowedRequests = N →
        rl.userRequestTimes k = none → (∀ r ∈ reqs, r.2.Get "user_id" = some (.string k)) →
        (serve RateLimiter.Limit rl reqs).2 =
          (reqs.take N).map Prod.snd ++
            (reqs.drop N).map (fun r =>
              { r.2 with
                  written := r.2.written ++
                    [⟨429, [("error", "Too many requests. Please try again later.")]⟩]
                  aborted := true })) := by
  constructor
  · intro rl hw hn hnone hkey
    subst hw
    exact (sliding_burst _ _ _ _ _ ipLimit_isSlidingLog k rl N reqs
      (fun r hr => by simp [ipKey, hkey r hr]) hnone hn hW hWmax hlen hsorted hspan).1
  · intro rl hw hn hnone hkey
    subst hw
    exact (sliding_burst _ _ _ _ _ userLimit_isSlidingLog k rl N reqs
      (fun r hr => by simp [userKey, hkey r hr]) hnone hn hW hWmax hlen hsorted hspan).1

/-- C6, with the limiters of the router (ten seconds, five requests): of six
requests 100 ms apart, from one address or of one user, the first five pass
and the sixth is answered 429. -/
theorem burst_admitted_then_rejected_witness :
    (serve IPRateLimiter.Limit iPrateLimiter (burst 0 (fromIP "10.0.0.1"))).2 =
        ((burst 0 (fromIP "10.0.0.1")).take 5).map Prod.snd ++
          ((burst 0 (fromIP "10.0.0.1")).drop 5).map (fun r =>
            { r.2 with
                written := r.2.written ++
                  [⟨429, [("error", "Too many requests. Please try again later.")]⟩]
                aborted := true }) ∧
      (serve RateLimiter.Limit rateLimiter (burst 0 fromAlice)).2 =
        ((burst 0 fromAlice).take 5).map Prod.snd ++
          ((burst 0 fromAlice).drop 5).map (fun r =>
            { r.2 with
                written := r.2.written ++
                  [⟨429, [("error", "Too many requests. Please try again later.")]⟩]
                aborted := true }) :=
  ⟨(burst_admitted_then_rejected "10.0.0.1" 5 (10 * Second) (burst 0 (fromIP "10.0.0.1"))
      (by decide) (by decide) rfl (by decide)
      (by
        intro first last h1 h2
        simp [burst, List.range, List.range.loop] at h1 h2
        subst h1 h2
        decide)).1 iPrateLimiter rfl rfl rfl (by decide),
    (burst_admitted_then_rejected "alice-id" 5 (10 * Second) (burst 0 fromAlice)
      (by decide) (by decide) rfl (by decide)
      (by
        intro first last h1 h2
        simp [burst, List.range, List.range.loop] at h1 h2
        subst h1 h2
        decide)).2 rateLimiter rfl rfl rfl (by decide)⟩

/-- C7. A key holds `N` admitted timestamps, `N` being the limit, all less
than `W` after the earliest of them, `t1`. A check at any clock reading `T`
with `T - t1 ≥ W` (also when `T - t1 = W`) is admitted by both limiters: the
context is handed on as it came and `T` is recorded after the timestamps the
pruning keeps. `W` is a `time.Duration`, hence at most `maxDuration`. -/
theorem admitted_again_after_window (k : String) (N : Nat) (W : Duration) (stored : List Time)
    (t1 T : Time) (c : Context) (_hN : 1 ≤ N) (hWmax : W ≤ maxDuration)
    (hlen : stored.length = N) (hmem : t1 ∈ stored) (_hearliest : ∀ t ∈ stored, t1 ≤ t)
    (_hspan : ∀ t ∈ stored, t - t1 < W) (hwait : W ≤ T - t1) :
    (∀ rl : IPRateLimiter, rl.requestWindow = W → rl.maxAllowedRequests = N →
        rl.ipRequestTimes k = some stored → c.ClientIP = k →
        (IPRateLimiter.Limit T (rl, c)).2 = c ∧
          (IPRateLimiter.Limit T (rl, c)).1.ipRequestTimes k =
            some (prune W T (some stored) ++ [T])) ∧
      (∀ rl : RateLimiter, rl.requestWindow = W → rl.maxAllowedRequests = N →
        rl.userRequestTimes k = some stored → c.Get "user_id" = some (.string k) →
        (RateLimiter.Limit T (rl, c)).2 = c ∧
          (RateLimiter.Limit T (rl, c)).1.userRequestTimes k =
            some (prune W T (some stored) ++ [T])) := by
  have hlt : ((prune W T (some stored)).length : Int) < N := by
    have h : (prune W T (some stored)).length < stored.length := by
      simp only [prune]
      rw [List.length_filter_lt_length_iff_exists]
      refine ⟨t1, hmem, ?_⟩
      have := Time.Sub_ge_of_ge W T t1 hWmax hwait
      simp only [decide_eq_true_eq, not_lt]
      exact this
    omega
  constructor
  · intro rl hw hn hst hk
    subst hw hk
    obtain ⟨h1, h2, _, _⟩ :=
      (ipLimit_isSlidingLog T rl c c.ClientIP rfl).2 (by rw [hst, hn]; exact hlt)
    refine ⟨h1, ?_⟩
    rw [h2, hst]
    simp [record]
  · intro rl hw hn hst hk
    subst hw
    obtain ⟨h1, h2, _, _⟩ :=
      (userLimit_isSlidingLog T rl c k (by simp [userKey, hk])).2 (by rw [hst, hn]; exact hlt)
    refine ⟨h1, ?_⟩
    rw [h2, hst]
    simp [record]

/-- C7, with the limiter of the router holding five timestamps 100 ms apart
from the clock reading 0: a check exactly ten seconds after the first is
admitted. -/
theorem admitted_again_after_window_witness :
    (IPRateLimiter.Limit (10 * Second)
        ((serve IPRateLimiter.Limit iPrateLimiter ((burst 0 (fromIP "10.0.0.1")).take 5)).1,
          fromIP "10.0.0.1")).2 = fromIP "10.0.0.1" :=
  ((admitted_again_after_window "10.0.0.1" 5 (10 * Second)
      [0, 100000000, 200000000, 300000000, 400000000] 0 (10 * Second) (fromIP "10.0.0.1")
      (by decide) (by decide) rfl (by decide) (by decide) (by decide) (by decide)).1
    (serve IPRateLimiter.Limit iPrateLimiter ((burst 0 (fromIP "10.0.0.1")).take 5)).1
    rfl rfl rfl rfl).1

/-- The user-based limiter leaves its state alone on a request without a
string under "user_id". -/
theorem userLimit_state_of_no_key (T : Time) (rl : RateLimiter) (c : Context)
    (hk : ∀ k, c.Get "user_id" ≠ some (.string k)) : (RateLimiter.Limit T (rl, c)).1 = rl := by
  unfold RateLimiter.Limit
  cases h : c.Get "user_id" with
  | none => simp [h]
  | some v =>
    cases v with
    | string k => exact absurd h (hk k)
    | user u => simp [h]
    | permissions ps => simp [h]
    | other => simp [h]

/-- C8. For every state of a limiter, every key and clock reading `T`: with
`kept` the sequence stored for the key filtered to the timestamps strictly
newer than `T - window` (empty when the key has no record), the check is
admitted when `kept` has fewer than `maxAllowedRequests` elements, and then
the context is handed on as it came and `kept` followed by `T` is stored for
the key; it is answered 429, the state kept, when `kept` has at least that
many. The window is a `time.Duration` above the smallest one. -/
theorem check_filters_then_appends (T : Time) (c : Context) :
    (∀ rl : IPRateLimiter, minDuration < rl.requestWindow → rl.requestWindow ≤ maxDuration →
        (((newerThan rl.requestWindow T ((rl.ipRequestTimes c.ClientIP).getD [])).length : Int)
              < rl.maxAllowedRequests →
            IPRateLimiter.Limit T (rl, c) =
              ({ rl with
                  ipRequestTimes := fun k =>
                    if k = c.ClientIP then
                      some (newerThan rl.requestWindow T
                        ((rl.ipRequestTimes c.ClientIP).getD []) ++ [T])
                    else rl.ipRequestTimes k }, c)) ∧
          (rl.maxAllowedRequests ≤
              ((newerThan rl.requestWindow T ((rl.ipRequestTimes c.ClientIP).getD [])).length
                : Int) →
            IPRateLimiter.Limit T (rl, c) = (rl, rejected429 c))) ∧
      (∀ (rl : RateLimiter) (userID : String), c.Get "user_id" = some (.string userID) →
        minDuration < rl.requestWindow → rl.requestWindow ≤ maxDuration →
        (((newerThan rl.requestWindow T ((rl.userRequestTimes userID).getD [])).length : Int)
              < rl.maxAllowedRequests →
            RateLimiter.Limit T (rl, c) =
              ({ rl with
                  userRequestTimes := fun k =>
                    if k = userID then
                      some (newerThan rl.requestWindow T
                        ((rl.userRequestTimes userID).getD []) ++ [T])
                    else rl.userRequestTimes k }, c)) ∧
          (rl.maxAllowedRequests ≤
              ((newerThan rl.requestWindow T ((rl.userRequestTimes userID).getD [])).length
                : Int) →
            RateLimiter.Limit T (rl, c) = (rl, rejected429 c))) := by
  constructor
  · intro rl hmin hmax
    rw [ipLimit_eq, prune_eq_newerThan _ _ _ hmin hmax]
    constructor
    · intro h
      rw [if_neg (by omega)]
      rfl
    · intro h
      rw [if_pos h]
  · intro rl userID hk hmin hmax
    rw [userLimit_eq T rl c userID hk, prune_eq_newerThan _ _ _ hmin hmax]
    constructor
    · intro h
      rw [if_neg (by omega)]
      rfl
    · intro h
      rw [if_pos h]

/-- C8, with the limiter of the router after four admitted requests: a check
twelve seconds after the first keeps the two timestamps newer than two
seconds, is admitted and recorded after them. -/
theorem check_filters_then_appends_witness :
    (IPRateLimiter.Limit (12 * Second) (afterFour, fromIP "10.0.0.1")).1.ipRequestTimes
        "10.0.0.1" = some [3 * Second, 4 * Second, 12 * Second] :=
  congrArg (fun r => r.1.ipRequestTimes "10.0.0.1")
    (((check_filters_then_appends (12 * Second) (fromIP "10.0.0.1")).1 afterFour
      (by decide) (by decide)).1 (by decide))

/-- C9. A check that is rejected (the limiter writes a response) changes
nothing in the limiter: the whole state, the sequence of the key and of every
other key, is the one before the check; so a check made afterwards is decided
as if the rejected one had not been made. -/
theorem rejected_check_keeps_state (T : Time) (c : Context) :
    (∀ rl : IPRateLimiter, (IPRateLimiter.Limit T (rl, c)).2.written ≠ c.written →
        (IPRateLimiter.Limit T (rl, c)).1 = rl ∧
          ∀ T2 c2, IPRateLimiter.Limit T2 ((IPRateLimiter.Limit T (rl, c)).1, c2) =
            IPRateLimiter.Limit T2 (rl, c2)) ∧
      (∀ rl : RateLimiter, (RateLimiter.Limit T (rl, c)).2.written ≠ c.written →
        (RateLimiter.Limit T (rl, c)).1 = rl ∧
          ∀ T2 c2, RateLimiter.Limit T2 ((RateLimiter.Limit T (rl, c)).1, c2) =
            RateLimiter.Limit T2 (rl, c2)) := by
  constructor
  · intro rl hw
    have hst : (IPRateLimiter.Limit T (rl, c)).1 = rl := by
      rw [ipLimit_eq] at hw ⊢
      split_ifs at hw ⊢ with h
      · rfl
      · exact absurd rfl hw
    exact ⟨hst, fun T2 c2 => by rw [hst]⟩
  · intro rl hw
    have hst : (RateLimiter.Limit T (rl, c)).1 = rl := by
      by_cases hk : ∃ k, c.Get "user_id" = some (.string k)
      · obtain ⟨k, hk⟩ := hk
        rw [userLimit_eq T rl c k hk] at hw ⊢
        split_ifs at hw ⊢ with h
        · rfl
        · exact absurd rfl hw
      · exact userLimit_state_of_no_key T rl c (fun k hk2 => hk ⟨k, hk2⟩)
    exact ⟨hst, fun T2 c2 => by rw [hst]⟩

/-- C9, at the sixth request of a burst on the limiter of the router: the
state after the rejection is the state the five admitted requests left. -/
theorem rejected_check_keeps_state_witness :
    (IPRateLimiter.Limit (5 * 100000000)
        ((serve IPRateLimiter.Limit iPrateLimiter ((burst 0 (fromIP "10.0.0.1")).take 5)).1,
          fromIP "10.0.0.1")).1 =
      (serve IPRateLimiter.Limit iPrateLimiter ((burst 0 (fromIP "10.0.0.1")).take 5)).1 :=
  ((rejected_check_keeps_state (5 * 100000000) (fromIP "10.0.0.1")).1
    (serve IPRateLimiter.Limit iPrateLimiter ((burst 0 (fromIP "10.0.0.1")).take 5)).1
    (by decide)).1

/-- One check of the limiter by client address keeps the limit and the bound
on every stored sequence. -/
theorem ipLimit_bounded (W : Duration) (N : Int) (T : Time) (rl : IPRateLimiter)
    (c : Context)
    (h : rl.requestWindow = W ∧ rl.maxAllowedRequests = N ∧
      ∀ k, (((rl.ipRequestTimes k).getD []).length : Int) ≤ N) :
    (IPRateLimiter.Limit T (rl, c)).1.requestWindow = W ∧
      (IPRateLimiter.Limit T (rl, c)).1.maxAllowedRequests = N ∧
      ∀ k, ((((IPRateLimiter.Limit T (rl, c)).1.ipRequestTimes k).getD []).length : Int) ≤ N := by
  obtain ⟨hw, hn, hb⟩ := h
  rw [ipLimit_eq]
  split_ifs with hfull
  · exact ⟨hw, hn, hb⟩
  · refine ⟨hw, hn, fun k => ?_⟩
    simp only [record]
    split_ifs with hk
    · simp only [Option.getD_some, List.length_append, List.length_cons, List.length_nil]
      omega
    · exact hb k

/-- One check of the limiter by user keeps the limit and the bound on every
stored sequence. -/
theorem userLimit_bounded (W : Duration) (N : Int) (T : Time) (rl : RateLimiter)
    (c : Context)
    (h : rl.requestWindow = W ∧ rl.maxAllowedRequests = N ∧
      ∀ k, (((rl.userRequestTimes k).getD []).length : Int) ≤ N) :
    (RateLimiter.Limit T (rl, c)).1.requestWindow = W ∧
      (RateLimiter.Limit T (rl, c)).1.maxAllowedRequests = N ∧
      ∀ k, ((((RateLimiter.Limit T (rl, c)).1.userRequestTimes k).getD []).length : Int) ≤ N := by
  by_cases hkey : ∃ k, c.Get "user_id" = some (.string k)
  · obtain ⟨userID, hkey⟩ := hkey
    obtain ⟨hw, hn, hb⟩ := h
    rw [userLimit_eq T rl c userID hkey]
    split_ifs with hfull
    · exact ⟨hw, hn, hb⟩
    · refine ⟨hw, hn, fun k => ?_⟩
      simp only [record]
      split_ifs with hk
      · simp only [Option.getD_some, List.length_append, List.length_cons, List.length_nil]
        omega
      · exact hb k
  · rw [userLimit_state_of_no_key T rl c (fun k hk2 => hkey ⟨k, hk2⟩)]
    exact h

/-- C10. From the empty limiter with limit `N ≥ 0`, after any sequence of
checks (any keys, any clock readings, any contexts), the sequence stored for
any key has at most `N` elements, hence at most `N` timestamps newer than
`now - window` for any `now`; and a check touches no sequence but that of the
key it checks: every other key keeps its sequence, unpruned. This holds for
both limiters. -/
theorem stored_sequences_bounded (W : Duration) (N : Int) (hN : 0 ≤ N)
    (reqs : List (Time × Context)) (k : String) :
    ((((serve IPRateLimiter.Limit (NewIPRateLimiter W N) reqs).1.ipRequestTimes k).getD []).length
        : Int) ≤ N ∧
      ((((serve RateLimiter.Limit (NewRateLimiter W N) reqs).1.userRequestTimes k).getD []).length
        : Int) ≤ N ∧
      (∀ now : Time,
        ((newerThan W now
            (((serve IPRateLimiter.Limit (NewIPRateLimiter W N) reqs).1.ipRequestTimes k).getD
              [])).length : Int) ≤ N ∧
          ((newerThan W now
            (((serve RateLimiter.Limit (NewRateLimiter W N) reqs).1.userRequestTimes k).getD
              [])).length : Int) ≤ N) ∧
      (∀ (rl : IPRateLimiter) (T : Time) (c : Context), c.ClientIP ≠ k →
        (IPRateLimiter.Limit T (rl, c)).1.ipRequestTimes k = rl.ipRequestTimes k) ∧
      (∀ (rl : RateLimiter) (T : Time) (c : Context), c.Get "user_id" ≠ some (.string k) →
        (RateLimiter.Limit T (rl, c)).1.userRequestTimes k = rl.userRequestTimes k) := by
  have hip := (serve_invariant IPRateLimiter.Limit
    (fun rl => rl.requestWindow = W ∧ rl.maxAllowedRequests = N ∧
      ∀ k, (((rl.ipRequestTimes k).getD []).length : Int) ≤ N)
    (fun T rl c h => ipLimit_bounded W N T rl c h) reqs (NewIPRateLimiter W N)
    ⟨rfl, rfl, fun k => by simpa [NewIPRateLimiter] using hN⟩).2.2 k
  have huser := (serve_invariant RateLimiter.Limit
    (fun rl => rl.requestWindow = W ∧ rl.maxAllowedRequests = N ∧
      ∀ k, (((rl.userRequestTimes k).getD []).length : Int) ≤ N)
    (fun T rl c h => userLimit_bounded W N T rl c h) reqs (NewRateLimiter W N)
    ⟨rfl, rfl, fun k => by simpa [NewRateLimiter] using hN⟩).2.2 k
  refine ⟨hip, huser, fun now => ⟨?_, ?_⟩, ?_, ?_⟩
  · have := List.length_filter_le (fun timestamp => decide (now - W < timestamp))
      (((serve IPRateLimiter.Limit (NewIPRateLimiter W N) reqs).1.ipRequestTimes k).getD [])
    simp only [newerThan]
    omega
  · have := List.length_filter_le (fun timestamp => decide (now - W < timestamp))
      (((serve RateLimiter.Limit (NewRateLimiter W N) reqs).1.userRequestTimes k).getD [])
    simp only [newerThan]
    omega
  · intro rl T c hk
    rw [ipLimit_eq]
    split_ifs with hfull
    · rfl
    · simp [record, Ne.symm hk]
  · intro rl T c hk
    by_cases hkey : ∃ k2, c.Get "user_id" = some (.string k2)
    · obtain ⟨userID, hkey⟩ := hkey
      have hne : k ≠ userID := by
        intro h
        rw [hkey, h] at hk
        exact hk rfl
      rw [userLimit_eq T rl c userID hkey]
      split_ifs with hfull
      · rfl
      · simp [record, hne]
    · rw [userLimit_state_of_no_key T rl c (fun k2 hk2 => hkey ⟨k2, hk2⟩)]

/-- C10, with the limiter of the router after a burst of six requests from
one address: five timestamps are stored for it. -/
theorem stored_sequences_bounded_witness :
    ((((serve IPRateLimiter.Limit (NewIPRateLimiter (10 * Second) 5)
        (burst 0 (fromIP "10.0.0.1"))).1.ipRequestTimes "10.0.0.1").getD []).length : Int) ≤ 5 :=
  (stored_sequences_bounded (10 * Second) 5 (by decide) (burst 0 (fromIP "10.0.0.1"))
    "10.0.0.1").1

/-! ## The published identity -/

/-- C14. Whenever `AuthMiddleware` lets a request through (the context it
returns is not aborted), the token was verified, its `user_id` claim is a string and the
repository knows that subject; the context then holds "user" = the identity
fetched, "user_id" = the subject id and "permissions" = exactly the
identity's permission list; and `PermissionMiddleware`, run next on that
context, decides on that same list. -/
theorem published_identity (jwtSecret : String) (parse : TokenParser)
    (userRepo : UserRepository) (c : Context)
    (hpass : (AuthMiddleware jwtSecret parse userRepo c).aborted = false) :
    ∃ token userID user,
      parse (TrimPrefix (c.Header "Authorization") "Bearer ") jwtSecret = .ok token ∧
      token.Claims "user_id" = some (.string userID) ∧
      userRepo.FindByID userID = .ok user ∧
      (AuthMiddleware jwtSecret parse userRepo c).Get "user" = some (.user user) ∧
      (AuthMiddleware jwtSecret parse userRepo c).Get "user_id" = some (.string userID) ∧
      (AuthMiddleware jwtSecret parse userRepo c).Get "permissions" =
        some (.permissions user.Permissions) ∧
      ∀ required : List String,
        PermissionMiddleware required (AuthMiddleware jwtSecret parse userRepo c) =
          if user.Permissions.any (fun perm => required.contains perm.Name) then
            AuthMiddleware jwtSecret parse userRepo c
          else
            forbidden (AuthMiddleware jwtSecret parse userRepo c) StatusForbidden
              "Forbidden: insufficient permissions" := by
  have hrej : ∀ m, (unauthorized c m).aborted = true := fun m => rfl
  by_cases hheader : TrimPrefix (c.Header "Authorization") "Bearer " = ""
  · simp [AuthMiddleware, hheader, hrej] at hpass
  · cases hparse : parse (TrimPrefix (c.Header "Authorization") "Bearer ") jwtSecret with
    | error e =>
      simp [AuthMiddleware, hheader, hparse, hrej] at hpass
    | ok token =>
      cases hvalid : token.Valid with
      | false => simp [AuthMiddleware, hheader, hparse, hvalid, hrej] at hpass
      | true =>
        cases hclaim : token.Claims "user_id" with
        | none => simp [AuthMiddleware, hheader, hparse, hvalid, hclaim, hrej] at hpass
        | some v =>
          cases v with
          | number n => simp [AuthMiddleware, hheader, hparse, hvalid, hclaim, hrej] at hpass
          | uuid u => simp [AuthMiddleware, hheader, hparse, hvalid, hclaim, hrej] at hpass
          | other => simp [AuthMiddleware, hheader, hparse, hvalid, hclaim, hrej] at hpass
          | string userID =>
            cases hfind : userRepo.FindByID userID with
            | error e =>
              simp [AuthMiddleware, hheader, hparse, hvalid, hclaim, hfind, hrej] at hpass
            | ok user =>
              have hres := AuthMiddleware_found jwtSecret parse userRepo c token userID user
                hheader hparse hvalid hclaim hfind
              have hset : AuthMiddleware jwtSecret parse userRepo c =
                  setIdentity c user userID := by
                rw [hres]
                split_ifs with h
                · rw [hres, if_pos h] at hpass
                  simp [hrej] at hpass
                · rfl
              have hperm : (AuthMiddleware jwtSecret parse userRepo c).Get "permissions" =
                  some (.permissions user.Permissions) := by
                simp [hset, setIdentity, Context.Set, Context.Get]
              refine ⟨token, userID, user, rfl, hclaim, hfind, ?_, ?_, hperm, ?_⟩
              · simp [hset, setIdentity, Context.Set, Context.Get]
              · simp [hset, setIdentity, Context.Set, Context.Get]
              · intro required
                exact PermissionMiddleware_held required _ user.Permissions hperm

/-- C14, at the request of `alice` for her own tenant. -/
theorem published_identity_witness :
    ∃ token userID user,
      parse0 (TrimPrefix ((request0 tenant1.String "Bearer tok-alice" "10.0.0.1").Header
        "Authorization") "Bearer ") "secret" = .ok token ∧
      token.Claims "user_id" = some (.string userID) ∧
      repo0.FindByID userID = .ok user ∧
      fromAlice.Get "user" = some (.user user) ∧
      fromAlice.Get "user_id" = some (.string userID) ∧
      fromAlice.Get "permissions" = some (.permissions user.Permissions) ∧
      ∀ required : List String,
        PermissionMiddleware required fromAlice =
          if user.Permissions.any (fun perm => required.contains perm.Name) then fromAlice
          else forbidden fromAlice StatusForbidden "Forbidden: insufficient permissions" :=
  published_identity "secret" parse0 repo0 (request0 tenant1.String "Bearer tok-alice" "10.0.0.1")
    (by decide)

/-! ## Helper lemmas: identifiers -/

theorem utf8Bytes_hexDigit : ∀ n, n < 16 → utf8Bytes (hexDigit n) = [hexCode n] := by
  decide

theorem xvalue_hexCode : ∀ n, n < 16 → xvalue (hexCode n) = n := by
  decide

theorem xtob_hexCode (b : Fin 256) :
    xtob (hexCode (b.val / 16)) (hexCode (b.val % 16)) = some b := by
  have h1 := xvalue_hexCode (b.val / 16) (by omega)
  have h2 := xvalue_hexCode (b.val % 16) (by omega)
  have h3 : b.val / 16 ≠ 255 := by omega
  have h4 : b.val % 16 ≠ 255 := by omega
  simp only [xtob, h1, h2, ne_eq, h3, h4, not_false_eq_true, and_self, if_true, Option.some.injEq]
  apply Fin.ext
  show (b.val / 16 * 16 + b.val % 16) % 256 = b.val
  omega

theorem goBytes_append (a b : List Char) : goBytes (a ++ b) = goBytes a ++ goBytes b := by
  induction a with
  | nil => rfl
  | cons c a ih => simp [goBytes, ih]

/-- The bytes of the canonical form of an identifier. -/
theorem goBytes_String (b0 b1 b2 b3 b4 b5 b6 b7 b8 b9 b10 b11 b12 b13 b14 b15 : Fin 256)
    (h : [b0, b1, b2, b3, b4, b5, b6, b7, b8, b9, b10, b11, b12, b13, b14, b15].length = 16) :
    goBytes (UUID.String ⟨[b0, b1, b2, b3, b4, b5, b6, b7, b8, b9, b10, b11, b12, b13, b14, b15],
      h⟩).data =
      [hexCode (b0.val / 16), hexCode (b0.val % 16), hexCode (b1.val / 16), hexCode (b1.val % 16),
        hexCode (b2.val / 16), hexCode (b2.val % 16), hexCode (b3.val / 16), hexCode (b3.val % 16),
        45,
        hexCode (b4.val / 16), hexCode (b4.val % 16), hexCode (b5.val / 16), hexCode (b5.val % 16),
        45,
        hexCode (b6.val / 16), hexCode (b6.val % 16), hexCode (b7.val / 16), hexCode (b7.val % 16),
        45,
        hexCode (b8.val / 16), hexCode (b8.val % 16), hexCode (b9.val / 16), hexCode (b9.val % 16),
        45,
        hexCode (b10.val / 16), hexCode (b10.val % 16), hexCode (b11.val / 16),
        hexCode (b11.val % 16), hexCode (b12.val / 16), hexCode (b12.val % 16),
        hexCode (b13.val / 16), hexCode (b13.val % 16), hexCode (b14.val / 16),
        hexCode (b14.val % 16), hexCode (b15.val / 16), hexCode (b15.val % 16)] := by
  have hd : utf8Bytes '-' = [45] := by decide
  have hi : ∀ b : Fin 256, utf8Bytes (hexDigit (b.val / 16)) = [hexCode (b.val / 16)] :=
    fun b => utf8Bytes_hexDigit _ (by omega)
  have lo : ∀ b : Fin 256, utf8Bytes (hexDigit (b.val % 16)) = [hexCode (b.val % 16)] :=
    fun b => utf8Bytes_hexDigit _ (by omega)
  simp only [UUID.String, List.take, List.drop, hexEncode, goBytes_append, goBytes, hi, lo, hd,
    List.cons_append, List.nil_append, List.append_nil]

/-- The function `uuid.Parse` reads the canonical form of an identifier back
to that identifier. -/
theorem Parse_String (u : UUID) : Parse u.String = .ok u := by
  obtain ⟨bs, h⟩ := u
  match bs, h with
  | [b0, b1, b2, b3, b4, b5, b6, b7, b8, b9, b10, b11, b12, b13, b14, b15], h =>
    unfold Parse
    simp only [goBytes_String]
    rw [if_pos (by rfl)]
    unfold parseDashed
    rw [if_neg (by simp)]
    simp only [decodeAt, List.getD_cons_succ, List.getD_cons_zero, xtob_hexCode, toUUID]
    rw [dif_pos h]

/-! ## The tenant resolver -/

/-- The two outcomes of `MultiTenantRouting`. -/
theorem tenant_resolver_outcome (c : Context) :
    ((∀ u, Parse (c.Param "restaurantId") ≠ .ok u) →
        MultiTenantRouting c =
          { c with
              written := c.written ++ [⟨400, [("error", "Invalid restaurant ID")]⟩]
              aborted := true }) ∧
      (∀ u, Parse (c.Param "restaurantId") = .ok u →
        MultiTenantRouting c = c.Set "restaurant" (.string u.String)) := by
  constructor
  · intro h
    cases hp : Parse (c.Param "restaurantId") with
    | error e => simp [MultiTenantRouting, hp, Context.JSON, Context.Abort, StatusBadRequest]
    | ok u => exact absurd hp (h u)
  · intro u hu
    simp [MultiTenantRouting, hu]

/-- C17. `MultiTenantRouting` answers 400 "Invalid restaurant ID" and aborts
exactly when `uuid.Parse` refuses the `restaurantId` path segment. Otherwise
it writes no response, does not abort and stores the canonical string of the
parsed identifier under "restaurant"; on the context it leaves,
`helper.GetRestaurant` returns the identifier that was parsed and
`helper.GetRestaurantAsString` its canonical string. -/
theorem tenant_resolver (c : Context) :
    ((∀ u, Parse (c.Param "restaurantId") ≠ .ok u) →
        MultiTenantRouting c =
          { c with
              written := c.written ++ [⟨400, [("error", "Invalid restaurant ID")]⟩]
              aborted := true }) ∧
      (∀ u, Parse (c.Param "restaurantId") = .ok u →
        MultiTenantRouting c = c.Set "restaurant" (.string u.String) ∧
          (MultiTenantRouting c).written = c.written ∧
          (MultiTenantRouting c).aborted = c.aborted ∧
          GetRestaurant (MultiTenantRouting c) = .ok u ∧
          GetRestaurantAsString (MultiTenantRouting c) = .ok u.String) ∧
      (c.aborted = false →
        ((MultiTenantRouting c).aborted = true ↔ ∀ u, Parse (c.Param "restaurantId") ≠ .ok u)) := by
  have hok : ∀ u, Parse (c.Param "restaurantId") = .ok u →
      MultiTenantRouting c = c.Set "restaurant" (.string u.String) := by
    intro u hu
    simp [MultiTenantRouting, hu]
  have herr : (∀ u, Parse (c.Param "restaurantId") ≠ .ok u) →
      MultiTenantRouting c = (c.JSON StatusBadRequest [("error", "Invalid restaurant ID")]).Abort := by
    intro h
    cases hp : Parse (c.Param "restaurantId") with
    | error e => simp [MultiTenantRouting, hp]
    | ok u => exact absurd hp (h u)
  refine ⟨fun h => ?_, fun u hu => ?_, fun hlive => ?_⟩
  · rw [herr h]
    rfl
  · rw [hok u hu]
    refine ⟨rfl, rfl, rfl, ?_, ?_⟩
    · simp [GetRestaurant, Context.Get, Context.Set, Parse_String]
    · simp [GetRestaurantAsString, Context.Get, Context.Set]
  · constructor
    · intro hab u hu
      rw [hok u hu] at hab
      simp [Context.Set, hlive] at hab
    · intro h
      rw [herr h]
      rfl

/-- C17, at a request whose segment is written in upper case and at a request
whose segment is not an identifier. -/
theorem tenant_resolver_witness :
    GetRestaurant
        (MultiTenantRouting (request0 "01234567-89AB-CDEF-0123-456789ABCDEF" "" "10.0.0.1")) =
        .ok tenant1 ∧
      GetRestaurantAsString
        (MultiTenantRouting (request0 "01234567-89AB-CDEF-0123-456789ABCDEF" "" "10.0.0.1")) =
        .ok "01234567-89ab-cdef-0123-456789abcdef" ∧
      (MultiTenantRouting (request0 "not-a-uuid" "" "10.0.0.1")).written =
        [⟨400, [("error", "Invalid restaurant ID")]⟩] :=
  ⟨((tenant_resolver (request0 "01234567-89AB-CDEF-0123-456789ABCDEF" "" "10.0.0.1")).2.1
      tenant1 (by decide)).2.2.2.1,
    ((tenant_resolver (request0 "01234567-89AB-CDEF-0123-456789ABCDEF" "" "10.0.0.1")).2.1
      tenant1 (by decide)).2.2.2.2,
    congrArg Context.written
      ((tenant_resolver (request0 "not-a-uuid" "" "10.0.0.1")).1
        (fun u h => absurd (h.symm.trans (by decide :
          Parse ((request0 "not-a-uuid" "" "10.0.0.1").Param "restaurantId") =
            .error "invalid UUID length")) (by simp)))⟩

/-! ## Short-circuiting and the order of the gates -/

/-- The two outcomes of `AuthMiddleware`: a 401 on the aborted context, or
the identity of a verified token published, in which case the identity's
tenant is the requested one or the identity holds "admin". -/
theorem AuthMiddleware_cases (jwtSecret : String) (parse : TokenParser)
    (userRepo : UserRepository) (c : Context) :
    (∃ message, AuthMiddleware jwtSecret parse userRepo c = unauthorized c message) ∨
      ∃ userID user, userRepo.FindByID userID = .ok user ∧
        (user.RestaurantID.String = c.Param "restaurantId" ∨ isAdmin user.Permissions = true) ∧
        AuthMiddleware jwtSecret parse userRepo c = setIdentity c user userID := by
  by_cases hheader : TrimPrefix (c.Header "Authorization") "Bearer " = ""
  · exact Or.inl ⟨"Authorization token is required", by simp [AuthMiddleware, hheader]⟩
  · cases hparse : parse (TrimPrefix (c.Header "Authorization") "Bearer ") jwtSecret with
    | error e => exact Or.inl ⟨"Invalid token", by simp [AuthMiddleware, hheader, hparse]⟩
    | ok token =>
      cases hvalid : token.Valid with
      | false =>
        exact Or.inl ⟨"Token is not valid", by simp [AuthMiddleware, hheader, hparse, hvalid]⟩
      | true =>
        cases hclaim : token.Claims "user_id" with
        | none =>
          exact Or.inl
            ⟨"Invalid token claims", by simp [AuthMiddleware, hheader, hparse, hvalid, hclaim]⟩
        | some v =>
          cases v with
          | number n =>
            exact Or.inl
              ⟨"Invalid token claims", by simp [AuthMiddleware, hheader, hparse, hvalid, hclaim]⟩
          | uuid u =>
            exact Or.inl
              ⟨"Invalid token claims", by simp [AuthMiddleware, hheader, hparse, hvalid, hclaim]⟩
          | other =>
            exact Or.inl
              ⟨"Invalid token claims", by simp [AuthMiddleware, hheader, hparse, hvalid, hclaim]⟩
          | string userID =>
            cases hfind : userRepo.FindByID userID with
            | error e =>
              exact Or.inl
                ⟨"User not found",
                  by simp [AuthMiddleware, hheader, hparse, hvalid, hclaim, hfind]⟩
            | ok user =>
              have hres := AuthMiddleware_found jwtSecret parse userRepo c token userID user
                hheader hparse hvalid hclaim hfind
              by_cases h : user.RestaurantID.String ≠ c.Param "restaurantId" ∧
                  isAdmin user.Permissions = false
              · exact Or.inl ⟨"Unauthorized access", by rw [hres, if_pos h]⟩
              · refine Or.inr ⟨userID, user, hfind, ?_, by rw [hres, if_neg h]⟩
                by_cases ht : user.RestaurantID.String = c.Param "restaurantId"
                · exact Or.inl ht
                · cases hadm : isAdmin user.Permissions with
                  | true => exact Or.inr rfl
                  | false => exact absurd ⟨ht, hadm⟩ h

/-- Every gate but one aborts the chain whenever it writes a response: the
exception is the user-based limiter on a context without "user_id". -/
theorem rejections_abort (c : Context) :
    (∀ (jwtSecret : String) (parse : TokenParser) (userRepo : UserRepository),
        (AuthMiddleware jwtSecret parse userRepo c).written ≠ c.written →
        (AuthMiddleware jwtSecret parse userRepo c).aborted = true) ∧
      (∀ required : List String, (PermissionMiddleware required c).written ≠ c.written →
        (PermissionMiddleware required c).aborted = true) ∧
      ((MultiTenantRouting c).written ≠ c.written → (MultiTenantRouting c).aborted = true) ∧
      (∀ (now : Time) (rl : IPRateLimiter),
        (IPRateLimiter.Limit now (rl, c)).2.written ≠ c.written →
        (IPRateLimiter.Limit now (rl, c)).2.aborted = true) ∧
      (∀ (now : Time) (rl : RateLimiter), c.Get "user_id" ≠ none →
        (RateLimiter.Limit now (rl, c)).2.written ≠ c.written →
        (RateLimiter.Limit now (rl, c)).2.aborted = true) := by
  refine ⟨?_, ?_, ?_, ?_, ?_⟩
  · intro jwtSecret parse userRepo hw
    rcases AuthMiddleware_cases jwtSecret parse userRepo c with ⟨m, hm⟩ | ⟨userID, user, _, _, hset⟩
    · rw [hm]
      rfl
    · rw [hset] at hw
      exact absurd rfl hw
  · intro required hw
    unfold PermissionMiddleware at hw ⊢
    cases hget : c.Get "permissions" with
    | none => simp [hget, forbidden, Context.Abort]
    | some v =>
      cases v with
      | permissions ps =>
        simp only [hget] at hw ⊢
        split_ifs at hw ⊢ with h
        · rfl
        · exact absurd rfl hw
      | string x => simp [hget, forbidden, Context.Abort]
      | user u => simp [hget, forbidden, Context.Abort]
      | other => simp [hget, forbidden, Context.Abort]
  · intro hw
    by_cases h : ∃ u, Parse (c.Param "restaurantId") = .ok u
    · obtain ⟨u, hu⟩ := h
      rw [(tenant_resolver_outcome c).2 u hu] at hw
      exact absurd rfl hw
    · rw [(tenant_resolver_outcome c).1 (fun u hu => h ⟨u, hu⟩)]
  · intro now rl hw
    rw [ipLimit_eq] at hw ⊢
    split_ifs at hw ⊢ with h
    · rfl
    · exact absurd rfl hw
  · intro now rl hkey hw
    cases hget : c.Get "user_id" with
    | none => exact absurd hget hkey
    | some v =>
      cases v with
      | string k =>
        rw [userLimit_eq now rl c k hget] at hw ⊢
        split_ifs at hw ⊢ with h
        · rfl
        · exact absurd rfl hw
      | user u => simp [RateLimiter.Limit, hget, Context.Abort]
      | permissions ps => simp [RateLimiter.Limit, hget, Context.Abort]
      | other => simp [RateLimiter.Limit, hget, Context.Abort]

/-- C15 fails on the code: the user-based limiter, on a context without
"user_id", writes 401 and does not abort, and the route handler behind it
runs and writes its own response. -/
theorem missing_user_id_not_short_circuited :
    (fromIP "10.0.0.1").Get "user_id" = none ∧
      (RateLimiter.Limit 0 (rateLimiter, fromIP "10.0.0.1")).2.written =
        [⟨401, [("error", "User not authenticated")]⟩] ∧
      (RateLimiter.Limit 0 (rateLimiter, fromIP "10.0.0.1")).2.aborted = false ∧
      (runChain [RateLimiter.Limit 0, HandlerFunc.pure okHandler]
          (rateLimiter, fromIP "10.0.0.1")).2.written =
        [⟨401, [("error", "User not authenticated")]⟩, ⟨200, [("status", "success")]⟩] := by
  refine ⟨by decide, by decide, by decide, by decide⟩

/-- On a request whose tenant segment `uuid.Parse` refuses, a verified identity
that is not rejected by `AuthMiddleware` holds "admin": the canonical string
of its tenant cannot be that segment. -/
theorem admin_of_malformed_tenant (c : Context) (user : User)
    (hbad : ∀ u, Parse (c.Param "restaurantId") ≠ .ok u)
    (h : user.RestaurantID.String = c.Param "restaurantId" ∨ isAdmin user.Permissions = true) :
    isAdmin user.Permissions = true := by
  rcases h with h | h
  · exact absurd (h ▸ Parse_String user.RestaurantID) (hbad _)
  · exact h

/-- C16 fails on the code: on the dish route group a request whose tenant
segment is not an identifier is answered 401 by `AuthMiddleware`, without a
token as well as with the token of `alice`; the 400 of the tenant resolver,
which that request would get from `MultiTenantRouting`, is not given. -/
theorem malformed_tenant_answered_by_auth :
    Parse "not-a-uuid" = .error "invalid UUID length" ∧
      (runChain (dishesRouter "secret" parse0 repo0 0 ++ [HandlerFunc.pure okHandler])
          (limiters0, request0 "not-a-uuid" "" "10.0.0.1")).2.written =
        [⟨401, [("message", "Authorization token is required")]⟩] ∧
      (runChain (dishesRouter "secret" parse0 repo0 0 ++ [HandlerFunc.pure okHandler])
          (limiters0, request0 "not-a-uuid" "Bearer tok-alice" "10.0.0.1")).2.written =
        [⟨401, [("message", "Unauthorized access")]⟩] ∧
      (MultiTenantRouting (request0 "not-a-uuid" "" "10.0.0.1")).written =
        [⟨400, [("error", "Invalid restaurant ID")]⟩] := by
  refine ⟨by decide, by decide, by decide, by decide⟩



/-- The outcomes of `AuthMiddleware`: a 401 on the aborted context, or the
identity of a verified token published, in which case the identity's tenant
is the requested one or the identity holds "admin". -/
theorem AuthMiddleware_verified_cases (jwtSecret : String) (parse : TokenParser)
    (userRepo : UserRepository) (c : Context) :
    (∃ message, AuthMiddleware jwtSecret parse userRepo c = unauthorized c message) ∨
      ∃ token userID user, Verified jwtSecret parse userRepo c token userID user ∧
        (user.RestaurantID.String = c.Param "restaurantId" ∨ isAdmin user.Permissions = true) ∧
        AuthMiddleware jwtSecret parse userRepo c = setIdentity c user userID := by
  by_cases hheader : TrimPrefix (c.Header "Authorization") "Bearer " = ""
  · exact Or.inl ⟨"Authorization token is required", by simp [AuthMiddleware, hheader]⟩
  · cases hparse : parse (TrimPrefix (c.Header "Authorization") "Bearer ") jwtSecret with
    | error e => exact Or.inl ⟨"Invalid token", by simp [AuthMiddleware, hheader, hparse]⟩
    | ok token =>
      cases hvalid : token.Valid with
      | false =>
        exact Or.inl ⟨"Token is not valid", by simp [AuthMiddleware, hheader, hparse, hvalid]⟩
      | true =>
        cases hclaim : token.Claims "user_id" with
        | none =>
          exact Or.inl
            ⟨"Invalid token claims", by simp [AuthMiddleware, hheader, hparse, hvalid, hclaim]⟩
        | some v =>
          cases v with
          | number n =>
            exact Or.inl
              ⟨"Invalid token claims", by simp [AuthMiddleware, hheader, hparse, hvalid, hclaim]⟩
          | uuid u =>
            exact Or.inl
              ⟨"Invalid token claims", by simp [AuthMiddleware, hheader, hparse, hvalid, hclaim]⟩
          | other =>
            exact Or.inl
              ⟨"Invalid token claims", by simp [AuthMiddleware, hheader, hparse, hvalid, hclaim]⟩
          | string userID =>
            cases hfind : userRepo.FindByID userID with
            | error e =>
              exact Or.inl
                ⟨"User not found",
                  by simp [AuthMiddleware, hheader, hparse, hvalid, hclaim, hfind]⟩
            | ok user =>
              have hres := AuthMiddleware_found jwtSecret parse userRepo c token userID user
                hheader hparse hvalid hclaim hfind
              by_cases h : user.RestaurantID.String ≠ c.Param "restaurantId" ∧
                  isAdmin user.Permissions = false
              · exact Or.inl ⟨"Unauthorized access", by rw [hres, if_pos h]⟩
              · refine Or.inr ⟨token, userID, user, ⟨hheader, hparse, hvalid, hclaim, hfind⟩, ?_,
                  by rw [hres, if_neg h]⟩
                by_cases ht : user.RestaurantID.String = c.Param "restaurantId"
                · exact Or.inl ht
                · cases hadm : isAdmin user.Permissions with
                  | true => exact Or.inr rfl
                  | false => exact absurd ⟨ht, hadm⟩ h

/-- The run of the gates of a dish route group, on any request: the gates are
applied in the order `AuthMiddleware`, `PermissionMiddleware`,
`MultiTenantRouting`, `RateLimiter.Limit`. -/
theorem dish_gates_run (jwtSecret : String) (parse : TokenParser) (userRepo : UserRepository)
    (now : Time) (required : List String) (rest : List (HandlerFunc Limiters)) (s : Limiters)
    (c : Context) :
    runChain
        ([HandlerFunc.pure (AuthMiddleware jwtSecret parse userRepo),
            HandlerFunc.pure (PermissionMiddleware required),
            HandlerFunc.pure MultiTenantRouting,
            onRateLimiter (RateLimiter.Limit now)] ++ rest) (s, c) =
      dishGatesInOrder (AuthMiddleware jwtSecret parse userRepo) (PermissionMiddleware required)
        now rest s c := by
  simp only [List.cons_append, List.nil_append, runChain, HandlerFunc.pure, onRateLimiter,
    dishGatesInOrder]
  rfl

/-- The run of the gates of the auth route group, on any request. -/
theorem auth_gates_run (now : Time) (rest : List (HandlerFunc Limiters)) (s : Limiters)
    (c : Context) :
    runChain (authRouter now ++ rest) (s, c) = authGatesInOrder now rest s c := by
  simp only [authRouter, List.cons_append, List.nil_append, runChain, HandlerFunc.pure,
    onIPRateLimiter, authGatesInOrder]
  rfl

/-- The gates of a dish route group on a request whose tenant segment is
refused by `uuid.Parse`, when no verified identity holds "admin": the 401 of
`AuthMiddleware`. -/
theorem dish_gates_malformed_401 (jwtSecret : String) (parse : TokenParser)
    (userRepo : UserRepository) (now : Time) (required : List String)
    (rest : List (HandlerFunc Limiters)) (s : Limiters) (c : Context)
    (hbad : ∀ u, Parse (c.Param "restaurantId") ≠ .ok u)
    (hnone : ¬ ∃ token userID user, Verified jwtSecret parse userRepo c token userID user ∧
      isAdmin user.Permissions = true) :
    ∃ message,
      AuthMiddleware jwtSecret parse userRepo c = unauthorized c message ∧
      runChain
          ([HandlerFunc.pure (AuthMiddleware jwtSecret parse userRepo),
              HandlerFunc.pure (PermissionMiddleware required),
              HandlerFunc.pure MultiTenantRouting,
              onRateLimiter (RateLimiter.Limit now)] ++ rest) (s, c) =
        (s, { c with
                written := c.written ++ [⟨401, [("message", message)]⟩]
                aborted := true }) := by
  rcases AuthMiddleware_verified_cases jwtSecret parse userRepo c with
    ⟨m, hm⟩ | ⟨token, userID, user, hver, ht, _⟩
  · refine ⟨m, hm, ?_⟩
    rw [dish_gates_run, dishGatesInOrder, hm, if_pos (by simp [unauthorized, Context.Abort])]
    simp [unauthorized, Context.JSON, Context.Abort, StatusUnauthorized]
  · exact absurd ⟨token, userID, user, hver, admin_of_malformed_tenant c user hbad ht⟩ hnone

/-- The gates of a dish route group whose required permissions include
"admin", on a live request whose tenant segment is refused by `uuid.Parse`
and whose verified identity holds "admin": the identity is published, the
permission check lets it pass, and the tenant resolver answers 400. -/
theorem dish_gates_malformed_400 (jwtSecret : String) (parse : TokenParser)
    (userRepo : UserRepository) (now : Time) (required : List String)
    (rest : List (HandlerFunc Limiters)) (s : Limiters) (c : Context)
    (hlive : c.aborted = false) (hbad : ∀ u, Parse (c.Param "restaurantId") ≠ .ok u)
    (hreq : "admin" ∈ required) (token : Token) (userID : String) (user : User)
    (hver : Verified jwtSecret parse userRepo c token userID user)
    (hadmin : isAdmin user.Permissions = true) :
    AuthMiddleware jwtSecret parse userRepo c = setIdentity c user userID ∧
      PermissionMiddleware required (setIdentity c user userID) = setIdentity c user userID ∧
      runChain
          ([HandlerFunc.pure (AuthMiddleware jwtSecret parse userRepo),
              HandlerFunc.pure (PermissionMiddleware required),
              HandlerFunc.pure MultiTenantRouting,
              onRateLimiter (RateLimiter.Limit now)] ++ rest) (s, c) =
        (s, { setIdentity c user userID with
                written := c.written ++ [⟨400, [("error", "Invalid restaurant ID")]⟩]
                aborted := true }) := by
  obtain ⟨hheader, hparse, hvalid, hclaim, hfind⟩ := hver
  have hA : AuthMiddleware jwtSecret parse userRepo c = setIdentity c user userID := by
    rw [AuthMiddleware_found jwtSecret parse userRepo c token userID user hheader hparse hvalid
      hclaim hfind, if_neg (by simp [hadmin])]
  have hheld : (setIdentity c user userID).Get "permissions" =
      some (.permissions user.Permissions) := by
    simp [setIdentity, Context.Set, Context.Get]
  have hany : user.Permissions.any (fun perm => required.contains perm.Name) = true := by
    obtain ⟨p, hp, hname⟩ := (isAdmin_eq_true_iff user.Permissions).1 hadmin
    rw [List.any_eq_true]
    exact ⟨p, hp, by simpa [hname] using hreq⟩
  have hP : PermissionMiddleware required (setIdentity c user userID) =
      setIdentity c user userID := by
    rw [PermissionMiddleware_held required _ user.Permissions hheld, hany, if_pos rfl]
  have hl : (setIdentity c user userID).aborted = false := hlive
  have hbad2 : ∀ u, Parse ((setIdentity c user userID).Param "restaurantId") ≠ .ok u := hbad
  have hM : MultiTenantRouting (setIdentity c user userID) =
      { setIdentity c user userID with
          written := c.written ++ [⟨400, [("error", "Invalid restaurant ID")]⟩]
          aborted := true } :=
    (tenant_resolver_outcome (setIdentity c user userID)).1 hbad2
  refine ⟨hA, hP, ?_⟩
  rw [dish_gates_run, dishGatesInOrder, hA, hP, if_neg (by simp [hl]), if_neg (by simp [hl]), hM,
    if_pos rfl]

/-- C16, amended. The dish route groups apply their gates in the order
`AuthMiddleware`, `PermissionMiddleware`, `MultiTenantRouting`,
`RateLimiter.Limit`, and the auth route group in the order
`MultiTenantRouting`, `IPRateLimiter.Limit`: on every request the run of a
group is the run of its gates in that order, the first gate that aborts
answering. Consequently a live request `c` whose tenant segment is not an
identifier is answered, on both dish groups, 401 by `AuthMiddleware` when no
verified identity of it holds "admin" (the context is that of the request,
nothing published), and 400 by the tenant resolver when its verified identity
holds "admin" (the identity published; `PermissionMiddleware` has let it
pass, "admin" being required on both groups); on the auth group it is
answered 400 by the tenant resolver. In each case the limiters are as they
were and no handler after the gates has run. -/
theorem gates_order_malformed_tenant (jwtSecret : String) (parse : TokenParser)
    (userRepo : UserRepository) (now : Time) (rest : List (HandlerFunc Limiters))
    (s : Limiters) (c : Context) (hlive : c.aborted = false)
    (hbad : ∀ u, Parse (c.Param "restaurantId") ≠ .ok u) :
    (∀ c' : Context,
        runChain (dishesRouter jwtSecret parse userRepo now ++ rest) (s, c') =
            dishGatesInOrder (AuthMiddleware jwtSecret parse userRepo)
              (PermissionMiddleware ["customer", "admin", "restaurant"]) now rest s c' ∧
          runChain (adminDishesRouter jwtSecret parse userRepo now ++ rest) (s, c') =
            dishGatesInOrder (AuthMiddleware jwtSecret parse userRepo)
              (PermissionMiddleware ["restaurant", "admin"]) now rest s c' ∧
          runChain (authRouter now ++ rest) (s, c') = authGatesInOrder now rest s c') ∧
      ((¬ ∃ token userID user, Verified jwtSecret parse userRepo c token userID user ∧
            isAdmin user.Permissions = true) →
        ∃ message,
          AuthMiddleware jwtSecret parse userRepo c = unauthorized c message ∧
            runChain (dishesRouter jwtSecret parse userRepo now ++ rest) (s, c) =
              (s, { c with
                      written := c.written ++ [⟨401, [("message", message)]⟩]
                      aborted := true }) ∧
            runChain (adminDishesRouter jwtSecret parse userRepo now ++ rest) (s, c) =
              (s, { c with
                      written := c.written ++ [⟨401, [("message", message)]⟩]
                      aborted := true })) ∧
      (∀ token userID user, Verified jwtSecret parse userRepo c token userID user →
        isAdmin user.Permissions = true →
        AuthMiddleware jwtSecret parse userRepo c = setIdentity c user userID ∧
          PermissionMiddleware ["customer", "admin", "restaurant"] (setIdentity c user userID) =
            setIdentity c user userID ∧
          PermissionMiddleware ["restaurant", "admin"] (setIdentity c user userID) =
            setIdentity c user userID ∧
          runChain (dishesRouter jwtSecret parse userRepo now ++ rest) (s, c) =
            (s, { setIdentity c user userID with
                    written := c.written ++ [⟨400, [("error", "Invalid restaurant ID")]⟩]
                    aborted := true }) ∧
          runChain (adminDishesRouter jwtSecret parse userRepo now ++ rest) (s, c) =
            (s, { setIdentity c user userID with
                    written := c.written ++ [⟨400, [("error", "Invalid restaurant ID")]⟩]
                    aborted := true })) ∧
      runChain (authRouter now ++ rest) (s, c) =
        (s, { c with
                written := c.written ++ [⟨400, [("error", "Invalid restaurant ID")]⟩]
                aborted := true }) := by
  refine ⟨fun c' => ⟨dish_gates_run jwtSecret parse userRepo now _ rest s c',
    dish_gates_run jwtSecret parse userRepo now _ rest s c', auth_gates_run now rest s c'⟩,
    fun hnone => ?_, fun token userID user hver hadmin => ?_, ?_⟩
  · obtain ⟨m, hm, h1⟩ := dish_gates_malformed_401 jwtSecret parse userRepo now
      ["customer", "admin", "restaurant"] rest s c hbad hnone
    obtain ⟨m2, hm2, h2⟩ := dish_gates_malformed_401 jwtSecret parse userRepo now
      ["restaurant", "admin"] rest s c hbad hnone
    have hmm : m2 = m := by
      have h := hm2.symm.trans hm
      have hw := congrArg Context.written h
      simpa [unauthorized, Context.JSON, Context.Abort] using hw
    subst hmm
    exact ⟨m2, hm, h1, h2⟩
  · obtain ⟨hA, hP1, h1⟩ := dish_gates_malformed_400 jwtSecret parse userRepo now
      ["customer", "admin", "restaurant"] rest s c hlive hbad (by simp) token userID user hver
      hadmin
    obtain ⟨_, hP2, h2⟩ := dish_gates_malformed_400 jwtSecret parse userRepo now
      ["restaurant", "admin"] rest s c hlive hbad (by simp) token userID user hver hadmin
    exact ⟨hA, hP1, hP2, h1, h2⟩
  · have hM := (tenant_resolver_outcome c).1 hbad
    rw [auth_gates_run, authGatesInOrder, hM, if_pos rfl]

/-- C16 amended, at a request of `root` (who holds "admin") for a segment that
is not an identifier: the request passes `AuthMiddleware` and
`PermissionMiddleware` with the identity of `root` published, and is answered
400 by the tenant resolver; the limiters are as they were and the handler
behind the gates has not run. -/
theorem gates_order_malformed_tenant_witness :
    runChain (dishesRouter "secret" parse0 repo0 0 ++ [HandlerFunc.pure okHandler])
        (limiters0, request0 "not-a-uuid" "Bearer tok-root" "10.0.0.2") =
      (limiters0,
        { setIdentity (request0 "not-a-uuid" "Bearer tok-root" "10.0.0.2") root "root-id" with
            written := (request0 "not-a-uuid" "Bearer tok-root" "10.0.0.2").written ++
              [⟨400, [("error", "Invalid restaurant ID")]⟩]
            aborted := true }) :=
  ((gates_order_malformed_tenant "secret" parse0 repo0 0 [HandlerFunc.pure okHandler] limiters0
      (request0 "not-a-uuid" "Bearer tok-root" "10.0.0.2") rfl
      (fun u h => absurd (h.symm.trans (by decide :
        Parse ((request0 "not-a-uuid" "Bearer tok-root" "10.0.0.2").Param "restaurantId") =
          .error "invalid UUID length")) (by simp))).2.2.1
    ⟨true, fun k => if k = "user_id" then some (.string "root-id") else none⟩ "root-id" root
    ⟨by decide, rfl, rfl, rfl, rfl⟩ (by decide)).2.2.2.1

/-! ## The token service -/

theorem Unix_add_day (now : Time) : Time.Unix (Time.Add now (24 * Hour)) = Time.Unix now + 86400 := by
  unfold Time.Unix Time.Add Hour Second
  unfold Time Duration at *
  omega

/-- The claims of an issued token, as the parser sees them, are valid exactly
up to and including the second of expiry (unless that second is 0, in which
case they never expire). -/
theorem issued_claims_valid (t0 : Time) (userID : UUID) (now : Int) :
    MapClaims.Valid (jsonClaims (generateClaims t0 userID)) now =
      if Time.Unix (Time.Add t0 (24 * Hour)) = 0 ∨ now ≤ Time.Unix (Time.Add t0 (24 * Hour)) then
        none
      else some "Token is expired" := by
  have hexp : jsonClaims (generateClaims t0 userID) "exp" =
      some (.number (Time.Unix (Time.Add t0 (24 * Hour)))) := by
    simp [jsonClaims, generateClaims, jsonClaim]
  have hiat : jsonClaims (generateClaims t0 userID) "iat" = none := by
    simp [jsonClaims, generateClaims]
  have hnbf : jsonClaims (generateClaims t0 userID) "nbf" = none := by
    simp [jsonClaims, generateClaims]
  simp only [MapClaims.Valid, VerifyExpiresAt, VerifyIssuedAt, VerifyNotBefore, hexp, hiat, hnbf,
    verifyExp]
  by_cases h0 : Time.Unix (Time.Add t0 (24 * Hour)) = 0
  · simp [h0]
  · by_cases h1 : now ≤ Time.Unix (Time.Add t0 (24 * Hour)) <;> simp [h0, h1]

/-- Verifying an issued token with the key it was signed with: the outcome
is decided by the claims alone. -/
theorem parse_issued (jwt : Jwt) (env : Environ) (t0 now : Time) (userID : UUID)
    (hread : jwt.ReadsBack "HS256" (generateClaims t0 userID) (GetJWTSecret env)) :
    ∃ tokenString, generateToken jwt env t0 userID = .ok tokenString ∧
      ParseWithClaims jwt now tokenString (jwtSecret env) =
        match MapClaims.Valid (jsonClaims (generateClaims t0 userID)) (Time.Unix now) with
        | some e => .error e
        | none => .ok ⟨true, jsonClaims (generateClaims t0 userID)⟩ := by
  refine ⟨_, rfl, ?_⟩
  unfold Jwt.ReadsBack at hread
  simp [ParseWithClaims, hread, hmacMethods, jwtSecret]

/-- C11 fails on the code: a token issued to `alice` at the clock reading 0
is still verified when the clock reads exactly 24 hours, a time that is not
before issuance plus 24 hours; a second later it is refused as expired. -/
theorem token_valid_at_expiry :
    ¬ ((24 * Hour : Time) < Time.Add 0 (24 * Hour)) ∧
      (∃ tokenString, generateToken jwt0 env0 0 alice.ID = .ok tokenString ∧
        ∃ token, ParseWithClaims jwt0 (24 * Hour) tokenString (jwtSecret env0) = .ok token ∧
          token.Valid = true ∧ token.Claims "user_id" = some (.string alice.ID.String)) ∧
      ∃ tokenString, generateToken jwt0 env0 0 alice.ID = .ok tokenString ∧
        ParseWithClaims jwt0 (24 * Hour + Second) tokenString (jwtSecret env0) =
          .error "Token is expired" := by
  refine ⟨by decide, ⟨_, rfl, _, rfl, rfl, by decide⟩, ⟨_, rfl, rfl⟩⟩

/-- C11, amended. A token issued by `generateToken` to a subject at the time
`t0`, verified as `AuthMiddleware` does with the same signing key, is
accepted and yields the canonical string of the subject id as `user_id` at
every time `now` whose Unix second is at most that of `t0 + 24h`, hence at
every `now < t0 + 24h` and also through the second of expiry; it is refused
with "Token is expired" at every `now` whose Unix second is greater, hence at
every `now ≥ t0 + 24h + 1s`, unless the second of expiry is 0. The library is
assumed to read the issued token back. -/
theorem token_round_trip (jwt : Jwt) (env : Environ) (t0 now : Time) (userID : UUID)
    (hread : jwt.ReadsBack "HS256" (generateClaims t0 userID) (GetJWTSecret env)) :
    ∃ tokenString, generateToken jwt env t0 userID = .ok tokenString ∧
      (Time.Unix now ≤ Time.Unix (Time.Add t0 (24 * Hour)) →
        ∃ token, ParseWithClaims jwt now tokenString (jwtSecret env) = .ok token ∧
          token.Valid = true ∧ token.Claims "user_id" = some (.string userID.String)) ∧
      (now < Time.Add t0 (24 * Hour) →
        ∃ token, ParseWithClaims jwt now tokenString (jwtSecret env) = .ok token ∧
          token.Valid = true ∧ token.Claims "user_id" = some (.string userID.String)) ∧
      (Time.Unix (Time.Add t0 (24 * Hour)) ≠ 0 →
        Time.Unix (Time.Add t0 (24 * Hour)) < Time.Unix now →
        ParseWithClaims jwt now tokenString (jwtSecret env) = .error "Token is expired") ∧
      (Time.Unix (Time.Add t0 (24 * Hour)) ≠ 0 →
        Time.Add (Time.Add t0 (24 * Hour)) Second ≤ now →
        ParseWithClaims jwt now tokenString (jwtSecret env) = .error "Token is expired") := by
  obtain ⟨tokenString, hgen, hparse⟩ := parse_issued jwt env t0 now userID hread
  rw [issued_claims_valid] at hparse
  have huser : jsonClaims (generateClaims t0 userID) "user_id" = some (.string userID.String) := by
    simp [jsonClaims, generateClaims, jsonClaim]
  have hok : Time.Unix now ≤ Time.Unix (Time.Add t0 (24 * Hour)) →
      ∃ token, ParseWithClaims jwt now tokenString (jwtSecret env) = .ok token ∧
        token.Valid = true ∧ token.Claims "user_id" = some (.string userID.String) := by
    intro h
    rw [if_pos (Or.inr h)] at hparse
    exact ⟨_, hparse, rfl, huser⟩
  have hexpired : Time.Unix (Time.Add t0 (24 * Hour)) ≠ 0 →
      Time.Unix (Time.Add t0 (24 * Hour)) < Time.Unix now →
      ParseWithClaims jwt now tokenString (jwtSecret env) = .error "Token is expired" := by
    intro h0 h
    rw [if_neg (by
      intro hc
      rcases hc with hc | hc
      · exact h0 hc
      · exact absurd h (not_lt.2 hc))] at hparse
    exact hparse
  refine ⟨tokenString, hgen, hok, fun h => hok ?_, hexpired, fun h0 h => hexpired h0 ?_⟩
  · unfold Time.Unix Time.Add Hour Second at *
    unfold Time Duration at *
    omega
  · unfold Time.Unix Time.Add Hour Second at *
    unfold Time Duration at *
    omega

/-- C11 amended, for the token issued to `alice` at the clock reading 0 and
verified three hours later. -/
theorem token_round_trip_witness :
    ∃ tokenString, generateToken jwt0 env0 0 alice.ID = .ok tokenString ∧
      ∃ token, ParseWithClaims jwt0 (3 * Hour) tokenString (jwtSecret env0) = .ok token ∧
        token.Valid = true ∧ token.Claims "user_id" = some (.string alice.ID.String) :=
  have ⟨tokenString, hgen, _, h, _⟩ := token_round_trip jwt0 env0 0 (3 * Hour) alice.ID rfl
  ⟨tokenString, hgen, h (by decide)⟩

/-- C12. The claims built by `generateToken` for a subject when the clock
reads `now` are exactly `user_id`, the subject id, and `exp`, the Unix second
of `now + 24h`, which is the Unix second of `now` plus 86400; as JSON carries
them the subject id is its canonical string; and the token is the signing
string of these claims under the method HS256 followed by its HMAC under the
signing key. -/
theorem generateToken_claims (jwt : Jwt) (env : Environ) (now : Time) (userID : UUID) :
    generateClaims now userID "user_id" = some (.uuid userID) ∧
      generateClaims now userID "exp" = some (.number (Time.Unix (Time.Add now (24 * Hour)))) ∧
      Time.Unix (Time.Add now (24 * Hour)) = Time.Unix now + 86400 ∧
      (∀ k, k ≠ "user_id" → k ≠ "exp" → generateClaims now userID k = none) ∧
      jsonClaims (generateClaims now userID) "user_id" = some (.string userID.String) ∧
      generateToken jwt env now userID =
        .ok (jwt.SigningString "HS256" (jsonClaims (generateClaims now userID)) ++ "." ++
          jwt.HMAC "HS256" (jwt.SigningString "HS256" (jsonClaims (generateClaims now userID)))
            (GetJWTSecret env)) := by
  refine ⟨by simp [generateClaims], by simp [generateClaims], Unix_add_day now, ?_, ?_, rfl⟩
  · intro k h1 h2
    simp [generateClaims, h1, h2]
  · simp [jsonClaims, generateClaims, jsonClaim]

/-- C12, for `alice` at the clock reading 0, in the coding of the examples. -/
theorem generateToken_claims_witness :
    generateClaims 0 alice.ID "exp" = some (.number 86400) ∧
      generateToken jwt0 env0 0 alice.ID =
        .ok ("HS256:0a0a0a0a-0a0a-0a0a-0a0a-0a0a0a0a0a0a:86400." ++
          "HS256(secret)HS256:0a0a0a0a-0a0a-0a0a-0a0a-0a0a0a0a0a0a:86400") :=
  ⟨(generateToken_claims jwt0 env0 0 alice.ID).2.1.trans (by decide),
    (generateToken_claims jwt0 env0 0 alice.ID).2.2.2.2.2.trans (by decide)⟩

/-- C13 fails on the code: with `JWT_SECRET` not set, the signing key is
obtained, as the empty string; a token is signed for `alice` with it, and
`AuthMiddleware`, holding the same empty key, verifies that token and lets
the request through. -/
theorem empty_key_in_use :
    envNoSecret "JWT_SECRET" = "" ∧
      GetJWTSecret envNoSecret = "" ∧
      jwtSecret envNoSecret = "" ∧
      generateToken jwt0 envNoSecret 0 alice.ID =
        .ok ("HS256:0a0a0a0a-0a0a-0a0a-0a0a-0a0a0a0a0a0a:86400." ++
          "HS256()HS256:0a0a0a0a-0a0a-0a0a-0a0a-0a0a0a0a0a0a:86400") ∧
      (AuthMiddleware (jwtSecret envNoSecret) (ParseWithClaims jwt0 (3 * Hour)) repo1
          (request0 tenant1.String
            ("Bearer HS256:0a0a0a0a-0a0a-0a0a-0a0a-0a0a0a0a0a0a:86400." ++
              "HS256()HS256:0a0a0a0a-0a0a-0a0a-0a0a-0a0a0a0a0a0a:86400") "10.0.0.1")).aborted =
        false ∧
      (AuthMiddleware (jwtSecret envNoSecret) (ParseWithClaims jwt0 (3 * Hour)) repo1
          (request0 tenant1.String
            ("Bearer HS256:0a0a0a0a-0a0a-0a0a-0a0a-0a0a0a0a0a0a:86400." ++
              "HS256()HS256:0a0a0a0a-0a0a-0a0a-0a0a-0a0a0a0a0a0a:86400") "10.0.0.1")).Get "user" =
        some (.user alice) := by
  refine ⟨rfl, by decide, by decide, by decide, by decide, by decide⟩

/-- C13, amended. The absence of the signing key is not fatal:
`GetJWTSecret` returns the value of `JWT_SECRET` whatever it is, the empty
string when the variable is unset or empty; the process goes on with that
key: `generateToken` signs with the empty key and `AuthMiddleware` verifies
with the empty key, and a token so signed is accepted until it expires. -/
theorem signing_key_may_be_empty (env : Environ) (hunset : env "JWT_SECRET" = "") :
    GetJWTSecret env = "" ∧
      jwtSecret env = "" ∧
      (∀ (jwt : Jwt) (now : Time) (userID : UUID),
        generateToken jwt env now userID =
          SignedString jwt "HS256" (generateClaims now userID) "") ∧
      (∀ (parse : TokenParser) (userRepo : UserRepository) (c : Context),
        AuthMiddleware (jwtSecret env) parse userRepo c = AuthMiddleware "" parse userRepo c) ∧
      ∀ (jwt : Jwt) (t0 now : Time) (userID : UUID),
        jwt.ReadsBack "HS256" (generateClaims t0 userID) "" →
        now < Time.Add t0 (24 * Hour) →
        ∃ tokenString, generateToken jwt env t0 userID = .ok tokenString ∧
          ∃ token, ParseWithClaims jwt now tokenString "" = .ok token ∧
            token.Valid = true ∧ token.Claims "user_id" = some (.string userID.String) := by
  have hkey : GetJWTSecret env = "" := by simp [GetJWTSecret, hunset]
  have hsecret : jwtSecret env = "" := hkey
  refine ⟨hkey, hsecret, ?_, ?_, ?_⟩
  · intro jwt now userID
    simp [generateToken, hkey]
  · intro parse userRepo c
    rw [hsecret]
  · intro jwt t0 now userID hread hnow
    obtain ⟨tokenString, hgen, hparse⟩ := parse_issued jwt env t0 now userID (by rw [hkey]; exact hread)
    rw [issued_claims_valid, hsecret] at hparse
    have hle : Time.Unix now ≤ Time.Unix (Time.Add t0 (24 * Hour)) := by
      unfold Time.Unix Time.Add Hour Second at *
      unfold Time Duration at *
      omega
    rw [if_pos (Or.inr hle)] at hparse
    exact ⟨tokenString, hgen, ⟨true, jsonClaims (generateClaims t0 userID)⟩, hparse, rfl,
      by simp [jsonClaims, generateClaims, jsonClaim]⟩

/-- C13 amended, in the environment without `JWT_SECRET`. -/
theorem signing_key_may_be_empty_witness :
    GetJWTSecret envNoSecret = "" ∧ jwtSecret envNoSecret = "" :=
  ⟨(signing_key_may_be_empty envNoSecret rfl).1, (signing_key_may_be_empty envNoSecret rfl).2.1⟩

/-- The signing key is the value of `JWT_SECRET` in every environment. -/
theorem GetJWTSecret_eq (env : Environ) : GetJWTSecret env = env "JWT_SECRET" := by
  by_cases h : env "JWT_SECRET" = ""
  · simp [GetJWTSecret, h]
  · simp [GetJWTSecret, h]

/-! ## Registration and login -/

/-- When the lookup by email of the credential store finds an identity for
the pair (email, tenant) of the request, `Register` returns the error "user
with that email already exists" and hands no user to the store's `Create`,
whatever the other fields of the request, the hashing and the rest of the
store are; the controller reports that error (as `{error: ...}` with status
500) and nothing has been created. -/
theorem duplicate_registration_rejected (userRepo : UserRepository) (bcrypt : Bcrypt)
    (req : RegisterRequest) (restaurantId : UUID) (existing : User)
    (hexists : userRepo.FindByEmail req.Email restaurantId = .ok existing) :
    AuthServiceImpl.Register userRepo bcrypt req restaurantId =
        { err := some "user with that email already exists", created := [] } ∧
      ∀ ctx : Context, GetRestaurant ctx = .ok restaurantId →
        AuthController.Register userRepo bcrypt (.valid req) ctx =
          ({ ctx with
              written := ctx.written ++ [⟨500, [("error", "user with that email already exists")]⟩] },
            []) := by
  have hreg : AuthServiceImpl.Register userRepo bcrypt req restaurantId =
      { err := some "user with that email already exists", created := [] } := by
    simp [AuthServiceImpl.Register, hexists]
  refine ⟨hreg, fun ctx hctx => ?_⟩
  simp [AuthController.Register, ValidateRequest, hctx, hreg, Context.JSON,
    StatusInternalServerError]

/-- A second registration of the email of `alice` in `tenant1`, with another
name, password and permission, while the lookup by email finds her. -/
theorem duplicate_registration_rejected_witness :
    AuthController.Register repo2 bcrypt0
        (.valid ⟨"mallory", "alice@pony.example", "pw", ["admin"]⟩) authRequest =
      ({ authRequest with
          written := authRequest.written ++
            [⟨500, [("error", "user with that email already exists")]⟩] },
        []) :=
  (duplicate_registration_rejected repo2 bcrypt0
    ⟨"mallory", "alice@pony.example", "pw", ["admin"]⟩ tenant1 alice rfl).2 authRequest
    (by decide)

/-- C18. A second registration of a pair (email, tenant) is not rejected when
the lookup by email fails: the store `repoDown` holds `alice`, with the email
alice@pony.example in `tenant1` (it finds her by her identifier), but its
lookup by email fails on a refused connection. `Register` with that email and
tenant then returns no error and hands a second user with that email and
tenant to `Create`, and the controller answers 200 "Registration
successful". -/
theorem duplicate_created_when_lookup_fails :
    repoDown.FindByID alice.ID.String = .ok alice ∧
      alice.Email = "alice@pony.example" ∧ alice.RestaurantID = tenant1 ∧
      AuthServiceImpl.Register repoDown bcrypt0
          ⟨"alice", "alice@pony.example", "a", ["customer"]⟩ tenant1 =
        { err := none
          created :=
            [{ ID := UUID.Nil
               Name := "alice"
               Email := "alice@pony.example"
               Password := "hash-a"
               Permissions := [⟨1, "customer"⟩]
               RestaurantID := tenant1 }] } ∧
      (AuthController.Register repoDown bcrypt0
          (.valid ⟨"alice", "alice@pony.example", "a", ["customer"]⟩) authRequest).1.written =
        [⟨200, [("message", "Registration successful")]⟩] ∧
      (AuthController.Register repoDown bcrypt0
          (.valid ⟨"alice", "alice@pony.example", "a", ["customer"]⟩) authRequest).2.length = 1 := by
  decide

/-- The three outcomes of `AuthServiceImpl.Login`. -/
theorem Login_cases (userRepo : UserRepository) (bcrypt : Bcrypt) (jwt : Jwt) (env : Environ)
    (now : Time) (req : LoginRequest) (restaurantId : UUID) :
    (∃ user token, userRepo.FindByEmail req.Email restaurantId = .ok user ∧
        bcrypt.CompareHashAndPassword user.Password req.Password = true ∧
        generateToken jwt env now user.ID = .ok token ∧
        AuthServiceImpl.Login userRepo bcrypt jwt env now req restaurantId = .ok token) ∨
      ((∀ user, userRepo.FindByEmail req.Email restaurantId = .ok user →
          bcrypt.CompareHashAndPassword user.Password req.Password = false) ∧
        ∃ err, AuthServiceImpl.Login userRepo bcrypt jwt env now req restaurantId = .error err) := by
  cases hfind : userRepo.FindByEmail req.Email restaurantId with
  | error e =>
    right
    exact ⟨fun user h => by simp at h, e, by simp [AuthServiceImpl.Login, hfind]⟩
  | ok user =>
    cases hcmp : bcrypt.CompareHashAndPassword user.Password req.Password with
    | false =>
      right
      refine ⟨fun u h => ?_, "invalid email or password", by
        simp [AuthServiceImpl.Login, hfind, hcmp]⟩
      simp only [Except.ok.injEq] at h
      rw [← h, hcmp]
    | true =>
      left
      refine ⟨user, _, rfl, hcmp, rfl, ?_⟩
      simp [AuthServiceImpl.Login, hfind, hcmp, generateToken, SignedString]

/-- C19. On a validated login request for a resolved tenant: when the
credential store finds an identity for the email in that tenant and the
password matches its stored hash, the answer is 200 with the token that
`generateToken` issues for that identity's id; in every other case (no
identity found for that email in that tenant, or a password that does not
match) the answer is 401 "Login failed" and no token is given. So a token is
answered exactly when such an identity exists and the password matches. -/
theorem login_token_iff (userRepo : UserRepository) (bcrypt : Bcrypt) (jwt : Jwt)
    (env : Environ) (now : Time) (req : LoginRequest) (restaurantId : UUID) (ctx : Context)
    (hctx : GetRestaurant ctx = .ok restaurantId) :
    (∀ user, userRepo.FindByEmail req.Email restaurantId = .ok user →
        bcrypt.CompareHashAndPassword user.Password req.Password = true →
        ∃ token, generateToken jwt env now user.ID = .ok token ∧
          AuthController.Login userRepo bcrypt jwt env now (.valid req) ctx =
            { ctx with written := ctx.written ++ [⟨200, [("token", token)]⟩] }) ∧
      ((∀ user, userRepo.FindByEmail req.Email restaurantId = .ok user →
          bcrypt.CompareHashAndPassword user.Password req.Password = false) →
        AuthController.Login userRepo bcrypt jwt env now (.valid req) ctx =
          { ctx with written := ctx.written ++ [⟨401, [("error", "Login failed")]⟩] }) ∧
      ((∃ token, (AuthController.Login userRepo bcrypt jwt env now (.valid req) ctx).written =
          ctx.written ++ [⟨200, [("token", token)]⟩]) ↔
        ∃ user, userRepo.FindByEmail req.Email restaurantId = .ok user ∧
          bcrypt.CompareHashAndPassword user.Password req.Password = true) := by
  have hctl : AuthController.Login userRepo bcrypt jwt env now (.valid req) ctx =
      match AuthServiceImpl.Login userRepo bcrypt jwt env now req restaurantId with
      | .error _ => ctx.JSON StatusUnauthorized [("error", "Login failed")]
      | .ok token => ctx.JSON StatusOK (AuthResponse token) := by
    simp [AuthController.Login, ValidateRequest, hctx]
  rcases Login_cases userRepo bcrypt jwt env now req restaurantId with
    ⟨user, token, hfind, hcmp, hgen, hlogin⟩ | ⟨hno, err, hlogin⟩
  · rw [hlogin] at hctl
    refine ⟨fun u hu _ => ?_, fun h => ?_, ?_⟩
    · rw [hfind] at hu
      simp only [Except.ok.injEq] at hu
      subst hu
      exact ⟨token, hgen, by rw [hctl]; rfl⟩
    · rw [h user hfind] at hcmp
      exact absurd hcmp (by simp)
    · constructor
      · intro _
        exact ⟨user, hfind, hcmp⟩
      · intro _
        exact ⟨token, by rw [hctl]; rfl⟩
  · rw [hlogin] at hctl
    refine ⟨fun u hu hc => ?_, fun _ => by rw [hctl]; rfl, ?_⟩
    · rw [hno u hu] at hc
      exact absurd hc (by simp)
    · constructor
      · rintro ⟨token, h⟩
        rw [hctl] at h
        simp [Context.JSON, StatusUnauthorized] at h
      · rintro ⟨u, hu, hc⟩
        rw [hno u hu] at hc
        exact absurd hc (by simp)

/-- C19, for `alice` in `tenant1`: her password is answered with a token for
her id, a wrong password and an unknown email with 401. -/
theorem login_token_iff_witness :
    AuthController.Login repo2 bcrypt0 jwt0 env0 0 (.valid ⟨"alice@pony.example", "a"⟩)
        authRequest =
        { authRequest with
            written := authRequest.written ++
              [⟨200, [("token", "HS256:0a0a0a0a-0a0a-0a0a-0a0a-0a0a0a0a0a0a:86400." ++
                "HS256(secret)HS256:0a0a0a0a-0a0a-0a0a-0a0a-0a0a0a0a0a0a:86400")]⟩] } ∧
      (AuthController.Login repo2 bcrypt0 jwt0 env0 0 (.valid ⟨"alice@pony.example", "b"⟩)
        authRequest).written = [⟨401, [("error", "Login failed")]⟩] ∧
      (AuthController.Login repo2 bcrypt0 jwt0 env0 0 (.valid ⟨"bob@pony.example", "a"⟩)
        authRequest).written = [⟨401, [("error", "Login failed")]⟩] := by
  have h := login_token_iff repo2 bcrypt0 jwt0 env0 0 ⟨"alice@pony.example", "a"⟩ tenant1
    authRequest (by decide)
  obtain ⟨token, hgen, hres⟩ := h.1 alice rfl (by decide)
  have hg : generateToken jwt0 env0 0 alice.ID =
      .ok ("HS256:0a0a0a0a-0a0a-0a0a-0a0a-0a0a0a0a0a0a:86400." ++
        "HS256(secret)HS256:0a0a0a0a-0a0a-0a0a-0a0a-0a0a0a0a0a0a:86400") := by decide
  rw [hg] at hgen
  simp only [Except.ok.injEq] at hgen
  rw [← hgen] at hres
  exact ⟨hres, by decide, by decide⟩

/-! ## The dish cache -/

/-- C20 fails on the code: the cache holds the first page of ten dishes of
`tenant1`, read while the tenant had no dish. Each of the four writes
succeeds for `tenant1` and leaves that entry in the cache, since it deletes
the one key spelled with `*` for page and limit; `FindAll` for that page
then answers from the cache with no dish, although the repository holds one.
The entry of the dish itself is deleted by `Delete`, `Update` and
`RateDish`. -/
theorem list_cache_survives_writes :
    listKey 1 10 tenant1.String ≠ listWildcardKey tenant1.String ∧
      redis0.Get (listKey 1 10 tenant1.String) = .ok "[]" ∧
      dishes0.FindAll 1 10 tenant1.String = .ok ([stew], 1) ∧
      (DishesServiceImpl.Create dishes0 ⟨⟨"stew", "rabbit stew", stew.Price, stew.Image⟩, root.ID⟩
          root.ID tenant1 redis0).1 = .ok (toDishResponse stew) ∧
      (DishesServiceImpl.Create dishes0 ⟨⟨"stew", "rabbit stew", stew.Price, stew.Image⟩, root.ID⟩
          root.ID tenant1 redis0).2.Get (listKey 1 10 tenant1.String) = .ok "[]" ∧
      (DishesServiceImpl.FindAll dishes0 json0 1 10 tenant1.String
          (DishesServiceImpl.Create dishes0
            ⟨⟨"stew", "rabbit stew", stew.Price, stew.Image⟩, root.ID⟩
            root.ID tenant1 redis0).2).1 =
        .ok { Dishes := [], CurrentPage := 0, TotalPages := 0, TotalItems := 0 } ∧
      (DishesServiceImpl.Delete dishes0 stew.ID tenant1.String redis0).1 = none ∧
      (DishesServiceImpl.Delete dishes0 stew.ID tenant1.String redis0).2.Get
          (listKey 1 10 tenant1.String) = .ok "[]" ∧
      (DishesServiceImpl.Delete dishes0 stew.ID tenant1.String redis0).2.Get
          (dishKey stew.ID tenant1.String) = .error "redis: nil" ∧
      (DishesServiceImpl.Update dishes0 ⟨⟨"stew", "hare stew", stew.Price, stew.Image⟩, stew.ID⟩
          root.ID tenant1.String redis0).2.Get (listKey 1 10 tenant1.String) = .ok "[]" ∧
      (DishesServiceImpl.Update dishes0 ⟨⟨"stew", "hare stew", stew.Price, stew.Image⟩, stew.ID⟩
          root.ID tenant1.String redis0).2.Get (dishKey stew.ID tenant1.String) =
        .error "redis: nil" ∧
      (DishesServiceImpl.RateDish dishes0 ⟨5⟩ alice.ID stew.ID tenant1.String redis0).2.Get
          (listKey 1 10 tenant1.String) = .ok "[]" ∧
      (DishesServiceImpl.RateDish dishes0 ⟨5⟩ alice.ID stew.ID tenant1.String redis0).2.Get
          (dishKey stew.ID tenant1.String) = .error "redis: nil" := by
  refine ⟨by decide, by decide, by decide, by decide, by decide, by decide, by decide,
    by decide, by decide, by decide, by decide, by decide, by decide⟩

/-! ## Independence of the rate-limiter keys -/

/-- C27. The keys of the rate limiters are independent, for both limiters, at
every state, request and clock reading: a check leaves the sequence stored
for every key other than the one it checks unchanged, and two states that
agree on the checked key (and have the same window and limit) give the same
answer to the request and store the same new sequence for that key, whatever
they hold for the other keys. -/
theorem limiter_keys_independent (T : Time) (c : Context) :
    (∀ (rl : IPRateLimiter) (k' : String), k' ≠ c.ClientIP →
      (IPRateLimiter.Limit T (rl, c)).1.ipRequestTimes k' = rl.ipRequestTimes k') ∧
    (∀ rl1 rl2 : IPRateLimiter,
      rl1.ipRequestTimes c.ClientIP = rl2.ipRequestTimes c.ClientIP →
      rl1.requestWindow = rl2.requestWindow →
      rl1.maxAllowedRequests = rl2.maxAllowedRequests →
      (IPRateLimiter.Limit T (rl1, c)).2 = (IPRateLimiter.Limit T (rl2, c)).2 ∧
        (IPRateLimiter.Limit T (rl1, c)).1.ipRequestTimes c.ClientIP =
          (IPRateLimiter.Limit T (rl2, c)).1.ipRequestTimes c.ClientIP) ∧
    (∀ (rl : RateLimiter) (k' : String), c.Get "user_id" ≠ some (.string k') →
      (RateLimiter.Limit T (rl, c)).1.userRequestTimes k' = rl.userRequestTimes k') ∧
    (∀ rl1 rl2 : RateLimiter,
      (∀ k, c.Get "user_id" = some (.string k) →
        rl1.userRequestTimes k = rl2.userRequestTimes k) →
      rl1.requestWindow = rl2.requestWindow →
      rl1.maxAllowedRequests = rl2.maxAllowedRequests →
      (RateLimiter.Limit T (rl1, c)).2 = (RateLimiter.Limit T (rl2, c)).2 ∧
        ∀ k, c.Get "user_id" = some (.string k) →
          (RateLimiter.Limit T (rl1, c)).1.userRequestTimes k =
            (RateLimiter.Limit T (rl2, c)).1.userRequestTimes k) := by
  refine ⟨?_, ?_, ?_, ?_⟩
  · intro rl k' hk
    rw [ipLimit_eq]
    split_ifs with hfull
    · rfl
    · simp [record, hk]
  · intro rl1 rl2 hseq hwin hmax
    rw [ipLimit_eq, ipLimit_eq, hseq, hwin, hmax]
    split_ifs with hfull
    · exact ⟨rfl, hseq ▸ rfl⟩
    · exact ⟨rfl, by simp [record]⟩
  · intro rl k' hk
    by_cases hkey : ∃ k2, c.Get "user_id" = some (.string k2)
    · obtain ⟨userID, hkey⟩ := hkey
      have hne : k' ≠ userID := by
        intro h
        rw [hkey, h] at hk
        exact hk rfl
      rw [userLimit_eq T rl c userID hkey]
      split_ifs with hfull
      · rfl
      · simp [record, hne]
    · rw [userLimit_state_of_no_key T rl c (fun k2 hk2 => hkey ⟨k2, hk2⟩)]
  · intro rl1 rl2 hseq hwin hmax
    by_cases hkey : ∃ k2, c.Get "user_id" = some (.string k2)
    · obtain ⟨userID, hkey⟩ := hkey
      have hs := hseq userID hkey
      rw [userLimit_eq T rl1 c userID hkey, userLimit_eq T rl2 c userID hkey, hs, hwin, hmax]
      split_ifs with hfull
      · refine ⟨rfl, fun k hk => ?_⟩
        rw [hkey] at hk
        simp only [Option.some.injEq, Value.string.injEq] at hk
        subst hk
        exact hs
      · refine ⟨rfl, fun k hk => ?_⟩
        rw [hkey] at hk
        simp only [Option.some.injEq, Value.string.injEq] at hk
        subst hk
        simp [record]
    · constructor
      · cases hget : c.Get "user_id" with
        | none => simp [RateLimiter.Limit, hget]
        | some v =>
          cases v with
          | string s => exact absurd ⟨s, hget⟩ hkey
          | user u => simp [RateLimiter.Limit, hget]
          | permissions ps => simp [RateLimiter.Limit, hget]
          | other => simp [RateLimiter.Limit, hget]
      · intro k hk
        exact absurd ⟨k, hk⟩ hkey

/-- C27, with the limiter of the router after four requests from 10.0.0.1 and
the same limiter holding a sequence for 10.0.0.2 as well: a fifth request
from 10.0.0.1 gets the same answer from both, the same sequence is stored for
10.0.0.1, and the sequence of 10.0.0.2 is as it was. -/
theorem limiter_keys_independent_witness :
    ((IPRateLimiter.Limit (5 * Second) (afterFour, fromIP "10.0.0.1")).2 =
        (IPRateLimiter.Limit (5 * Second)
          ({ afterFour with
              ipRequestTimes := record afterFour.ipRequestTimes "10.0.0.2" [0, 1, 2, 3, 4] },
            fromIP "10.0.0.1")).2 ∧
      (IPRateLimiter.Limit (5 * Second) (afterFour, fromIP "10.0.0.1")).1.ipRequestTimes
          "10.0.0.1" =
        (IPRateLimiter.Limit (5 * Second)
          ({ afterFour with
              ipRequestTimes := record afterFour.ipRequestTimes "10.0.0.2" [0, 1, 2, 3, 4] },
            fromIP "10.0.0.1")).1.ipRequestTimes "10.0.0.1") ∧
      (IPRateLimiter.Limit (5 * Second)
          ({ afterFour with
              ipRequestTimes := record afterFour.ipRequestTimes "10.0.0.2" [0, 1, 2, 3, 4] },
            fromIP "10.0.0.1")).1.ipRequestTimes "10.0.0.2" = some [0, 1, 2, 3, 4] :=
  ⟨(limiter_keys_independent (5 * Second) (fromIP "10.0.0.1")).2.1 afterFour
      { afterFour with
        ipRequestTimes := record afterFour.ipRequestTimes "10.0.0.2" [0, 1, 2, 3, 4] }
      (by decide) rfl rfl,
    ((limiter_keys_independent (5 * Second) (fromIP "10.0.0.1")).1
      { afterFour with
        ipRequestTimes := record afterFour.ipRequestTimes "10.0.0.2" [0, 1, 2, 3, 4] }
      "10.0.0.2" (by decide)).trans (by decide)⟩
/-! ## The number of pages -/

/-- A Go `int` within the range of 64 bits is its own value. -/
theorem wrapInt_of_fits (n : Int) (hlo : -9223372036854775808 ≤ n)
    (hhi : n ≤ 9223372036854775807) : wrapInt n = n := by
  unfold wrapInt
  omega

/-- C23. The function `calculateTotalPages` is the ceiling division: for
`totalItems ≥ 0` and `limit > 0` whose sum fits a Go `int`, the result `p`
satisfies `p * limit ≥ totalItems` and is at most every integer `q` with
`q * limit ≥ totalItems`, so that `p = 0` exactly when `totalItems = 0`; and
for the limit 0 the result is 0, for every number of items. -/
theorem calculateTotalPages_ceiling (totalItems limit : Int) (hitems : 0 ≤ totalItems)
    (hlimit : 0 < limit) (hfits : totalItems + limit ≤ 9223372036854775807) :
    totalItems ≤ calculateTotalPages totalItems limit * limit ∧
      (∀ q : Int, totalItems ≤ q * limit → calculateTotalPages totalItems limit ≤ q) ∧
      (calculateTotalPages totalItems limit = 0 ↔ totalItems = 0) ∧
      ∀ n : Int, calculateTotalPages n 0 = 0 := by
  have hne : limit ≠ 0 := by omega
  have hdiv : (totalItems + limit - 1).tdiv limit = (totalItems + limit - 1) / limit :=
    Int.tdiv_eq_ediv (by omega) (by omega)
  have hlo : (totalItems + limit - 1) / limit * limit ≤ totalItems + limit - 1 :=
    Int.ediv_mul_le _ hne
  have hhi : totalItems + limit - 1 < ((totalItems + limit - 1) / limit + 1) * limit :=
    Int.lt_ediv_add_one_mul_self _ hlimit
  have hnonneg : 0 ≤ (totalItems + limit - 1) / limit := Int.ediv_nonneg (by omega) (by omega)
  have hle : (totalItems + limit - 1) / limit ≤ totalItems + limit - 1 := by
    nlinarith
  have hcalc : calculateTotalPages totalItems limit = (totalItems + limit - 1) / limit := by
    unfold calculateTotalPages
    rw [if_neg hne, wrapInt_of_fits (totalItems + limit) (by omega) (by omega),
      wrapInt_of_fits (totalItems + limit - 1) (by omega) (by omega), hdiv,
      wrapInt_of_fits _ (by omega) (by omega)]
  rw [hcalc]
  refine ⟨by nlinarith, fun q hq => ?_, ⟨fun h => ?_, fun h => ?_⟩, fun n => by
    simp [calculateTotalPages]⟩
  · by_contra hlt
    have h1 : (q + 1) * limit ≤ (totalItems + limit - 1) / limit * limit :=
      Int.mul_le_mul_of_nonneg_right (by omega) (by omega)
    nlinarith
  · rw [h] at hhi
    omega
  · subst h
    have : (0 + limit - 1) / limit < 1 := by
      apply Int.ediv_lt_of_lt_mul hlimit
      omega
    omega

/-- C23, at 21 items on pages of 10: three pages. -/
theorem calculateTotalPages_ceiling_witness :
    calculateTotalPages 21 10 = 3 ∧ (21 : Int) ≤ calculateTotalPages 21 10 * 10 :=
  ⟨by decide, (calculateTotalPages_ceiling 21 10 (by decide) (by decide) (by decide)).1⟩
/-! ## The answer to a rating -/

/-- C30. The answer of `DishesServiceImpl.RateDish` carries the identifier of
the stored rating in its field `DishId`: rating `stew` with 5 in the kitchen
`dishes0`, whose repository stores the rating under the identifier 0707..., is
answered with `Rating` 5 and `ID` 0707..., and with `DishId` 0707... as well,
which is not the identifier 0505... of the dish that was rated. -/
theorem rating_response_dish_id :
    (DishesServiceImpl.RateDish dishes0 ⟨5⟩ alice.ID stew.ID tenant1.String redis0).1 =
        .ok { ID := ⟨List.replicate 16 7, rfl⟩
              Rating := 5
              DishId := ⟨List.replicate 16 7, rfl⟩ } ∧
      dishes0.RateDish ⟨UUID.Nil, stew.ID, alice.ID, 5⟩ =
        .ok ⟨⟨List.replicate 16 7, rfl⟩, stew.ID, alice.ID, 5⟩ ∧
      stew.ID ≠ ⟨List.replicate 16 7, rfl⟩ := by
  decide

/-! ## The tenant scope and the textual form of the tenant -/

/-- C24. The tenant-scope check of `AuthMiddleware` compares strings: `alice`
of `tenant1`, who lacks "admin", asks for the path segment
01234567-89AB-CDEF-0123-456789ABCDEF; `uuid.Parse` reads that segment as
`tenant1` and the tenant resolver lets the request pass, publishing the
tenant in its canonical form, but `AuthMiddleware` answers 401 "Unauthorized
access" and aborts. -/
theorem tenant_scope_compares_strings :
    Parse "01234567-89AB-CDEF-0123-456789ABCDEF" = .ok alice.RestaurantID ∧
      isAdmin alice.Permissions = false ∧
      (MultiTenantRouting aliceUpper).aborted = false ∧
      (MultiTenantRouting aliceUpper).written = [] ∧
      (MultiTenantRouting aliceUpper).Get "restaurant" =
        some (.string "01234567-89ab-cdef-0123-456789abcdef") ∧
      (AuthMiddleware "secret" parse0 repo0 aliceUpper).written =
        [⟨401, [("message", "Unauthorized access")]⟩] ∧
      (AuthMiddleware "secret" parse0 repo0 aliceUpper).aborted = true := by
  decide

/-! ## Registration while the credential store fails -/

/-- C28. `Register` treats every error of the lookup by email as the absence
of the user: with the store `repoDown`, whose lookup fails on a refused
connection, the registration of the email of `alice` in `tenant1` hands a
user with that email to `Create` and returns no error. -/
theorem register_ignores_lookup_failure :
    repoDown.FindByEmail "alice@pony.example" tenant1 =
        .error "dial tcp 10.0.0.9:5432: connect: connection refused" ∧
      AuthServiceImpl.Register repoDown bcrypt0
          ⟨"mallory", "alice@pony.example", "pw", ["customer"]⟩ tenant1 =
        { err := none
          created :=
            [{ ID := UUID.Nil
               Name := "mallory"
               Email := "alice@pony.example"
               Password := "hash-pw"
               Permissions := [⟨1, "customer"⟩]
               RestaurantID := tenant1 }] } := by
  decide

/-! ## Updates -/

/-- C21. The two `Update` methods of the services hand the repository the
entity they found, not the request: the result of `DishesServiceImpl.Update`
is the same for every name, description, price and image of the request, and
so is that of `RestaurantsServiceImpl.Update`. The request `soupRequest` for
`stew` (the repository `dishes0` stores what it is handed) is answered with
the name, description, price and image of `stew`, and the request
`innRequest` for `pony` with those of `pony`. -/
theorem update_hands_found_entity :
    (∀ (repo : DishesRepository) (req : UpdateDishRequest) (base : DishBase) (userId : UUID)
        (restaurantId : String) (redis : Redis),
      DishesServiceImpl.Update repo { req with toDishBase := base } userId restaurantId redis =
        DishesServiceImpl.Update repo req userId restaurantId redis) ∧
      (DishesServiceImpl.Update dishes0 soupRequest root.ID tenant1.String redis0).1 =
        .ok { ID := stew.ID
              Name := "stew"
              Description := "rabbit stew"
              Price := ⟨4621819117588971520⟩
              ImageUrl := "https://img.example/stew.png" } ∧
      (∀ (repo : RestaurantsRepository) (req : UpdateRestaurantRequest) (base : RestaurantBase),
        RestaurantsServiceImpl.Update repo { req with toRestaurantBase := base } =
          RestaurantsServiceImpl.Update repo req) ∧
      RestaurantsServiceImpl.Update restaurants0 innRequest =
        .ok { ID := pony.ID
              Name := "The Dancing Pony"
              Description := "an inn"
              Location := "Bree"
              ImageUrl := "https://img.example/pony.png" } := by
  refine ⟨fun _ _ _ _ _ _ => rfl, by decide, fun _ _ _ => rfl, by decide⟩

/-! ## Pages read from the cache -/

/-- C25. A page read from the cache has lost its pagination: the first call
of `DishesServiceImpl.FindAll` for page 1 of 10 of `tenant1`, on the empty
cache, answers with the page of `stew`, `CurrentPage` 1, `TotalPages` 1 and
`TotalItems` 1 and caches the page; the second call, with the same arguments
on the cache the first one left, answers with the same dishes and with 0 in
the three fields. The same happens with `RestaurantsServiceImpl.FindAll`. -/
theorem cached_page_loses_pagination :
    (DishesServiceImpl.FindAll dishes0 json1 1 10 tenant1.String redisEmpty).1 =
        .ok { Dishes := [toDishResponse stew], CurrentPage := 1, TotalPages := 1,
              TotalItems := 1 } ∧
      (DishesServiceImpl.FindAll dishes0 json1 1 10 tenant1.String redisEmpty).2.Get
          (listKey 1 10 tenant1.String) = .ok "[stew]" ∧
      (DishesServiceImpl.FindAll dishes0 json1 1 10 tenant1.String
          (DishesServiceImpl.FindAll dishes0 json1 1 10 tenant1.String redisEmpty).2).1 =
        .ok { Dishes := [toDishResponse stew], CurrentPage := 0, TotalPages := 0,
              TotalItems := 0 } ∧
      (RestaurantsServiceImpl.FindAll restaurants0 jsonRestaurants0 1 10 redisEmpty).1 =
        some (.ok { Restaurants := [toRestaurantResponse pony], CurrentPage := 1,
                    TotalPages := 1, TotalItems := 1 }) ∧
      (RestaurantsServiceImpl.FindAll restaurants0 jsonRestaurants0 1 10
          (RestaurantsServiceImpl.FindAll restaurants0 jsonRestaurants0 1 10 redisEmpty).2).1 =
        some (.ok { Restaurants := [toRestaurantResponse pony], CurrentPage := 0,
                    TotalPages := 0, TotalItems := 0 }) := by
  decide
/-! ## The bodies of the rejections -/

/-- C22, as the spec has it, fails: the answer of `AuthMiddleware` to a
request without a token has the single key "message", not "error". -/
theorem auth_rejection_keyed_message :
    (AuthMiddleware "secret" parse0 repo0 (request0 tenant1.String "" "10.0.0.1")).written =
        [⟨401, [("message", "Authorization token is required")]⟩] ∧
      ¬ ∃ error : String,
        (AuthMiddleware "secret" parse0 repo0 (request0 tenant1.String "" "10.0.0.1")).written =
          [⟨401, [("error", error)]⟩] := by
  refine ⟨by decide, ?_⟩
  rintro ⟨error, h⟩
  have hw : (AuthMiddleware "secret" parse0 repo0
      (request0 tenant1.String "" "10.0.0.1")).written =
      [⟨401, [("message", "Authorization token is required")]⟩] := by decide
  rw [hw] at h
  simp at h

/-- C22, amended. Every gate either writes nothing or appends one response
whose body has a single key with a string value, and whose status is among
400, 401, 403, 429 and 500: `AuthMiddleware` writes 401 under the key
"message"; `PermissionMiddleware` writes 403 or 500, `MultiTenantRouting`
400, the limiter by address 429 and the limiter by user 401, 429 or 500, all
four under the key "error". -/
theorem rejection_envelopes (c : Context) :
    (∀ (jwtSecret : String) (parse : TokenParser) (userRepo : UserRepository),
      (AuthMiddleware jwtSecret parse userRepo c).written = c.written ∨
        ∃ message : String, (AuthMiddleware jwtSecret parse userRepo c).written =
          c.written ++ [⟨401, [("message", message)]⟩]) ∧
      (∀ requiredPermissions : List String,
        (PermissionMiddleware requiredPermissions c).written = c.written ∨
          ∃ (status : Nat) (error : String), (status = 403 ∨ status = 500) ∧
            (PermissionMiddleware requiredPermissions c).written =
              c.written ++ [⟨status, [("error", error)]⟩]) ∧
      ((MultiTenantRouting c).written = c.written ∨
        ∃ error : String, (MultiTenantRouting c).written =
          c.written ++ [⟨400, [("error", error)]⟩]) ∧
      (∀ (T : Time) (rl : IPRateLimiter),
        (IPRateLimiter.Limit T (rl, c)).2.written = c.written ∨
          ∃ error : String, (IPRateLimiter.Limit T (rl, c)).2.written =
            c.written ++ [⟨429, [("error", error)]⟩]) ∧
      ∀ (T : Time) (rl : RateLimiter),
        (RateLimiter.Limit T (rl, c)).2.written = c.written ∨
          ∃ (status : Nat) (error : String), (status = 401 ∨ status = 429 ∨ status = 500) ∧
            (RateLimiter.Limit T (rl, c)).2.written =
              c.written ++ [⟨status, [("error", error)]⟩] := by
  refine ⟨fun jwtSecret parse userRepo => ?_, fun requiredPermissions => ?_, ?_,
    fun T rl => ?_, fun T rl => ?_⟩
  · rcases AuthMiddleware_cases jwtSecret parse userRepo c with ⟨message, h⟩ | ⟨userID, user, _, _, h⟩
    · exact Or.inr ⟨message, by rw [h]; rfl⟩
    · exact Or.inl (by rw [h]; rfl)
  · cases hget : c.Get "permissions" with
    | none =>
      right
      refine ⟨403, "Forbidden: no permissions found", Or.inl rfl, ?_⟩
      simp [PermissionMiddleware, hget, forbidden, Context.JSON, Context.Abort, StatusForbidden]
    | some v =>
      cases v with
      | permissions permArray =>
        rw [PermissionMiddleware_held requiredPermissions c permArray hget]
        cases permArray.any (fun perm => requiredPermissions.contains perm.Name) with
        | true => exact Or.inl rfl
        | false => exact Or.inr ⟨403, _, Or.inl rfl, rfl⟩
      | string s =>
        right
        refine ⟨500, "Internal server error: unexpected permissions format", Or.inr rfl, ?_⟩
        simp [PermissionMiddleware, hget, forbidden, Context.JSON, Context.Abort,
          StatusInternalServerError]
      | user u =>
        right
        refine ⟨500, "Internal server error: unexpected permissions format", Or.inr rfl, ?_⟩
        simp [PermissionMiddleware, hget, forbidden, Context.JSON, Context.Abort,
          StatusInternalServerError]
      | other =>
        right
        refine ⟨500, "Internal server error: unexpected permissions format", Or.inr rfl, ?_⟩
        simp [PermissionMiddleware, hget, forbidden, Context.JSON, Context.Abort,
          StatusInternalServerError]
  · cases hparse : Parse (c.Param "restaurantId") with
    | error e =>
      right
      refine ⟨"Invalid restaurant ID", ?_⟩
      simp [MultiTenantRouting, hparse, Context.JSON, Context.Abort, StatusBadRequest]
    | ok u =>
      left
      simp [MultiTenantRouting, hparse, Context.Set]
  · rw [ipLimit_eq]
    split_ifs with hfull
    · exact Or.inr ⟨_, rfl⟩
    · exact Or.inl rfl
  · cases hget : c.Get "user_id" with
    | none =>
      right
      refine ⟨401, "User not authenticated", Or.inl rfl, ?_⟩
      simp [RateLimiter.Limit, hget, Context.JSON, StatusUnauthorized]
    | some v =>
      cases v with
      | string k =>
        rw [userLimit_eq T rl c k hget]
        split_ifs with hfull
        · exact Or.inr ⟨429, _, Or.inr (Or.inl rfl), rfl⟩
        · exact Or.inl rfl
      | user u =>
        right
        refine ⟨500, "Invalid user ID", Or.inr (Or.inr rfl), ?_⟩
        simp [RateLimiter.Limit, hget, Context.JSON, Context.Abort, StatusInternalServerError]
      | permissions ps =>
        right
        refine ⟨500, "Invalid user ID", Or.inr (Or.inr rfl), ?_⟩
        simp [RateLimiter.Limit, hget, Context.JSON, Context.Abort, StatusInternalServerError]
      | other =>
        right
        refine ⟨500, "Invalid user ID", Or.inr (Or.inr rfl), ?_⟩
        simp [RateLimiter.Limit, hget, Context.JSON, Context.Abort, StatusInternalServerError]

/-! ## Helper lemmas: decimal numerals -/

theorem digitChar_digit (m : Nat) (h : m < 10) :
    (Nat.digitChar m).isDigit = true ∧ (((Nat.digitChar m).toNat - 48 : Nat) : Int) = m := by
  interval_cases m <;> decide

theorem digitsValue_append (ds : List Char) (d : Char) :
    digitsValue (ds ++ [d]) = digitsValue ds * 10 + ((d.toNat - 48 : Nat) : Int) := by
  simp [digitsValue, List.foldl_append]

/-- The digits `Nat.toDigitsCore` puts before the ones it is handed: decimal
digits, at least one, whose value is the number. -/
theorem toDigitsCore_digits : ∀ (fuel n : Nat) (ds : List Char), n < fuel →
    ∃ pre : List Char, Nat.toDigitsCore 10 fuel n ds = pre ++ ds ∧ pre ≠ [] ∧
      pre.all Char.isDigit = true ∧ digitsValue pre = n := by
  intro fuel
  induction fuel with
  | zero => intro n ds h; omega
  | succ fuel ih =>
    intro n ds h
    obtain ⟨hdigit, hval⟩ := digitChar_digit (n % 10) (by omega)
    by_cases hq : n / 10 = 0
    · refine ⟨[Nat.digitChar (n % 10)], by simp [Nat.toDigitsCore, hq], by simp, by simp [hdigit],
        ?_⟩
      have : n % 10 = n := by omega
      simp only [digitsValue, List.foldl_cons, List.foldl_nil, zero_mul, zero_add]
      rw [hval, this]
    · obtain ⟨pre, hpre, hne, hall, hv⟩ := ih (n / 10) (Nat.digitChar (n % 10) :: ds) (by omega)
      refine ⟨pre ++ [Nat.digitChar (n % 10)], by simp [Nat.toDigitsCore, hq, hpre], by simp,
        by simp [hall, hdigit], ?_⟩
      rw [digitsValue_append, hv, hval]
      omega

/-- The decimal numeral of a non-negative Go `int`, as `%d` writes it:
decimal digits, at least one, whose value is the number. -/
theorem toString_digits (p : Int) (hp : 0 ≤ p) :
    (toString p).data ≠ [] ∧ (toString p).data.all Char.isDigit = true ∧
      digitsValue (toString p).data = p := by
  obtain ⟨n, rfl⟩ := Int.eq_ofNat_of_zero_le hp
  obtain ⟨pre, hpre, hne, hall, hv⟩ := toDigitsCore_digits (n + 1) n [] (by omega)
  have hdata : (toString (n : Int)).data = pre := by
    show (Nat.toDigitsCore 10 (n + 1) n []).asString.data = pre
    rw [hpre]
    simp [List.asString]
  rw [hdata]
  exact ⟨hne, hall, hv⟩

/-- The function `strconv.Atoi` reads the decimal numeral of a non-negative
Go `int` back to it. -/
theorem Atoi_toString (p : Int) (hp : 0 ≤ p) (hfits : p ≤ 9223372036854775807) :
    Atoi (toString p) = .ok p := by
  obtain ⟨hne, hall, hv⟩ := toString_digits p hp
  unfold Atoi
  cases hdata : (toString p).data with
  | nil => exact absurd hdata hne
  | cons c rest =>
    rw [hdata] at hall hv
    have hc : c.isDigit = true := by
      simp only [List.all_cons, Bool.and_eq_true] at hall
      exact hall.1
    have hplus : c ≠ '+' := by
      rintro rfl
      exact absurd hc (by decide)
    have hminus : c ≠ '-' := by
      rintro rfl
      exact absurd hc (by decide)
    have hdigits : unsigned (c :: rest) = c :: rest := by
      unfold unsigned
      split
      · rename_i heq
        simp only [List.cons.injEq] at heq
        exact absurd heq.1 hplus
      · rename_i heq
        simp only [List.cons.injEq] at heq
        exact absurd heq.1 hminus
      · rfl
    have hhead : ((c :: rest).head? = some '-') = False := by
      simp [hminus]
    simp only [hdigits, hall, hv, hhead]
    simp
    omega

/-- A run of characters that satisfy `p`, closed by a character that does
not, is determined by what starts with it. -/
theorem run_unique (p : Char → Bool) (x : Char) (hx : p x = false) :
    ∀ (a b u v : List Char), a.all p = true → b.all p = true →
      a ++ x :: u = b ++ x :: v → a = b ∧ u = v := by
  intro a
  induction a with
  | nil =>
    intro b u v _ hb h
    cases b with
    | nil => exact ⟨rfl, by simpa using h⟩
    | cons y b =>
      simp only [List.nil_append, List.cons_append, List.cons.injEq] at h
      simp only [List.all_cons, Bool.and_eq_true] at hb
      rw [← h.1, hx] at hb
      exact absurd hb.1 (by decide)
  | cons y a ih =>
    intro b u v ha hb h
    cases b with
    | nil =>
      simp only [List.nil_append, List.cons_append, List.cons.injEq] at h
      simp only [List.all_cons, Bool.and_eq_true] at ha
      rw [h.1, hx] at ha
      exact absurd ha.1 (by decide)
    | cons z b =>
      simp only [List.cons_append, List.cons.injEq] at h
      simp only [List.all_cons, Bool.and_eq_true] at ha hb
      obtain ⟨hab, huv⟩ := ih b u v ha.2 hb.2 h.2
      exact ⟨by rw [h.1, hab], huv⟩

/-- A run of characters that satisfy `p` at the end of a string, after a
character that does not, is determined by the string. -/
theorem run_after_unique (p : Char → Bool) (x : Char) (hx : p x = false)
    (u v a b : List Char) (ha : a.all p = true) (hb : b.all p = true)
    (h : u ++ x :: a = v ++ x :: b) : u = v ∧ a = b := by
  have hrev := congrArg List.reverse h
  simp only [List.reverse_append, List.reverse_cons, List.append_assoc, List.singleton_append]
    at hrev
  obtain ⟨hab, huv⟩ := run_unique p x hx a.reverse b.reverse u.reverse v.reverse
    (by simpa using ha) (by simpa using hb) hrev
  exact ⟨List.reverse_injective huv, List.reverse_injective hab⟩
/-! ## The pagination -/

/-- A number read by `strconv.Atoi` fits the Go `int`. -/
theorem Atoi_fits (s : String) (n : Int) (h : Atoi s = .ok n) :
    -9223372036854775808 ≤ n ∧ n ≤ 9223372036854775807 := by
  unfold Atoi at h
  simp only at h
  split_ifs at h with h1 h2 h3 h4 <;> simp only [Except.ok.injEq] at h <;> omega

/-- The value the controllers give a pagination parameter: the number read
from the string when there is one and it is positive, else the default. -/
theorem pagination_value (s : String) (d : Int) (hd : 1 ≤ d) (hfits : d ≤ 9223372036854775807) :
    1 ≤ (match Atoi s with
        | .error _ => d
        | .ok n => if n ≤ 0 then d else n) ∧
      (match Atoi s with
        | .error _ => d
        | .ok n => if n ≤ 0 then d else n) ≤ 9223372036854775807 ∧
      (∀ n : Int, Atoi s = .ok n → 0 < n →
        (match Atoi s with
          | .error _ => d
          | .ok n => if n ≤ 0 then d else n) = n) ∧
      ((¬ ∃ n : Int, Atoi s = .ok n ∧ 0 < n) →
        (match Atoi s with
          | .error _ => d
          | .ok n => if n ≤ 0 then d else n) = d) := by
  cases h : Atoi s with
  | error e => exact ⟨hd, hfits, fun n hn => by simp at hn, fun _ => rfl⟩
  | ok m =>
    have hm := Atoi_fits s m h
    by_cases hpos : m ≤ 0
    · simp only [if_pos hpos]
      exact ⟨hd, hfits, fun n hn hn0 => by
        simp only [Except.ok.injEq] at hn
        omega, fun _ => trivial⟩
    · simp only [if_neg hpos]
      exact ⟨by omega, hm.2, fun n hn _ => by
        simp only [Except.ok.injEq] at hn
        exact hn, fun hno => absurd ⟨m, rfl, by omega⟩ hno⟩

/-- C29, as the spec has it, fails on the offset: for the query
`page=3&limit=4611686018427387904` the controllers keep both values, which are
positive numbers of the Go `int`, and the offset `(page - 1) * limit` that the
repository computes from them wraps to -9223372036854775808. -/
theorem pagination_offset_wraps :
    ExtractPagination (paged (some "3") (some "4611686018427387904")) =
        (3, 4611686018427387904) ∧
      RestaurantsController.FindAll (fun page limit => (page, limit))
          (paged (some "3") (some "4611686018427387904")) = (3, 4611686018427387904) ∧
      offset 3 4611686018427387904 = -9223372036854775808 ∧
      offset (ExtractPagination (paged (some "3") (some "4611686018427387904"))).1
        (ExtractPagination (paged (some "3") (some "4611686018427387904"))).2 < 0 := by
  decide
/-- The request data, when `helper.ExtractRequestData` finds them, come with
the context as it was. -/
theorem ExtractRequestData_some (ctx ctx' : Context) (data : UUID × String)
    (h : ExtractRequestData ctx = (ctx', some data)) : ctx' = ctx := by
  unfold ExtractRequestData at h
  cases hu : GetUser ctx with
  | error e => simp [hu] at h
  | ok userId =>
    cases hr : GetRestaurantAsString ctx with
    | error e => simp [hu, hr] at h
    | ok restaurantId =>
      simp only [hu, hr, Prod.mk.injEq] at h
      exact h.1.symm

/-- With a limit other than 0, `RestaurantsServiceImpl.FindAll` does not
panic. -/
theorem restaurants_FindAll_returns (repo : RestaurantsRepository) (json : JsonRestaurants)
    (page limit : Int) (redis : Redis) (hlimit : limit ≠ 0) :
    (RestaurantsServiceImpl.FindAll repo json page limit redis).1 ≠ none := by
  unfold RestaurantsServiceImpl.FindAll
  simp only [intDiv, if_neg hlimit]
  cases redis.Get (restaurantListKey page limit) with
  | ok cachedData =>
    cases h : json.Unmarshal cachedData <;> simp [h]
  | error e =>
    cases repo.FindAll page limit with
    | error e2 => simp
    | ok found =>
      cases h : json.Marshal (found.1.map toRestaurantResponse) <;> simp [h]

/-- C29, amended. For every request, whatever its query string, the page and
the limit of `ExtractPagination` are at least 1 (and fit the Go `int`): each
is the number `strconv.Atoi` reads from the value of its key when there is
one and it is positive, and else the default, 1 for the page and 10 for the
limit; so an absent key gives the default and the decimal numeral of a
positive `int` is kept. The handlers `RestaurantsController.FindAll`,
`DishesController.FindAll` and `DishesController.Search` hand exactly these
two values to the service when they call it. With them
`RestaurantsServiceImpl.FindAll` does not divide by zero, and the offset
`(page - 1) * limit` of the repository is that product and not negative
provided the product fits the Go `int`. -/
theorem pagination_safe (ctx : Context) :
    (1 ≤ (ExtractPagination ctx).1 ∧ (ExtractPagination ctx).1 ≤ 9223372036854775807 ∧
        1 ≤ (ExtractPagination ctx).2 ∧ (ExtractPagination ctx).2 ≤ 9223372036854775807) ∧
      ((∀ n : Int, Atoi (ctx.DefaultQuery "page" "1") = .ok n → 0 < n →
          (ExtractPagination ctx).1 = n) ∧
        ((¬ ∃ n : Int, Atoi (ctx.DefaultQuery "page" "1") = .ok n ∧ 0 < n) →
          (ExtractPagination ctx).1 = 1) ∧
        (∀ n : Int, Atoi (ctx.DefaultQuery "limit" "10") = .ok n → 0 < n →
          (ExtractPagination ctx).2 = n) ∧
        ((¬ ∃ n : Int, Atoi (ctx.DefaultQuery "limit" "10") = .ok n ∧ 0 < n) →
          (ExtractPagination ctx).2 = 10)) ∧
      ((ctx.QueryParams "page" = none → (ExtractPagination ctx).1 = 1) ∧
        (ctx.QueryParams "limit" = none → (ExtractPagination ctx).2 = 10) ∧
        (∀ n : Int, 1 ≤ n → n ≤ 9223372036854775807 →
          ctx.QueryParams "page" = some (toString n) → (ExtractPagination ctx).1 = n) ∧
        (∀ n : Int, 1 ≤ n → n ≤ 9223372036854775807 →
          ctx.QueryParams "limit" = some (toString n) → (ExtractPagination ctx).2 = n)) ∧
      ((∀ (α : Type) (service : Int → Int → α),
          RestaurantsController.FindAll service ctx =
            service (ExtractPagination ctx).1 (ExtractPagination ctx).2) ∧
        (∀ (α : Type) (service : Int → Int → String → UUID → α),
          (DishesController.FindAll service ctx).2 = none ∨
            ∃ (restaurantId : String) (userId : UUID),
              (DishesController.FindAll service ctx).2 =
                some (service (ExtractPagination ctx).1 (ExtractPagination ctx).2
                  restaurantId userId)) ∧
        (∀ (α : Type) (service : String → Int → Int → String → UUID → α),
          (DishesController.Search service ctx).2 = none ∨
            ∃ (searchTerm restaurantId : String) (userId : UUID),
              (DishesController.Search service ctx).2 =
                some (service searchTerm (ExtractPagination ctx).1 (ExtractPagination ctx).2
                  restaurantId userId))) ∧
      (∀ (repo : RestaurantsRepository) (json : JsonRestaurants) (redis : Redis),
        (RestaurantsServiceImpl.FindAll repo json (ExtractPagination ctx).1
          (ExtractPagination ctx).2 redis).1 ≠ none) ∧
      (((ExtractPagination ctx).1 - 1) * (ExtractPagination ctx).2 ≤ 9223372036854775807 →
        offset (ExtractPagination ctx).1 (ExtractPagination ctx).2 =
            ((ExtractPagination ctx).1 - 1) * (ExtractPagination ctx).2 ∧
          0 ≤ offset (ExtractPagination ctx).1 (ExtractPagination ctx).2) := by
  have hpage := pagination_value (ctx.DefaultQuery "page" "1") 1 (by decide) (by decide)
  have hlimit := pagination_value (ctx.DefaultQuery "limit" "10") 10 (by decide) (by decide)
  have h1 : (ExtractPagination ctx).1 =
      match Atoi (ctx.DefaultQuery "page" "1") with
      | .error _ => 1
      | .ok n => if n ≤ 0 then 1 else n := rfl
  have h2 : (ExtractPagination ctx).2 =
      match Atoi (ctx.DefaultQuery "limit" "10") with
      | .error _ => 10
      | .ok n => if n ≤ 0 then 10 else n := rfl
  rw [← h1] at hpage
  rw [← h2] at hlimit
  obtain ⟨hp1, hp2, hp3, hp4⟩ := hpage
  obtain ⟨hl1, hl2, hl3, hl4⟩ := hlimit
  refine ⟨⟨hp1, hp2, hl1, hl2⟩, ⟨hp3, hp4, hl3, hl4⟩, ⟨?_, ?_, ?_, ?_⟩, ⟨fun α service => rfl, ?_, ?_⟩,
    fun repo json redis => restaurants_FindAll_returns repo json _ _ redis (by omega), ?_⟩
  · intro hq
    apply hp3 1 _ (by decide)
    simp only [Context.DefaultQuery, hq]
    decide
  · intro hq
    apply hl3 10 _ (by decide)
    simp only [Context.DefaultQuery, hq]
    decide
  · intro n hn hfits hq
    apply hp3 n _ (by omega)
    simp only [Context.DefaultQuery, hq]
    exact Atoi_toString n (by omega) hfits
  · intro n hn hfits hq
    apply hl3 n _ (by omega)
    simp only [Context.DefaultQuery, hq]
    exact Atoi_toString n (by omega) hfits
  · intro α service
    unfold DishesController.FindAll
    cases hdata : ExtractRequestData ctx with
    | mk ctx' data =>
      cases data with
      | none => exact Or.inl rfl
      | some d =>
        obtain ⟨userId, restaurantId⟩ := d
        have hctx := ExtractRequestData_some ctx ctx' _ hdata
        subst hctx
        exact Or.inr ⟨restaurantId, userId, rfl⟩
  · intro α service
    unfold DishesController.Search
    cases hdata : ExtractRequestData ctx with
    | mk ctx' data =>
      cases data with
      | none => exact Or.inl rfl
      | some d =>
        obtain ⟨userId, restaurantId⟩ := d
        have hctx := ExtractRequestData_some ctx ctx' _ hdata
        subst hctx
        by_cases hterm : ctx'.Query "searchTerm" = ""
        · left
          simp [hterm]
        · right
          refine ⟨ctx'.Query "searchTerm", restaurantId, userId, ?_⟩
          simp only [hterm, if_false]
          rfl
  · intro hfits
    have hnonneg : 0 ≤ ((ExtractPagination ctx).1 - 1) * (ExtractPagination ctx).2 :=
      mul_nonneg (by omega) (by omega)
    have hoff : offset (ExtractPagination ctx).1 (ExtractPagination ctx).2 =
        ((ExtractPagination ctx).1 - 1) * (ExtractPagination ctx).2 := by
      unfold offset
      rw [wrapInt_of_fits ((ExtractPagination ctx).1 - 1) (by omega) (by omega),
        wrapInt_of_fits _ (by omega) hfits]
    exact ⟨hoff, by rw [hoff]; exact hnonneg⟩

/-- C29, amended, at the query `page=0&limit=abc`: the page is 1 and the
limit 10. -/
theorem pagination_safe_witness :
    ExtractPagination (paged (some "0") (some "abc")) = (1, 10) ∧
      (1 ≤ (ExtractPagination (paged (some "0") (some "abc"))).1 ∧
        (ExtractPagination (paged (some "0") (some "abc"))).1 ≤ 9223372036854775807 ∧
        1 ≤ (ExtractPagination (paged (some "0") (some "abc"))).2 ∧
        (ExtractPagination (paged (some "0") (some "abc"))).2 ≤ 9223372036854775807) ∧
      offset (ExtractPagination (paged (some "0") (some "abc"))).1
          (ExtractPagination (paged (some "0") (some "abc"))).2 =
        ((ExtractPagination (paged (some "0") (some "abc"))).1 - 1) *
          (ExtractPagination (paged (some "0") (some "abc"))).2 :=
  ⟨by decide, (pagination_safe (paged (some "0") (some "abc"))).1,
    ((pagination_safe (paged (some "0") (some "abc"))).2.2.2.2.2 (by decide)).1⟩
/-! ## The cache keys -/

theorem hexEncode_length (bs : List (Fin 256)) : (hexEncode bs).length = 2 * bs.length := by
  induction bs with
  | nil => rfl
  | cons b bs ih => simp [hexEncode, ih]; omega

/-- The canonical form of an identifier has 36 characters. -/
theorem String_length (u : UUID) : u.String.data.length = 36 := by
  have h := u.size
  simp only [UUID.String, List.length_append, List.length_cons, hexEncode_length,
    List.length_take, List.length_drop, h]
  omega

/-- The method `UUID.String` is injective. -/
theorem String_injective (u v : UUID) (h : u.String = v.String) : u = v := by
  have hu := Parse_String u
  rw [h, Parse_String v] at hu
  simpa using hu.symm

/-- The parts of a key of the form
`head term _page_ digits _limit_ digits sep tenant`, read from its end: the
tenant by its length, each number as the run of digits after an underscore,
and the term as what is left. -/
theorem key_parts (A B C D T1 T2 P1 P2 L1 L2 t1 t2 : List Char)
    (hP1 : P1.all Char.isDigit = true) (hP2 : P2.all Char.isDigit = true)
    (hL1 : L1.all Char.isDigit = true) (hL2 : L2.all Char.isDigit = true)
    (ht : t1.length = t2.length)
    (h : A ++ T1 ++ (B ++ ['_']) ++ P1 ++ (C ++ ['_']) ++ L1 ++ D ++ t1 =
      A ++ T2 ++ (B ++ ['_']) ++ P2 ++ (C ++ ['_']) ++ L2 ++ D ++ t2) :
    T1 = T2 ∧ P1 = P2 ∧ L1 = L2 ∧ t1 = t2 := by
  obtain ⟨h1, htenant⟩ := List.append_inj' h ht
  obtain ⟨h2, _⟩ := List.append_inj' h1 rfl
  have h3 : (A ++ T1 ++ (B ++ ['_']) ++ P1 ++ C) ++ '_' :: L1 =
      (A ++ T2 ++ (B ++ ['_']) ++ P2 ++ C) ++ '_' :: L2 := by
    simpa [List.append_assoc] using h2
  obtain ⟨h4, hlimit⟩ := run_after_unique Char.isDigit '_' (by decide) _ _ L1 L2 hL1 hL2 h3
  obtain ⟨h5, _⟩ := List.append_inj' h4 rfl
  have h6 : (A ++ T1 ++ B) ++ '_' :: P1 = (A ++ T2 ++ B) ++ '_' :: P2 := by
    simpa [List.append_assoc] using h5
  obtain ⟨h7, hpage⟩ := run_after_unique Char.isDigit '_' (by decide) _ _ P1 P2 hP1 hP2 h6
  obtain ⟨h8, _⟩ := List.append_inj' h7 rfl
  exact ⟨List.append_cancel_left h8, hpage, hlimit, htenant⟩

/-- The characters of the key of a page of search results. -/
theorem searchKey_data (searchTerm : String) (page limit : Int) (restaurantId : String) :
    (searchKey searchTerm page limit restaurantId).data =
      "search_".data ++ searchTerm.data ++ ("_page".data ++ ['_']) ++ (toString page).data ++
        ("_limit".data ++ ['_']) ++ (toString limit).data ++ ",restaurant_".data ++
        restaurantId.data := by
  simp only [searchKey, String.data_append]
  rfl

/-- The characters of the key of a page of dishes. -/
theorem listKey_data (page limit : Int) (restaurantId : String) :
    (listKey page limit restaurantId).data =
      "all_dishes".data ++ [] ++ ("_page".data ++ ['_']) ++ (toString page).data ++
        ("_limit".data ++ ['_']) ++ (toString limit).data ++ "_restaurant_".data ++
        restaurantId.data := by
  simp only [listKey, String.data_append]
  rfl

/-- Two non-negative Go `int`s with the same decimal numeral are equal. -/
theorem toString_injective (p q : Int) (hp : 0 ≤ p) (hq : 0 ≤ q)
    (h : (toString p).data = (toString q).data) : p = q := by
  rw [← (toString_digits p hp).2.2, ← (toString_digits q hq).2.2, h]
/-- A read of the cache after a write under another key. -/
theorem Get_Set_of_ne (redis : Redis) (key key' value : String) (h : key' ≠ key) :
    (redis.Set key value).Get key' = redis.Get key' := by
  simp [Redis.Get, Redis.Set, h]

/-- The cache `DishesServiceImpl.Search` leaves answers a key other than its
own as the cache it found. -/
theorem Search_cache (repo : DishesRepository) (json : JsonList) (searchTerm : String)
    (page limit : Int) (restaurantId : String) (redis : Redis) (key : String)
    (h : key ≠ searchKey searchTerm page limit restaurantId) :
    (DishesServiceImpl.Search repo json searchTerm page limit restaurantId redis).2.Get key =
      redis.Get key := by
  cases hg : redis.Get (searchKey searchTerm page limit restaurantId) with
  | ok cachedData =>
    cases hj : json.Unmarshal cachedData <;> simp [DishesServiceImpl.Search, hg, hj]
  | error e =>
    cases hr : repo.Search searchTerm page limit restaurantId with
    | error e2 => simp [DishesServiceImpl.Search, hg, hr]
    | ok found =>
      obtain ⟨dishes, total⟩ := found
      cases hj : json.Marshal
          { Dishes := dishes.map toDishResponse
            CurrentPage := page
            TotalPages := calculateTotalPages total limit
            TotalItems := total } with
      | error e3 => simp [DishesServiceImpl.Search, hg, hr, hj]
      | ok dishesJSON =>
        simp only [DishesServiceImpl.Search, hg, hr, hj]
        exact Get_Set_of_ne redis _ key dishesJSON h

/-- The result of `DishesServiceImpl.Search` depends on the cache through the
entry of its key only. -/
theorem Search_result (repo : DishesRepository) (json : JsonList) (searchTerm : String)
    (page limit : Int) (restaurantId : String) (redis redis' : Redis)
    (h : redis'.Get (searchKey searchTerm page limit restaurantId) =
      redis.Get (searchKey searchTerm page limit restaurantId)) :
    (DishesServiceImpl.Search repo json searchTerm page limit restaurantId redis').1 =
      (DishesServiceImpl.Search repo json searchTerm page limit restaurantId redis).1 := by
  cases hg : redis.Get (searchKey searchTerm page limit restaurantId) with
  | ok cachedData =>
    rw [hg] at h
    cases hj : json.Unmarshal cachedData <;> simp [DishesServiceImpl.Search, hg, h, hj]
  | error e =>
    rw [hg] at h
    cases hr : repo.Search searchTerm page limit restaurantId with
    | error e2 => simp [DishesServiceImpl.Search, hg, h, hr]
    | ok found =>
      obtain ⟨dishes, total⟩ := found
      cases hj : json.Marshal
          { Dishes := dishes.map toDishResponse
            CurrentPage := page
            TotalPages := calculateTotalPages total limit
            TotalItems := total } <;> simp [DishesServiceImpl.Search, hg, h, hr, hj]

/-- The cache `DishesServiceImpl.FindAll` leaves answers a key other than its
own as the cache it found. -/
theorem FindAll_cache (repo : DishesRepository) (json : Json) (page limit : Int)
    (restaurantId : String) (redis : Redis) (key : String)
    (h : key ≠ listKey page limit restaurantId) :
    (DishesServiceImpl.FindAll repo json page limit restaurantId redis).2.Get key =
      redis.Get key := by
  cases hg : redis.Get (listKey page limit restaurantId) with
  | ok cachedData =>
    cases hj : json.UnmarshalDishes cachedData <;> simp [DishesServiceImpl.FindAll, hg, hj]
  | error e =>
    cases hr : repo.FindAll page limit restaurantId with
    | error e2 => simp [DishesServiceImpl.FindAll, hg, hr]
    | ok found =>
      obtain ⟨dishes, total⟩ := found
      cases hj : json.MarshalDishes (dishes.map toDishResponse) with
      | error e3 => simp [DishesServiceImpl.FindAll, hg, hr, hj]
      | ok dishesJSON =>
        simp only [DishesServiceImpl.FindAll, hg, hr, hj]
        exact Get_Set_of_ne redis _ key dishesJSON h

/-- The result of `DishesServiceImpl.FindAll` depends on the cache through
the entry of its key only. -/
theorem FindAll_result (repo : DishesRepository) (json : Json) (page limit : Int)
    (restaurantId : String) (redis redis' : Redis)
    (h : redis'.Get (listKey page limit restaurantId) =
      redis.Get (listKey page limit restaurantId)) :
    (DishesServiceImpl.FindAll repo json page limit restaurantId redis').1 =
      (DishesServiceImpl.FindAll repo json page limit restaurantId redis).1 := by
  cases hg : redis.Get (listKey page limit restaurantId) with
  | ok cachedData =>
    rw [hg] at h
    cases hj : json.UnmarshalDishes cachedData <;> simp [DishesServiceImpl.FindAll, hg, h, hj]
  | error e =>
    rw [hg] at h
    cases hr : repo.FindAll page limit restaurantId with
    | error e2 => simp [DishesServiceImpl.FindAll, hg, h, hr]
    | ok found =>
      obtain ⟨dishes, total⟩ := found
      cases hj : json.MarshalDishes (dishes.map toDishResponse) <;>
        simp [DishesServiceImpl.FindAll, hg, h, hr, hj]

/-- C26. The cache keys do not alias: for search terms that are any strings,
pages and limits of at least 1 and tenants in the canonical form of their
identifiers, the key of `Search` determines the term, the page, the limit and
the tenant, and the key of `FindAll` the page, the limit and the tenant.
Hence, for two different tenants, a `Search` (a `FindAll`) for the one, run
on the cache that a `Search` (a `FindAll`) for the other has left, returns
what it would have returned on the cache as it was before. -/
theorem cache_keys_injective (term1 term2 : String) (p1 l1 p2 l2 : Int) (t1 t2 : UUID)
    (hp1 : 1 ≤ p1) (hl1 : 1 ≤ l1) (hp2 : 1 ≤ p2) (hl2 : 1 ≤ l2) :
    (searchKey term1 p1 l1 t1.String = searchKey term2 p2 l2 t2.String →
        term1 = term2 ∧ p1 = p2 ∧ l1 = l2 ∧ t1 = t2) ∧
      (listKey p1 l1 t1.String = listKey p2 l2 t2.String → p1 = p2 ∧ l1 = l2 ∧ t1 = t2) ∧
      (t1 ≠ t2 →
        ∀ (repo : DishesRepository) (json : JsonList) (jsonDishes : Json) (redis : Redis),
          (DishesServiceImpl.Search repo json term2 p2 l2 t2.String
              (DishesServiceImpl.Search repo json term1 p1 l1 t1.String redis).2).1 =
            (DishesServiceImpl.Search repo json term2 p2 l2 t2.String redis).1 ∧
          (DishesServiceImpl.FindAll repo jsonDishes p2 l2 t2.String
              (DishesServiceImpl.FindAll repo jsonDishes p1 l1 t1.String redis).2).1 =
            (DishesServiceImpl.FindAll repo jsonDishes p2 l2 t2.String redis).1) := by
  have hd1 := toString_digits p1 (by omega)
  have hd2 := toString_digits p2 (by omega)
  have hd3 := toString_digits l1 (by omega)
  have hd4 := toString_digits l2 (by omega)
  have hlen : t1.String.data.length = t2.String.data.length := by
    rw [String_length, String_length]
  have hsearch : searchKey term1 p1 l1 t1.String = searchKey term2 p2 l2 t2.String →
      term1 = term2 ∧ p1 = p2 ∧ l1 = l2 ∧ t1 = t2 := by
    intro h
    have hdata := congrArg String.data h
    rw [searchKey_data, searchKey_data] at hdata
    obtain ⟨hT, hP, hL, ht⟩ := key_parts _ _ _ _ _ _ _ _ _ _ _ _ hd1.2.1 hd2.2.1 hd3.2.1 hd4.2.1
      hlen hdata
    exact ⟨String.ext hT, toString_injective p1 p2 (by omega) (by omega) hP,
      toString_injective l1 l2 (by omega) (by omega) hL, String_injective t1 t2 (String.ext ht)⟩
  have hlist : listKey p1 l1 t1.String = listKey p2 l2 t2.String →
      p1 = p2 ∧ l1 = l2 ∧ t1 = t2 := by
    intro h
    have hdata := congrArg String.data h
    rw [listKey_data, listKey_data] at hdata
    obtain ⟨_, hP, hL, ht⟩ := key_parts _ _ _ _ _ _ _ _ _ _ _ _ hd1.2.1 hd2.2.1 hd3.2.1 hd4.2.1
      hlen hdata
    exact ⟨toString_injective p1 p2 (by omega) (by omega) hP,
      toString_injective l1 l2 (by omega) (by omega) hL, String_injective t1 t2 (String.ext ht)⟩
  refine ⟨hsearch, hlist, fun hne repo json jsonDishes redis => ⟨?_, ?_⟩⟩
  · apply Search_result
    apply Search_cache
    intro h
    exact hne (hsearch h.symm).2.2.2
  · apply FindAll_result
    apply FindAll_cache
    intro h
    exact hne (hlist h.symm).2.2

/-- C26, for the first page of ten of `tenant1` and of the tenant 0707...:
reading the page of the second after the page of the first has been cached
returns what it returns on the empty cache. -/
theorem cache_keys_injective_witness :
    (DishesServiceImpl.FindAll dishes0 json1 1 10 (UUID.String ⟨List.replicate 16 7, rfl⟩)
        (DishesServiceImpl.FindAll dishes0 json1 1 10 tenant1.String redisEmpty).2).1 =
      (DishesServiceImpl.FindAll dishes0 json1 1 10 (UUID.String ⟨List.replicate 16 7, rfl⟩)
        redisEmpty).1 :=
  ((cache_keys_injective "" "" 1 10 1 10 tenant1 ⟨List.replicate 16 7, rfl⟩ (by decide)
    (by decide) (by decide) (by decide)).2.2 (by decide) dishes0 ⟨fun _ => .error "", fun _ =>
      .error ""⟩ json1 redisEmpty).2

end DancingPony
